import Mathlib

/-!
Verification development for the HEXWAR core (hexwar-core, hexwar-evolve,
hexwar-cli/evolve.rs).  The Rust sources are shallowly embedded: machine
integers (i8/u8/u16/u32/usize) become Int/Nat, f32 scores and weights become
exact rationals, the FxHashMap board becomes an association list with
no-duplicate-keys invariant, and the ChaCha8/thread RNGs become explicit
streams of draws.  Every definition mirrors the corresponding Rust item;
deviations forced by the model (f32 rounding, panics, hash iteration order)
are recorded in comments next to the definition they concern.
-/

namespace Hexwar

/-! ### Board geometry (src/hexwar-core/src/board.rs) -/

/-- Board radius, `BOARD_RADIUS` in board.rs. -/
def BOARD_RADIUS : Int := 4

/-- Axial hex coordinate.  The source stores `q r : i8`; coordinates reachable
through the embedded operations stay far from the i8 range limits, so `Int`
models them exactly. -/
structure Hex where
  q : Int
  r : Int
deriving DecidableEq, Repr, Inhabited

/-- Mirror of `Hex::new`. -/
def Hex.mk2 (q r : Int) : Hex := ⟨q, r⟩

/-- Mirror of `Hex::is_valid`. -/
def Hex.is_valid (h : Hex) : Bool :=
  h.q.natAbs ≤ 4 && h.r.natAbs ≤ 4 && (h.q + h.r).natAbs ≤ 4

/-- Mirror of `Hex::distance_to_center`.  The i8 sum `|q|+|r|+|q+r|` is always
even, so the truncating division is exact. -/
def Hex.distance_to_center (h : Hex) : Int :=
  ((h.q.natAbs : Int) + (h.r.natAbs : Int) + ((h.q + h.r).natAbs : Int)) / 2

/-- Mirror of `Hex::distance_to`. -/
def Hex.distance_to (a b : Hex) : Int :=
  (((a.q - b.q).natAbs : Int) + ((a.r - b.r).natAbs : Int)
    + (((a.q + a.r) - (b.q + b.r)).natAbs : Int)) / 2

/-- Mirror of `DIRECTIONS` in board.rs: index 0=N, 1=NE, 2=SE, 3=S, 4=SW, 5=NW. -/
def DIRECTIONS : List (Int × Int) :=
  [(0, -1), (1, -1), (1, 0), (0, 1), (-1, 1), (-1, 0)]

/-- Mirror of `absolute_direction`. -/
def absolute_direction (facing relative : Nat) : Nat := (facing + relative) % 6

/-- Mirror of `direction_vector`. -/
def direction_vector (facing relative : Nat) : Int × Int :=
  DIRECTIONS.getD (absolute_direction facing relative) (0, 0)

/-! ### Piece catalog (src/hexwar-core/src/pieces.rs) -/

/-- Mirror of `MoveType` in pieces.rs. -/
inductive MoveType where
  | Step
  | Slide
  | Jump
  | NoMove
deriving DecidableEq, Repr

/-- Mirror of `Special` in pieces.rs. -/
inductive Special where
  | NoSpecial
  | SwapMove
  | SwapRotate
  | Rebirth
  | Phased
deriving DecidableEq, Repr

def DIR_F : Nat := 1
def DIR_FR : Nat := 2
def DIR_BR : Nat := 4
def DIR_B : Nat := 8
def DIR_BL : Nat := 16
def DIR_FL : Nat := 32

/-- Mirror of `ALL_DIRS` (0x3F). -/
def ALL_DIRS : Nat := 63

/-- Mirror of `FORWARD_ARC` (F, FL, FR). -/
def FORWARD_ARC : Nat := DIR_F + DIR_FL + DIR_FR

def DIAGONAL_DIRS : Nat := DIR_FL + DIR_FR + DIR_BL + DIR_BR

def FORWARD_BACK : Nat := DIR_F + DIR_B

def TRIDENT_DIRS : Nat := DIR_FL + DIR_FR + DIR_B

/-- Mirror of the `PieceType` struct (id and display name dropped; the table
index is the identifier used throughout the engine). -/
structure PieceType where
  move_type : MoveType
  move_range : Nat
  directions : Nat
  special : Special
  is_king : Bool
deriving DecidableEq, Repr

/-- Mirror of the static `PIECE_TYPES` table: all 32 archetypes in the source
order A1..A5, B1..B4, C1..C3, D1..D5, E1, E2, F1, F2, W1, W2, P1, G1,
K1..K5, B5, D6. -/
def PIECE_TYPES : List PieceType :=
  [ ⟨.Step, 1, DIR_F, .NoSpecial, false⟩,                 -- 0  A1 Pawn
    ⟨.Step, 1, ALL_DIRS, .NoSpecial, false⟩,              -- 1  A2 Guard
    ⟨.Step, 1, FORWARD_ARC, .NoSpecial, false⟩,           -- 2  A3 Scout
    ⟨.Step, 1, DIR_FL + DIR_FR + DIR_B, .NoSpecial, false⟩, -- 3 A4 Crab
    ⟨.Step, 1, DIR_FL + DIR_FR, .NoSpecial, false⟩,       -- 4  A5 Flanker
    ⟨.Step, 2, DIR_F, .NoSpecial, false⟩,                 -- 5  B1 Strider
    ⟨.Step, 2, DIR_FL + DIR_FR, .NoSpecial, false⟩,       -- 6  B2 Dancer
    ⟨.Step, 2, ALL_DIRS, .NoSpecial, false⟩,              -- 7  B3 Ranger
    ⟨.Step, 2, FORWARD_ARC, .NoSpecial, false⟩,           -- 8  B4 Hound
    ⟨.Step, 3, DIR_F, .NoSpecial, false⟩,                 -- 9  C1 Lancer
    ⟨.Step, 3, FORWARD_ARC, .NoSpecial, false⟩,           -- 10 C2 Dragoon
    ⟨.Step, 3, ALL_DIRS, .NoSpecial, false⟩,              -- 11 C3 Courser
    ⟨.Slide, 99, DIR_F, .NoSpecial, false⟩,               -- 12 D1 Pike
    ⟨.Slide, 99, FORWARD_BACK, .NoSpecial, false⟩,        -- 13 D2 Rook
    ⟨.Slide, 99, DIAGONAL_DIRS, .NoSpecial, false⟩,       -- 14 D3 Bishop
    ⟨.Slide, 99, FORWARD_ARC, .NoSpecial, false⟩,         -- 15 D4 Chariot
    ⟨.Slide, 99, ALL_DIRS, .NoSpecial, false⟩,            -- 16 D5 Queen
    ⟨.Jump, 2, FORWARD_ARC, .NoSpecial, false⟩,           -- 17 E1 Knight
    ⟨.Jump, 2, ALL_DIRS, .NoSpecial, false⟩,              -- 18 E2 Frog
    ⟨.Jump, 3, FORWARD_ARC, .NoSpecial, false⟩,           -- 19 F1 Locust
    ⟨.Jump, 3, ALL_DIRS, .NoSpecial, false⟩,              -- 20 F2 Cricket
    ⟨.NoMove, 0, 0, .SwapMove, false⟩,                    -- 21 W1 Warper
    ⟨.Step, 1, ALL_DIRS, .SwapRotate, false⟩,             -- 22 W2 Shifter
    ⟨.Step, 1, FORWARD_ARC, .Rebirth, false⟩,             -- 23 P1 Phoenix
    ⟨.Step, 1, ALL_DIRS, .Phased, false⟩,                 -- 24 G1 Ghost
    ⟨.Step, 1, ALL_DIRS, .NoSpecial, true⟩,               -- 25 K1 King Guard
    ⟨.Step, 1, FORWARD_ARC, .NoSpecial, true⟩,            -- 26 K2 King Scout
    ⟨.Step, 2, ALL_DIRS, .NoSpecial, true⟩,               -- 27 K3 King Ranger
    ⟨.Jump, 2, ALL_DIRS, .NoSpecial, true⟩,               -- 28 K4 King Frog
    ⟨.Slide, 99, DIR_F, .NoSpecial, true⟩,                -- 29 K5 King Pike
    ⟨.Step, 2, TRIDENT_DIRS, .NoSpecial, false⟩,          -- 30 B5 Triton
    ⟨.Slide, 99, TRIDENT_DIRS, .NoSpecial, false⟩ ]       -- 31 D6 Triskelion

instance : Inhabited PieceType := ⟨⟨.NoMove, 0, 0, .NoSpecial, false⟩⟩

/-- Mirror of `get_piece_type`.  Piece ids are `Fin 32`, matching the u8
indices 0..31 for which the source lookup is defined (out-of-range indices
panic in the source and are unrepresentable here). -/
def get_piece_type (i : Fin 32) : PieceType := PIECE_TYPES.getD i.val default

/-- Phoenix piece type index, `PT_P1` in game.rs. -/
def PT_P1 : Fin 32 := 23

/-! ### Core game types (src/hexwar-core/src/game.rs) -/

/-- Maximum rounds before the proximity rule, `MAX_ROUNDS` in game.rs. -/
def MAX_ROUNDS : Nat := 50

/-- Mirror of `Player`. -/
inductive Player where
  | White
  | Black
deriving DecidableEq, Repr

/-- Mirror of `Player::opponent`. -/
def Player.opponent : Player → Player
  | .White => .Black
  | .Black => .White

/-- Mirror of `GameResult`. -/
inductive GameResult where
  | Ongoing
  | WhiteWins
  | BlackWins
deriving DecidableEq, Repr

/-- Mirror of `Template`. -/
inductive Template where
  | A
  | B
  | C
  | D
  | E
  | F
deriving DecidableEq, Repr

/-- Mirror of `ActionType`. -/
inductive ActionType where
  | Move
  | Rotate
  | MoveOrRotate
deriving DecidableEq, Repr

/-- Mirror of `Constraint`. -/
inductive Constraint where
  | Any
  | Same
  | Different
deriving DecidableEq, Repr

/-- Mirror of `get_template_actions` together with the six static template
tables TEMPLATE_A..TEMPLATE_F. -/
def get_template_actions : Template → List (ActionType × Constraint)
  | .A => [(.Rotate, .Any), (.Move, .Same)]
  | .B => [(.Move, .Any), (.Rotate, .Any), (.Rotate, .Any)]
  | .C => [(.Move, .Any), (.Move, .Different), (.Rotate, .Any)]
  | .D => [(.Move, .Any), (.Rotate, .Different)]
  | .E => [(.MoveOrRotate, .Any)]
  | .F => [(.Move, .Any), (.Rotate, .Same)]

/-- Mirror of `Piece`: `facing` is a u8 in the source, always written with
values 0..5; `Nat` models it (all facing updates in the engine produce
values < 6). -/
structure Piece where
  piece_type : Fin 32
  owner : Player
  facing : Nat
deriving DecidableEq, Repr

/-- Mirror of `Piece::is_king`. -/
def Piece.is_king (p : Piece) : Bool := (get_piece_type p.piece_type).is_king

/-- Mirror of `Piece::special`. -/
def Piece.special (p : Piece) : Special := (get_piece_type p.piece_type).special

/-- Mirror of `Move`. -/
inductive Move where
  | Pass
  | Surrender
  | Movement (from_pos to_pos : Hex) (new_facing : Nat)
  | Rotate (pos : Hex) (new_facing : Nat)
  | Swap (from_pos target : Hex)
  | Rebirth (dest : Hex) (new_facing : Nat)
deriving DecidableEq, Repr

/-! ### Sparse board

The source keeps the board in an `FxHashMap<Hex, Piece>`.  The embedding uses
an association list with distinct keys; `find?`/`filter` give lookup and
removal, and insertion replaces an existing binding in place or appends.
Hash-map iteration order is unspecified in the source, so the list order is a
canonical choice; every property proved below is insensitive to it. -/

abbrev Board := List (Hex × Piece)

/-- Lookup, mirror of `FxHashMap::get`. -/
def boardGet (b : Board) (h : Hex) : Option Piece :=
  (b.find? (fun e => e.1 = h)).map (·.2)

/-- Key-membership, mirror of `FxHashMap::contains_key`. -/
def boardContains (b : Board) (h : Hex) : Bool := (boardGet b h).isSome

/-- Insertion, mirror of `FxHashMap::insert`: replace the binding in place
when the key is present, append otherwise. -/
def boardInsert (b : Board) (h : Hex) (p : Piece) : Board :=
  match b with
  | [] => [(h, p)]
  | e :: tl => if e.1 = h then (h, p) :: tl else e :: boardInsert tl h p

/-- Removal, mirror of `FxHashMap::remove` (the removed value is read with
`boardGet` where the source uses the return value). -/
def boardRemove (b : Board) (h : Hex) : Board :=
  b.filter (fun e => !(e.1 = h : Bool))

/-- Representation invariant of the association list: one binding per hex. -/
def boardWF (b : Board) : Prop := (b.map Prod.fst).Nodup

/-- Mirror of `GameState`. -/
structure GameState where
  board : Board
  white_king_pos : Option Hex
  black_king_pos : Option Hex
  current_player : Player
  white_template : Template
  black_template : Template
  action_index : Nat
  last_piece_pos : Option Hex
  round : Nat
  result : GameResult
  white_phoenix_captured : Bool
  black_phoenix_captured : Bool
deriving DecidableEq, Repr

/-- The loop body of `GameState::new` for one side: insert each placement,
remembering the last king hex seen. -/
def place_pieces (owner : Player) (acc : Board × Option Hex)
    (l : List (Fin 32 × Hex × Nat)) : Board × Option Hex :=
  l.foldl
    (fun acc e =>
      let piece : Piece := ⟨e.1, owner, e.2.2⟩
      let kp := if piece.is_king then some e.2.1 else acc.2
      (boardInsert acc.1 e.2.1 piece, kp))
    acc

namespace GameState

/-- Mirror of `GameState::new`: fold the two placement lists into the board,
remembering the last king hex seen for each side. -/
def new (white_pieces black_pieces : List (Fin 32 × Hex × Nat))
    (white_template black_template : Template) : GameState :=
  let w := place_pieces .White ([], none) white_pieces
  let wb := place_pieces .Black (w.1, none) black_pieces
  { board := wb.1
    white_king_pos := w.2
    black_king_pos := wb.2
    current_player := .White
    white_template := white_template
    black_template := black_template
    action_index := 0
    last_piece_pos := none
    round := 1
    result := .Ongoing
    white_phoenix_captured := false
    black_phoenix_captured := false }

/-- Mirror of `GameState::get_piece`. -/
def get_piece (s : GameState) (h : Hex) : Option Piece := boardGet s.board h

/-- Mirror of `GameState::current_template`. -/
def current_template (s : GameState) : Template :=
  match s.current_player with
  | .White => s.white_template
  | .Black => s.black_template

/-- Mirror of `GameState::current_action`. -/
def current_action (s : GameState) : Option (ActionType × Constraint) :=
  (get_template_actions s.current_template).get? s.action_index

/-- Mirror of `GameState::is_turn_complete`. -/
def is_turn_complete (s : GameState) : Bool :=
  (get_template_actions s.current_template).length ≤ s.action_index

end GameState

/-! ### Hex geometry helpers used by move generation (game.rs) -/

/-- Mirror of `iter_hex_ring`: all hexes at exactly `distance` from `center`,
walking the six edges of the hexagon. -/
def iter_hex_ring (center : Hex) (distance : Nat) : List Hex :=
  (List.range 6).flatMap (fun side =>
    let dir := DIRECTIONS.getD side (0, 0)
    let start := DIRECTIONS.getD ((side + 4) % 6) (0, 0)
    (List.range distance).map (fun step =>
      Hex.mk2 (center.q + distance * start.1 + step * dir.1)
              (center.r + distance * start.2 + step * dir.2)))

/-- Mirror of `in_forward_arc`.  The source converts the axial offset to f32
cartesian coordinates, takes `atan2`, and accepts an angular difference of at
most 75 degrees from the facing angle.  The engine only ever applies the test
to offsets on rings of radius 2 and 3 (the FORWARD_ARC jumpers E1 and F1);
those offsets all lie on the 30-degree grid, where "within 75 degrees" and
"within 60 degrees" coincide, and "within 60 degrees" of the facing direction
is exactly the integer test below (dot product ≥ 0 and dot² ≥ |v|²·cos²60°,
cleared of the common √3 factors).  The two tests were checked to agree with
the f32 computation on every ring-1/2/3 offset and facing.  `arcDot` is the
direction-dependent dot product numerator, with u = dq + 2·dr. -/
def arcDot (dq u : Int) (facing : Nat) : Int :=
  match facing % 6 with
  | 0 => -2 * u
  | 1 => 3 * dq - u
  | 2 => 3 * dq + u
  | 3 => 2 * u
  | 4 => u - 3 * dq
  | _ => -3 * dq - u

def in_forward_arc (from_pos to_pos : Hex) (facing : Nat) : Bool :=
  let dq := to_pos.q - from_pos.q
  let dr := to_pos.r - from_pos.r
  let u := dq + 2 * dr
  decide ((0 : Int) ≤ arcDot dq u facing) &&
    decide (3 * dq ^ 2 + u ^ 2 ≤ (arcDot dq u facing) ^ 2)

namespace GameState

/-! ### Move generation (game.rs, `legal_moves` and helpers)

Each `generate_*` source function pushes onto a shared `Vec<Move>`; the
embedding returns the list of pushed moves, and `legal_moves` concatenates in
the same order the source pushes. -/

/-- Mirror of `satisfies_constraint`. -/
def satisfies_constraint (s : GameState) (pos : Hex) : Constraint → Bool
  | .Any => true
  | .Same => s.last_piece_pos = some pos
  | .Different => !(s.last_piece_pos = some pos : Bool)

/-- Landing check shared by the walk generators: the body of the
`if let Some(occupant)`/`else` blocks of `generate_step_moves` (identical in
`generate_slide_moves` and `generate_jump_moves`). -/
def landingMoves (s : GameState) (pos : Hex) (piece : Piece) (is_ghost : Bool)
    (dest : Hex) : List Move :=
  match boardGet s.board dest with
  | some occupant =>
      if occupant.owner ≠ piece.owner then
        if !is_ghost && occupant.special ≠ .Phased then
          [.Movement pos dest piece.facing]
        else []
      else []
  | none => [.Movement pos dest piece.facing]

/-- Mirror of the inner `for _ in 0..pt.move_range` walk of
`generate_step_moves`: advance one hex at a time, stop at the board edge or
at the first occupant (capturable or not). -/
def stepWalk (s : GameState) (pos : Hex) (piece : Piece) (is_ghost : Bool)
    (dq dr : Int) (current : Hex) : Nat → List Move
  | 0 => []
  | fuel + 1 =>
      let next := Hex.mk2 (current.q + dq) (current.r + dr)
      if !next.is_valid then []
      else
        match boardGet s.board next with
        | some occupant =>
            if occupant.owner ≠ piece.owner then
              if !is_ghost && occupant.special ≠ .Phased then
                [.Movement pos next piece.facing]
              else []
            else []
        | none =>
            .Movement pos next piece.facing
              :: stepWalk s pos piece is_ghost dq dr next fuel

/-- Mirror of `generate_step_moves`. -/
def generate_step_moves (s : GameState) (pos : Hex) (piece : Piece)
    (is_ghost : Bool) : List Move :=
  let pt := get_piece_type piece.piece_type
  (List.range 6).flatMap (fun rel_dir =>
    if pt.directions / 2 ^ rel_dir % 2 = 0 then []
    else
      let d := direction_vector piece.facing rel_dir
      stepWalk s pos piece is_ghost d.1 d.2 pos pt.move_range)

/-- Mirror of the unbounded `loop` of `generate_slide_moves`.  The source
walks until the first invalid hex or occupant; along any of the six
directions one of the coordinates q, r changes by exactly 1 per step and a
valid hex keeps it in [-4,4], so the walk visits at most 9 valid hexes and a
fuel of 10 reproduces the loop exactly. -/
def slideFuel : Nat := 10

/-- Mirror of `generate_slide_moves`. -/
def generate_slide_moves (s : GameState) (pos : Hex) (piece : Piece)
    (is_ghost : Bool) : List Move :=
  let pt := get_piece_type piece.piece_type
  (List.range 6).flatMap (fun rel_dir =>
    if pt.directions / 2 ^ rel_dir % 2 = 0 then []
    else
      let d := direction_vector piece.facing rel_dir
      stepWalk s pos piece is_ghost d.1 d.2 pos slideFuel)

/-- Mirror of `generate_jump_moves`. -/
def generate_jump_moves (s : GameState) (pos : Hex) (piece : Piece)
    (is_ghost : Bool) : List Move :=
  let pt := get_piece_type piece.piece_type
  let is_fa := pt.directions = FORWARD_ARC
  (iter_hex_ring pos pt.move_range).flatMap (fun dest =>
    if !dest.is_valid then []
    else if is_fa && !in_forward_arc pos dest piece.facing then []
    else landingMoves s pos piece is_ghost dest)

/-- Mirror of `generate_destinations`. -/
def generate_destinations (s : GameState) (pos : Hex) (piece : Piece) :
    List Move :=
  let pt := get_piece_type piece.piece_type
  if pt.move_type = .NoMove then []
  else
    let is_ghost := piece.special = .Phased
    match pt.move_type with
    | .Jump => generate_jump_moves s pos piece is_ghost
    | .Step => generate_step_moves s pos piece is_ghost
    | .Slide => generate_slide_moves s pos piece is_ghost
    | .NoMove => []

/-- Mirror of `generate_swap_moves`. -/
def generate_swap_moves (s : GameState) (from_pos : Hex) : List Move :=
  match boardGet s.board from_pos with
  | none => []
  | some from_piece =>
      s.board.flatMap (fun e =>
        if e.1 ≠ from_pos && e.2.owner = from_piece.owner then
          [.Swap from_pos e.1]
        else [])

/-- Mirror of `generate_movement_moves`. -/
def generate_movement_moves (s : GameState) (pos : Hex) (piece : Piece) :
    List Move :=
  let pt := get_piece_type piece.piece_type
  generate_destinations s pos piece ++
    (if pt.special = .SwapMove then generate_swap_moves s pos else [])

/-- Mirror of `generate_rotation_moves`: rotations are skipped entirely for
omnidirectional pieces; note the source pushes every `new_facing in 0..6`,
including the piece's current facing. -/
def generate_rotation_moves (s : GameState) (pos : Hex) (piece : Piece) :
    List Move :=
  let pt := get_piece_type piece.piece_type
  (if pt.directions ≠ ALL_DIRS then
      (List.range 6).map (fun new_facing => .Rotate pos new_facing)
    else []) ++
    (if pt.special = .SwapRotate then generate_swap_moves s pos else [])

/-- Mirror of `generate_rebirth_moves`. -/
def generate_rebirth_moves (s : GameState) : List Move :=
  let phoenix_captured :=
    match s.current_player with
    | .White => s.white_phoenix_captured
    | .Black => s.black_phoenix_captured
  if !phoenix_captured then []
  else
    match (match s.current_player with
           | .White => s.white_king_pos
           | .Black => s.black_king_pos) with
    | none => []
    | some king_pos =>
        DIRECTIONS.flatMap (fun d =>
          let dest := Hex.mk2 (king_pos.q + d.1) (king_pos.r + d.2)
          if dest.is_valid && !boardContains s.board dest then
            (List.range 6).map (fun new_facing => .Rebirth dest new_facing)
          else [])

/-- Mirror of `legal_moves`. -/
def legal_moves (s : GameState) : List Move :=
  if s.result ≠ .Ongoing then []
  else
    match s.current_action with
    | none => []
    | some (action_type, constraint) =>
        [.Pass, .Surrender] ++
        s.board.flatMap (fun e =>
          if e.2.owner ≠ s.current_player then []
          else if !satisfies_constraint s e.1 constraint then []
          else
            match action_type with
            | .Move => generate_movement_moves s e.1 e.2
            | .Rotate => generate_rotation_moves s e.1 e.2
            | .MoveOrRotate =>
                generate_movement_moves s e.1 e.2 ++
                  generate_rotation_moves s e.1 e.2) ++
        (if action_type = .Move ∨ action_type = .MoveOrRotate then
            generate_rebirth_moves s
          else [])

/-! ### Move application (game.rs, `apply_move` and helpers) -/

/-- Mirror of `resolve_by_proximity`. -/
def resolve_by_proximity (s : GameState) : GameState :=
  match s.white_king_pos, s.black_king_pos with
  | none, _ => { s with result := .BlackWins }
  | some _, none => { s with result := .WhiteWins }
  | some wk, some bk =>
      let white_dist := wk.distance_to_center
      let black_dist := bk.distance_to_center
      if white_dist < black_dist then { s with result := .WhiteWins }
      else if black_dist < white_dist then { s with result := .BlackWins }
      else
        let white_count := (s.board.filter (fun e => e.2.owner = .White)).length
        let black_count := (s.board.filter (fun e => e.2.owner = .Black)).length
        if white_count > black_count then { s with result := .WhiteWins }
        else if black_count > white_count then { s with result := .BlackWins }
        else { s with result := .WhiteWins }

/-- Mirror of `end_turn`. -/
def end_turn (s : GameState) : GameState :=
  let s1 := { s with
    current_player := s.current_player.opponent
    action_index := 0
    last_piece_pos := none }
  let s2 :=
    if s1.current_player = .White then { s1 with round := s1.round + 1 } else s1
  if MAX_ROUNDS < s2.round ∧ s2.result = .Ongoing then resolve_by_proximity s2
  else s2

/-- Mirror of `apply_movement`.  The source's `expect` panics when `from` is
empty; the engine only feeds it moves from `legal_moves`, for which the
source is always occupied, so the empty case returns the state unchanged. -/
def apply_movement (s : GameState) (from_pos to_pos : Hex) (new_facing : Nat) :
    GameState :=
  match boardGet s.board from_pos with
  | none => s
  | some piece =>
      let b1 := boardRemove s.board from_pos
      let s1 :=
        match boardGet b1 to_pos with
        | some captured =>
            let s1 := { s with board := boardRemove b1 to_pos }
            let s1 :=
              if captured.is_king then
                { s1 with result :=
                    match s.current_player with
                    | .White => .WhiteWins
                    | .Black => .BlackWins }
              else s1
            if captured.piece_type = PT_P1 then
              match captured.owner with
              | .White => { s1 with white_phoenix_captured := true }
              | .Black => { s1 with black_phoenix_captured := true }
            else s1
        | none => { s with board := b1 }
      let piece := { piece with facing := new_facing }
      let s2 :=
        if piece.is_king then
          match s.current_player with
          | .White => { s1 with white_king_pos := some to_pos }
          | .Black => { s1 with black_king_pos := some to_pos }
        else s1
      { s2 with
        board := boardInsert s2.board to_pos piece
        last_piece_pos := some to_pos }

/-- Mirror of `apply_swap` (same panic-to-identity convention as
`apply_movement` for the impossible empty cases). -/
def apply_swap (s : GameState) (from_pos target : Hex) : GameState :=
  match boardGet s.board from_pos, boardGet s.board target with
  | some piece1, some piece2 =>
      let b := boardRemove (boardRemove s.board from_pos) target
      let b := boardInsert (boardInsert b from_pos piece2) target piece1
      let s1 := { s with board := b }
      let s2 :=
        if s1.white_king_pos = some from_pos then
          { s1 with white_king_pos := some target }
        else if s1.white_king_pos = some target then
          { s1 with white_king_pos := some from_pos }
        else s1
      let s3 :=
        if s2.black_king_pos = some from_pos then
          { s2 with black_king_pos := some target }
        else if s2.black_king_pos = some target then
          { s2 with black_king_pos := some from_pos }
        else s2
      { s3 with last_piece_pos := some from_pos }
  | _, _ => s

/-- Mirror of `apply_rebirth`. -/
def apply_rebirth (s : GameState) (dest : Hex) (new_facing : Nat) : GameState :=
  let phoenix : Piece := ⟨PT_P1, s.current_player, new_facing⟩
  let s1 := { s with
    board := boardInsert s.board dest phoenix
    last_piece_pos := some dest }
  match s.current_player with
  | .White => { s1 with white_phoenix_captured := false }
  | .Black => { s1 with black_phoenix_captured := false }

/-- Mirror of the `match mv` block at the head of `apply_move_internal`. -/
def apply_move_kind (s : GameState) : Move → GameState
  | .Pass => s
  | .Surrender =>
      { s with result :=
          match s.current_player with
          | .White => .BlackWins
          | .Black => .WhiteWins }
  | .Movement from_pos to_pos new_facing => apply_movement s from_pos to_pos new_facing
  | .Rotate pos new_facing =>
      { s with
        board := s.board.map (fun e =>
          if e.1 = pos then (e.1, { e.2 with facing := new_facing }) else e)
        last_piece_pos := some pos }
  | .Swap from_pos target => apply_swap s from_pos target
  | .Rebirth dest new_facing => apply_rebirth s dest new_facing

/-- Mirror of `apply_move` / `apply_move_internal`: perform the move, advance
`action_index`, and end the turn when the template is exhausted. -/
def apply_move (s : GameState) (mv : Move) : GameState :=
  let s1 := apply_move_kind s mv
  let s2 := { s1 with action_index := s1.action_index + 1 }
  if s2.is_turn_complete then end_turn s2 else s2

/-! ### Mobility (game.rs)

`count_piece_mobility` repeats the jump/step/slide walks of
`generate_destinations` with identical guards, counting instead of pushing,
so its value is the length of the generated destination list. -/

/-- Mirror of `count_piece_mobility`. -/
def count_piece_mobility (s : GameState) (pos : Hex) (piece : Piece) : Nat :=
  (generate_destinations s pos piece).length

/-- Mirror of `mobility`. -/
def mobility (s : GameState) (player : Player) : Nat :=
  (s.board.map (fun e =>
    if e.2.owner = player then count_piece_mobility s e.1 e.2 else 0)).sum

end GameState

/-! ### Evaluation (src/hexwar-core/src/eval.rs)

All f32 scores become exact rationals; the source's floating-point rounding
and summation order are the only divergence, and no property proved below
depends on rounding. -/

/-- Mirror of `Heuristics` (the `[f32; 32]` array becomes a function). -/
structure Heuristics where
  piece_values : Fin 32 → ℚ
  center_weight : ℚ
  mobility_weight : ℚ

/-- Mirror of `WIN_VALUE`. -/
def WIN_VALUE : ℚ := 100000

def KOTH_MAX_URGENCY : ℚ := 50

def KOTH_ROUND_LIMIT : ℚ := 50

/-- Mirror of `evaluate`. -/
def evaluate (s : GameState) (hr : Heuristics) : ℚ :=
  match s.result with
  | .WhiteWins => if s.current_player = .White then WIN_VALUE else -WIN_VALUE
  | .BlackWins => if s.current_player = .Black then WIN_VALUE else -WIN_VALUE
  | .Ongoing =>
      let current := s.current_player
      let material : ℚ :=
        (s.board.map (fun e =>
          let pt := get_piece_type e.2.piece_type
          let piece_value :=
            if pt.is_king then 0 else hr.piece_values e.2.piece_type
          let center_bonus :=
            hr.center_weight * (4 - (e.1.distance_to_center : ℚ))
          let value := piece_value + center_bonus
          if e.2.owner = current then value else -value)).sum
      let mobilityTerm : ℚ :=
        if 1 / 1000 < |hr.mobility_weight| then
          hr.mobility_weight *
            ((s.mobility current : ℚ) - (s.mobility current.opponent : ℚ))
        else 0
      let round_progress : ℚ := min ((s.round : ℚ) / KOTH_ROUND_LIMIT) 1
      let urgency := round_progress * round_progress * round_progress * KOTH_MAX_URGENCY
      let kothTerm : ℚ :=
        if 1 / 10 < urgency then
          let my_king_pos :=
            if current = .White then s.white_king_pos else s.black_king_pos
          let opp_king_pos :=
            if current = .White then s.black_king_pos else s.white_king_pos
          match my_king_pos, opp_king_pos with
          | some my_pos, some opp_pos =>
              urgency * ((opp_pos.distance_to_center : ℚ) - (my_pos.distance_to_center : ℚ))
          | some _, none => urgency * 4
          | none, some _ => -(urgency * 4)
          | none, none => 0
        else 0
      material + mobilityTerm + kothTerm

/-- Mirror of `evaluate_with_depth`. -/
def evaluate_with_depth (s : GameState) (hr : Heuristics) (depth : Int) : ℚ :=
  match s.result with
  | .WhiteWins =>
      let base : ℚ := if s.current_player = .White then WIN_VALUE else -WIN_VALUE
      base + (if 0 < base then (depth : ℚ) else -(depth : ℚ))
  | .BlackWins =>
      let base : ℚ := if s.current_player = .Black then WIN_VALUE else -WIN_VALUE
      base + (if 0 < base then (depth : ℚ) else -(depth : ℚ))
  | .Ongoing => evaluate s hr

/-! ### Alpha-beta search (src/hexwar-core/src/ai.rs)

The per-AI ChaCha8 RNG becomes an explicit stream `noise : Nat → ℚ` of unit
draws together with a cursor that every function threads through in source
order (one draw per leaf evaluation); `rng.gen::<f32>()` at cursor `k` is
`noise k`. -/

/-- Mirror of `NULL_MOVE_R`. -/
def NULL_MOVE_R : Int := 2

def LMR_MOVE_THRESHOLD : Nat := 3

def LMR_DEPTH_THRESHOLD : Int := 2

/-- Mirror of `NOISE_SCALE`. -/
def NOISE_SCALE : ℚ := 1 / 10

/-- Mirror of `move_score` (ordering heuristic, not legality). -/
def move_score (s : GameState) (mv : Move) (hr : Heuristics) : ℚ :=
  match mv with
  | .Pass => -1000
  | .Surrender => -50000
  | .Swap _ _ => 50
  | .Rotate _ _ => 0
  | .Rebirth _ _ => 40
  | .Movement from_pos to_pos _ =>
      let capture : ℚ :=
        match s.get_piece to_pos with
        | some victim =>
            if victim.owner ≠ s.current_player then
              (if (get_piece_type victim.piece_type).is_king then WIN_VALUE
               else hr.piece_values victim.piece_type) * 10
            else 0
        | none => 0
      capture +
        ((from_pos.distance_to_center : ℚ) - (to_pos.distance_to_center : ℚ)) * (1 / 2)

/-- Center-proximity part of `move_score` for a `Movement` (the "small bonus
for reducing distance to center"); zero for other moves. -/
def move_score_center (mv : Move) : ℚ :=
  match mv with
  | .Movement from_pos to_pos _ =>
      ((from_pos.distance_to_center : ℚ) - (to_pos.distance_to_center : ℚ)) * (1 / 2)
  | _ => 0

/-- Mirror of `is_capture_move`. -/
def is_capture_move (s : GameState) (mv : Move) : Bool :=
  match mv with
  | .Movement _ to_pos _ =>
      match s.get_piece to_pos with
      | some piece => piece.owner ≠ s.current_player
      | none => false
  | _ => false

/-- Mirror of `is_in_danger`. -/
def is_in_danger (s : GameState) : Bool :=
  let king_pos :=
    match s.current_player with
    | .White => s.white_king_pos
    | .Black => s.black_king_pos
  match king_pos with
  | none => true
  | some kp =>
      s.board.any (fun e =>
        e.2.owner ≠ s.current_player && e.1.distance_to kp ≤ 3)

/-- Remaining actions in the current player's turn; the termination measure
for same-turn recursion. -/
def template_remaining (s : GameState) : Nat :=
  (get_template_actions s.current_template).length - s.action_index

lemma Player.opponent_ne (p : Player) : p.opponent ≠ p := by
  cases p <;> simp [Player.opponent]

/-- The head `match mv` block never touches the turn-state fields. -/
lemma apply_move_kind_fields (s : GameState) (mv : Move) :
    (GameState.apply_move_kind s mv).current_player = s.current_player ∧
    (GameState.apply_move_kind s mv).action_index = s.action_index ∧
    (GameState.apply_move_kind s mv).white_template = s.white_template ∧
    (GameState.apply_move_kind s mv).black_template = s.black_template := by
  cases mv <;>
    simp only [GameState.apply_move_kind, GameState.apply_movement,
      GameState.apply_swap, GameState.apply_rebirth] <;>
    repeat' first | split | constructor | rfl

lemma resolve_by_proximity_player (t : GameState) :
    (GameState.resolve_by_proximity t).current_player = t.current_player := by
  simp only [GameState.resolve_by_proximity]
  (repeat' split) <;> rfl

lemma end_turn_player (t : GameState) :
    (GameState.end_turn t).current_player = t.current_player.opponent := by
  simp only [GameState.end_turn]
  (repeat' split) <;> simp [resolve_by_proximity_player]

lemma current_template_congr {s t : GameState}
    (hp : t.current_player = s.current_player)
    (hw : t.white_template = s.white_template)
    (hb : t.black_template = s.black_template) :
    t.current_template = s.current_template := by
  cases hcp : s.current_player <;>
    simp [GameState.current_template, hp, hcp, hw, hb]

/-- Key progress fact: if applying a move leaves the same player to act, the
number of remaining template actions strictly decreases. -/
lemma template_remaining_apply_lt (s : GameState) (mv : Move)
    (h : (GameState.apply_move s mv).current_player = s.current_player) :
    template_remaining (GameState.apply_move s mv) < template_remaining s := by
  obtain ⟨hp, ha, hw, hb⟩ := apply_move_kind_fields s mv
  by_cases hc :
      (GameState.is_turn_complete
        { GameState.apply_move_kind s mv with
          action_index := (GameState.apply_move_kind s mv).action_index + 1 }) = true
  · exfalso
    have hply : (GameState.apply_move s mv).current_player = s.current_player.opponent := by
      simp only [GameState.apply_move, hc, if_true]
      rw [end_turn_player]
      simp [hp]
    rw [hply] at h
    exact Player.opponent_ne s.current_player h
  · have happly : GameState.apply_move s mv =
        { GameState.apply_move_kind s mv with
          action_index := (GameState.apply_move_kind s mv).action_index + 1 } := by
      simp only [GameState.apply_move, hc, if_false, Bool.false_eq_true]
    rw [happly]
    simp only [GameState.is_turn_complete, template_remaining,
      GameState.current_template, decide_eq_true_eq, not_le] at hc ⊢
    cases hcp : s.current_player <;>
      simp only [hcp, hp, hw, hb, ha] at hc ⊢ <;> omega

/-- Mirror of the `loop` inside `make_null_move`: keep applying `Pass` until
the side to move changes (or no moves remain). -/
def null_loop (orig : Player) (cur : GameState) : GameState :=
  if GameState.legal_moves cur = [] ∨ cur.current_player ≠ orig then cur
  else null_loop orig (GameState.apply_move cur .Pass)
termination_by (if cur.current_player = orig then template_remaining cur + 1 else 0)
decreasing_by
  rename_i hcond
  push_neg at hcond
  obtain ⟨-, horig⟩ := hcond
  simp only [horig, if_true]
  by_cases hsame :
      (GameState.apply_move cur .Pass).current_player = cur.current_player
  · have := template_remaining_apply_lt cur .Pass hsame
    simp only [hsame, horig, if_true]
    omega
  · have : (GameState.apply_move cur .Pass).current_player ≠ orig := by
      rw [← horig]; exact hsame
    simp only [this, if_false]
    omega

/-- Mirror of `make_null_move`. -/
def make_null_move (s : GameState) : GameState := null_loop s.current_player s

/-- Stable insertion used to model `Vec::sort_by` (a stable sort); `le a b`
means a may stay before b.  A stable sort's output is determined by the
comparator and the input order, so this reproduces the source's sort exactly. -/
def insertSorted (le : Move → Move → Bool) (x : Move) : List Move → List Move
  | [] => [x]
  | y :: ys => if le y x then y :: insertSorted le x ys else x :: y :: ys

/-- Stable sort by `le` (insertion sort, processing left to right). -/
def stableSortBy (le : Move → Move → Bool) (l : List Move) : List Move :=
  l.foldl (fun acc x => insertSorted le x acc) []

/-- Comparator of the two `moves.sort_by` calls in ai.rs: descending by
`move_score`, equal scores keep their relative order. -/
def moveLe (s : GameState) (hr : Heuristics) (a b : Move) : Bool :=
  decide (move_score s b hr ≤ move_score s a hr)

/-- Guard of the null-move pruning block (ai.rs line 225): the source tests
`allow_null_move && depth >= NULL_MOVE_R + 1 && !is_in_danger(state)` and
then, after building the null state, that the side to move actually changed.
Note the guard contains no `action_index` test. -/
def null_move_pre (s : GameState) (depth : Int) (allow_null : Bool) : Prop :=
  allow_null = true ∧ NULL_MOVE_R + 1 ≤ depth ∧ is_in_danger s = false

instance (s : GameState) (depth : Int) (allow_null : Bool) :
    Decidable (null_move_pre s depth allow_null) := by
  unfold null_move_pre; infer_instance

mutual

/-- Mirror of `negamax`.  Arguments mirror the Rust signature; `idx` is the
RNG cursor and the second component of the result is the cursor after the
call (the `&mut rng` threading). -/
def negamax (hr : Heuristics) (max_moves : Nat) (noise : Nat → ℚ)
    (noise_scale : ℚ) (s : GameState) (depth : Int) (alpha beta : ℚ)
    (allow_null : Bool) (idx : Nat) : ℚ × Nat :=
  if s.result ≠ .Ongoing then (evaluate_with_depth s hr depth, idx)
  else if hd : depth ≤ 0 then
    (evaluate s hr + (noise idx - 1 / 2) * noise_scale, idx + 1)
  else if hmv : s.legal_moves = [] then
    (evaluate s hr + (noise idx - 1 / 2) * noise_scale, idx + 1)
  else if hpre : null_move_pre s depth allow_null then
    let ns := make_null_move s
    if ns.current_player ≠ s.current_player then
      let r := negamax hr max_moves noise noise_scale ns
        (depth - 1 - NULL_MOVE_R) (-beta) (-beta + 1 / 100) false idx
      if beta ≤ -r.1 then (beta, r.2)
      else negamax_search hr max_moves noise noise_scale s depth alpha beta
        allow_null r.2 (by omega)
    else negamax_search hr max_moves noise noise_scale s depth alpha beta
      allow_null idx (by omega)
  else negamax_search hr max_moves noise noise_scale s depth alpha beta
    allow_null idx (by omega)
termination_by (depth.toNat, template_remaining s, 2, 0)
decreasing_by
  · obtain ⟨-, hdep, -⟩ := hpre
    simp only [NULL_MOVE_R] at hdep ⊢
    apply Prod.Lex.left
    omega
  · apply Prod.Lex.right
    apply Prod.Lex.right
    apply Prod.Lex.left
    omega
  · apply Prod.Lex.right
    apply Prod.Lex.right
    apply Prod.Lex.left
    omega
  · apply Prod.Lex.right
    apply Prod.Lex.right
    apply Prod.Lex.left
    omega

/-- Move ordering, truncation and the child loop of `negamax` (ai.rs lines
246-329).  `h1` records the caller's `depth > 0` guard; the `unbot'` default
is never read because the loop always scores at least one move before it can
break (`legal_moves` was checked non-empty). -/
def negamax_search (hr : Heuristics) (max_moves : Nat) (noise : Nat → ℚ)
    (noise_scale : ℚ) (s : GameState) (depth : Int) (alpha beta : ℚ)
    (allow_null : Bool) (idx : Nat) (h1 : 1 ≤ depth) : ℚ × Nat :=
  let sorted := (stableSortBy (moveLe s hr) s.legal_moves).take max_moves
  let r := search_loop hr max_moves noise noise_scale s depth alpha beta
    allow_null sorted 0 ⊥ idx h1
  (r.1.unbot' 0, r.2)
termination_by (depth.toNat, template_remaining s, 1, 0)
decreasing_by
  apply Prod.Lex.right
  apply Prod.Lex.right
  apply Prod.Lex.left
  omega

/-- One iteration of the `for (move_index, mv)` loop of `negamax`, carrying
`best` and `alpha` and breaking on `alpha >= beta`. -/
def search_loop (hr : Heuristics) (max_moves : Nat) (noise : Nat → ℚ)
    (noise_scale : ℚ) (s : GameState) (depth : Int) (alpha beta : ℚ)
    (allow_null : Bool) (moves : List Move) (move_index : Nat)
    (best : WithBot ℚ) (idx : Nat) (h1 : 1 ≤ depth) : WithBot ℚ × Nat :=
  match moves with
  | [] => (best, idx)
  | mv :: rest =>
      let scored : ℚ × Nat :=
        if mv = .Surrender then (-WIN_VALUE - (depth : ℚ) + 1 / 2, idx)
        else
          let child := s.apply_move mv
          if hch : child.current_player ≠ s.current_player then
            let is_capture := is_capture_move s mv
            let use_lmr := decide (LMR_MOVE_THRESHOLD ≤ move_index) &&
              decide (LMR_DEPTH_THRESHOLD ≤ depth) && !is_capture
            let search_depth := if use_lmr then depth - 2 else depth - 1
            let r1 := negamax hr max_moves noise noise_scale child search_depth
              (-beta) (-alpha) true idx
            if use_lmr && decide (alpha < -r1.1) then
              let r2 := negamax hr max_moves noise noise_scale child (depth - 1)
                (-beta) (-alpha) true r1.2
              (-r2.1, r2.2)
            else (-r1.1, r1.2)
          else
            negamax hr max_moves noise noise_scale child depth alpha beta
              allow_null idx
      let best2 := max best ↑scored.1
      let alpha2 := max alpha scored.1
      if beta ≤ alpha2 then (best2, scored.2)
      else search_loop hr max_moves noise noise_scale s depth alpha2 beta
        allow_null rest (move_index + 1) best2 scored.2 h1
termination_by (depth.toNat, template_remaining s, 0, moves.length)
decreasing_by
  · apply Prod.Lex.left
    split <;> omega
  · apply Prod.Lex.left
    omega
  · push_neg at hch
    apply Prod.Lex.right
    exact Prod.Lex.left _ _ (template_remaining_apply_lt s _ hch)
  · apply Prod.Lex.right
    apply Prod.Lex.right
    apply Prod.Lex.right
    simp [List.length_cons]

end

/-! ### Random number generators

The source uses `rand` generators (`ChaCha8Rng`, `StdRng`, `thread_rng`)
through `gen::<uN>()`, `gen::<f32>()`, `gen_range(0..n)`, `gen_range(0.0..x)`
and `gen_bool`.  The embedding replaces a generator by two streams of draws
with a cursor: `nats k` is the k-th raw unsigned draw (an arbitrary natural)
and `fracs k` the k-th raw unit-interval draw.  Every specific generator is
one choice of streams, so properties quantified over `Rng` cover all of them;
uniformity claims become counting statements over the residues of a draw. -/

structure Rng where
  nats : Nat → Nat
  fracs : Nat → ℚ
  k : Nat

/-- Advance the cursor. -/
def Rng.next (g : Rng) : Rng := { g with k := g.k + 1 }

/-- Mirror of `gen_range(0..n)` (n > 0 in every use site). -/
def Rng.genRange (g : Rng) (n : Nat) : Nat × Rng := (g.nats g.k % n, g.next)

/-- Mirror of `gen::<u8>() % m` style raw draws. -/
def Rng.genNat (g : Rng) : Nat × Rng := (g.nats g.k, g.next)

/-- Mirror of `gen::<f32>()` / a unit-interval draw. -/
def Rng.genFrac (g : Rng) : ℚ × Rng := (g.fracs g.k, g.next)

/-- Mirror of `gen_bool(0.5)`. -/
def Rng.genBool (g : Rng) : Bool × Rng := (decide (g.fracs g.k < 1 / 2), g.next)

/-! ### Rulesets (src/hexwar-core/src/ruleset.rs) -/

/-- Mirror of `RuleSet` (JSON persistence dropped; piece ids are the table
indices, as in the numeric-id form of the source). -/
structure RuleSet where
  name : String
  white_king : Fin 32
  white_pieces : List (Fin 32)
  white_positions : List Hex
  white_facings : List Nat
  white_template : Template
  black_king : Fin 32
  black_pieces : List (Fin 32)
  black_positions : List Hex
  black_facings : List Nat
  black_template : Template
deriving DecidableEq, Repr

namespace RuleSet

/-- White half of the setup list built by `RuleSet::to_game_state`: the king
(when a position exists) followed by the pieces whose position index is in
range. -/
def white_setup (rs : RuleSet) : List (Fin 32 × Hex × Nat) :=
  (if rs.white_positions ≠ [] then
      [(rs.white_king, rs.white_positions.getD 0 ⟨0, 0⟩,
        rs.white_facings.getD 0 0)]
    else []) ++
  (List.range rs.white_pieces.length).filterMap (fun i =>
    if i + 1 < rs.white_positions.length then
      some (rs.white_pieces.getD i 0, rs.white_positions.getD (i + 1) ⟨0, 0⟩,
        rs.white_facings.getD (i + 1) 0)
    else none)

/-- Black half of the setup list built by `RuleSet::to_game_state`. -/
def black_setup (rs : RuleSet) : List (Fin 32 × Hex × Nat) :=
  (if rs.black_positions ≠ [] then
      [(rs.black_king, rs.black_positions.getD 0 ⟨0, 0⟩,
        rs.black_facings.getD 0 3)]
    else []) ++
  (List.range rs.black_pieces.length).filterMap (fun i =>
    if i + 1 < rs.black_positions.length then
      some (rs.black_pieces.getD i 0, rs.black_positions.getD (i + 1) ⟨0, 0⟩,
        rs.black_facings.getD (i + 1) 3)
    else none)

/-- Mirror of `RuleSet::to_game_state`. -/
def to_game_state (rs : RuleSet) : GameState :=
  GameState.new (white_setup rs) (black_setup rs)
    rs.white_template rs.black_template

/-- The `base_positions` table of `generate_positions_template_d`. -/
def template_d_base : List (Int × Int) :=
  [(0, 5), (-1, 4), (1, 4), (0, 4), (-2, 3), (2, 3), (0, 3), (-1, 3),
   (1, 3), (-1, 2), (1, 2), (0, 2), (-2, 2)]

/-- Mirror of `generate_positions_template_d`. -/
def generate_positions_template_d (count : Nat) (is_white : Bool) : List Hex :=
  let sign : Int := if is_white then 1 else -1
  (template_d_base.take count).map (fun p => Hex.mk2 p.1 (p.2 * sign))

/-- Mirror of `RuleSet::random_symmetric`.  `NON_KING_PIECES = 25`,
`KING_START = 25`, `NUM_KINGS = 5` as in the source; `rng.gen::<u8>()`
becomes a raw stream draw (mod 256, which the subsequent `% 5` / `% 25`
absorb structurally: the embedding keeps the source's `% 5`/`% 25`). -/
def random_symmetric (rng : Rng) (name : String) (num_pieces : Nat) : RuleSet :=
  let king_type : Fin 32 := ⟨25 + rng.nats rng.k % 256 % 5, by omega⟩
  let pieces : List (Fin 32) :=
    (List.range num_pieces).map (fun i =>
      ⟨rng.nats (rng.k + 1 + i) % 256 % 25, by omega⟩)
  { name := name
    white_king := king_type
    white_pieces := pieces
    white_positions := generate_positions_template_d (num_pieces + 1) true
    white_facings := List.replicate (num_pieces + 1) 0
    white_template := .E
    black_king := king_type
    black_pieces := pieces
    black_positions := generate_positions_template_d (num_pieces + 1) false
    black_facings := List.replicate (num_pieces + 1) 3
    black_template := .E }

end RuleSet

/-! ### Mutation operators (src/hexwar-evolve/src/mutation.rs) -/

/-- Mirror of `REGULAR_PIECE_IDS`: the 25 ids 0..24 (A1..G1, W1, W2, P1);
kings K1..K5 and the trident pieces B5 (30) and D6 (31) are absent. -/
def REGULAR_PIECE_IDS : List (Fin 32) :=
  [0, 1, 2, 3, 4, 5, 6, 7, 8, 9, 10, 11, 12, 13, 14, 15, 16, 17, 18, 19, 20,
   21, 22, 23, 24]

/-- Mirror of `KING_IDS`. -/
def KING_IDS : List (Fin 32) := [25, 26, 27, 28, 29]

/-- Mirror of `WARPER_ID`. -/
def WARPER_ID : Fin 32 := 21

/-- Mirror of `SHIFTER_ID`. -/
def SHIFTER_ID : Fin 32 := 22

/-- Mirror of `MIN_PIECES`. -/
def MIN_PIECES : Nat := 8

/-- Mirror of `MAX_PIECES`. -/
def MAX_PIECES : Nat := 15

/-- Mirror of `white_piece_zone`: valid hexes with r in 1..=3 except the king
hex (0,3), in the source's row-major order. -/
def white_piece_zone : List Hex :=
  (List.range 3).flatMap (fun ri =>
    (List.range 9).filterMap (fun qi =>
      let h := Hex.mk2 ((qi : Int) - 4) ((ri : Int) + 1)
      if h.is_valid && !(h = Hex.mk2 0 3 : Bool) then some h else none))

/-- Mirror of `black_piece_zone` (r in -3..=-1, king hex (0,-3) excluded). -/
def black_piece_zone : List Hex :=
  (List.range 3).flatMap (fun ri =>
    (List.range 9).filterMap (fun qi =>
      let h := Hex.mk2 ((qi : Int) - 4) ((ri : Int) - 3)
      if h.is_valid && !(h = Hex.mk2 0 (-3) : Bool) then some h else none))

/-- Mirror of `MutateSide`. -/
inductive MutateSide where
  | White
  | Black
  | Both
deriving DecidableEq, Repr

/-- Mirror of `MutationConfig`. -/
structure MutationConfig where
  side : MutateSide
  allow_template_mutation : Bool
deriving Repr

/-- Mirror of `white_only_mutations` (operator name, weight). -/
def white_only_mutations : List (String × ℚ) :=
  [("add_white", 2), ("add_copy_white", 2), ("remove_white", 1),
   ("swap_white", 1), ("swap_existing_white", 2), ("change_white_king", 1),
   ("shuffle_white_positions", 1), ("swap_two_white_positions", 1),
   ("rotate_white", 1)]

/-- Mirror of `black_only_mutations`. -/
def black_only_mutations : List (String × ℚ) :=
  [("add_black", 2), ("add_copy_black", 2), ("remove_black", 1),
   ("swap_black", 1), ("swap_existing_black", 2), ("change_black_king", 1),
   ("shuffle_black_positions", 1), ("swap_two_black_positions", 1),
   ("rotate_black", 1)]

/-- Mirror of `both_side_mutations`. -/
def both_side_mutations : List (String × ℚ) :=
  white_only_mutations ++ black_only_mutations

/-- Mirror of the weighted-threshold selection loop in `mutate_ruleset`. -/
def pick_mutation : List (String × ℚ) → ℚ → String
  | [], _ => ""
  | (name, weight) :: rest, threshold =>
      if threshold - weight ≤ 0 then name
      else pick_mutation rest (threshold - weight)

/-- Mirror of `add_piece_white`. -/
def add_piece_white (rs : RuleSet) (rng : Rng) (copy_existing : Bool) :
    RuleSet × Rng :=
  let available := white_piece_zone.filter (fun h => !rs.white_positions.contains h)
  if available = [] then (rs, rng)
  else
    let pd :=
      if copy_existing && !(rs.white_pieces = [] : Bool) then
        let d := rng.genRange rs.white_pieces.length
        (rs.white_pieces.getD d.1 0, d.2)
      else
        let d := rng.genRange REGULAR_PIECE_IDS.length
        (REGULAR_PIECE_IDS.getD d.1 0, d.2)
    let posd := pd.2.genRange available.length
    let pos := available.getD posd.1 (Hex.mk2 0 0)
    ({ rs with
        white_pieces := rs.white_pieces ++ [pd.1]
        white_positions := rs.white_positions ++ [pos]
        white_facings := rs.white_facings ++ [0] }, posd.2)

/-- Mirror of `add_piece_black`. -/
def add_piece_black (rs : RuleSet) (rng : Rng) (copy_existing : Bool) :
    RuleSet × Rng :=
  let available := black_piece_zone.filter (fun h => !rs.black_positions.contains h)
  if available = [] then (rs, rng)
  else
    let pd :=
      if copy_existing && !(rs.black_pieces = [] : Bool) then
        let d := rng.genRange rs.black_pieces.length
        (rs.black_pieces.getD d.1 0, d.2)
      else
        let d := rng.genRange REGULAR_PIECE_IDS.length
        (REGULAR_PIECE_IDS.getD d.1 0, d.2)
    let posd := pd.2.genRange available.length
    let pos := available.getD posd.1 (Hex.mk2 0 0)
    ({ rs with
        black_pieces := rs.black_pieces ++ [pd.1]
        black_positions := rs.black_positions ++ [pos]
        black_facings := rs.black_facings ++ [3] }, posd.2)

/-- Mirror of `remove_piece_white`. -/
def remove_piece_white (rs : RuleSet) (rng : Rng) : RuleSet × Rng :=
  if rs.white_pieces = [] then (rs, rng)
  else
    let d := rng.genRange rs.white_pieces.length
    ({ rs with
        white_pieces := rs.white_pieces.eraseIdx d.1
        white_positions :=
          if d.1 + 1 < rs.white_positions.length then
            rs.white_positions.eraseIdx (d.1 + 1)
          else rs.white_positions
        white_facings :=
          if d.1 + 1 < rs.white_facings.length then
            rs.white_facings.eraseIdx (d.1 + 1)
          else rs.white_facings }, d.2)

/-- Mirror of `remove_piece_black`. -/
def remove_piece_black (rs : RuleSet) (rng : Rng) : RuleSet × Rng :=
  if rs.black_pieces = [] then (rs, rng)
  else
    let d := rng.genRange rs.black_pieces.length
    ({ rs with
        black_pieces := rs.black_pieces.eraseIdx d.1
        black_positions :=
          if d.1 + 1 < rs.black_positions.length then
            rs.black_positions.eraseIdx (d.1 + 1)
          else rs.black_positions
        black_facings :=
          if d.1 + 1 < rs.black_facings.length then
            rs.black_facings.eraseIdx (d.1 + 1)
          else rs.black_facings }, d.2)

/-- Mirror of `swap_piece_white`. -/
def swap_piece_white (rs : RuleSet) (rng : Rng) (use_existing : Bool) :
    RuleSet × Rng :=
  if rs.white_pieces = [] then (rs, rng)
  else
    let d := rng.genRange rs.white_pieces.length
    let idx := d.1
    let nd :=
      if use_existing && decide (2 ≤ rs.white_pieces.length) then
        let o := d.2.genRange (rs.white_pieces.length - 1)
        let other_idx := (idx + 1 + o.1) % rs.white_pieces.length
        (rs.white_pieces.getD other_idx 0, o.2)
      else
        let o := d.2.genRange REGULAR_PIECE_IDS.length
        (REGULAR_PIECE_IDS.getD o.1 0, o.2)
    ({ rs with white_pieces := rs.white_pieces.set idx nd.1 }, nd.2)

/-- Mirror of `swap_piece_black`. -/
def swap_piece_black (rs : RuleSet) (rng : Rng) (use_existing : Bool) :
    RuleSet × Rng :=
  if rs.black_pieces = [] then (rs, rng)
  else
    let d := rng.genRange rs.black_pieces.length
    let idx := d.1
    let nd :=
      if use_existing && decide (2 ≤ rs.black_pieces.length) then
        let o := d.2.genRange (rs.black_pieces.length - 1)
        let other_idx := (idx + 1 + o.1) % rs.black_pieces.length
        (rs.black_pieces.getD other_idx 0, o.2)
      else
        let o := d.2.genRange REGULAR_PIECE_IDS.length
        (REGULAR_PIECE_IDS.getD o.1 0, o.2)
    ({ rs with black_pieces := rs.black_pieces.set idx nd.1 }, nd.2)

/-- Swap the entries at two indices of a list (mirror of `Vec::swap`; the
source call sites keep both indices in range). -/
def listSwap {α : Type} [Inhabited α] (l : List α) (i j : Nat) : List α :=
  (l.set i (l.getD j default)).set j (l.getD i default)

/-- Mirror of the Fisher-Yates-style loop in `shuffle_positions`:
`for i in (2..n).rev() { j = gen_range(1..=i); swap }`, king fixed at 0. -/
def shuffle_loop (positions : List Hex) (facings : List Nat) (rng : Rng) :
    Nat → List Hex × List Nat × Rng
  | 0 => (positions, facings, rng)
  | fuel + 1 =>
      let i := fuel + 2
      let d := rng.genRange i
      let j := 1 + d.1
      let positions2 := listSwap positions i j
      let facings2 :=
        if i < facings.length ∧ j < facings.length then listSwap facings i j
        else facings
      shuffle_loop positions2 facings2 d.2 fuel

/-- Mirror of `shuffle_positions`: the source iterates i = n-1 down to 2,
drawing `gen_range(1..=i)`; iteration count n-2, encoded as fuel with
`i = fuel + 2` so fuel n-3 downto 0 gives i = n-1 downto 2. -/
def shuffle_positions (positions : List Hex) (facings : List Nat) (rng : Rng) :
    List Hex × List Nat × Rng :=
  if positions.length ≤ 2 then (positions, facings, rng)
  else shuffle_loop positions facings rng (positions.length - 2)

/-- Mirror of `swap_two_positions`. -/
def swap_two_positions (positions : List Hex) (facings : List Nat) (rng : Rng) :
    List Hex × List Nat × Rng :=
  if positions.length < 3 then (positions, facings, rng)
  else
    let n := positions.length
    let di := rng.genRange (n - 1)
    let i := 1 + di.1
    let dj := di.2.genRange (n - 2)
    let j := (i + 1 + dj.1) % (n - 1) + 1
    let positions2 := listSwap positions i j
    let facings2 :=
      if i < facings.length ∧ j < facings.length then listSwap facings i j
      else facings
    (positions2, facings2, dj.2)

/-- Mirror of `rotate_piece`. -/
def rotate_piece (facings : List Nat) (rng : Rng) : List Nat × Rng :=
  if facings.length ≤ 1 then (facings, rng)
  else
    let d := rng.genRange (facings.length - 1)
    let idx := 1 + d.1
    let r := d.2.genRange 4
    let rotation : Int := match r.1 with | 0 => 1 | 1 => 2 | 2 => -1 | _ => -2
    let newf := (((facings.getD idx 0 : Int) + rotation).emod 6).toNat
    (facings.set idx newf, r.2)

/-- Mirror of the index bookkeeping shared by both halves of
`enforce_warper_shifter_constraint`: drop the shifter at `pos` and its
position/facing when present. -/
def drop_shifter (pieces : List (Fin 32)) (positions : List Hex)
    (facings : List Nat) : List (Fin 32) × List Hex × List Nat :=
  match pieces.indexOf? SHIFTER_ID with
  | none => (pieces, positions, facings)
  | some pos =>
      (pieces.eraseIdx pos,
       if pos + 1 < positions.length then positions.eraseIdx (pos + 1)
       else positions,
       if pos + 1 < facings.length then facings.eraseIdx (pos + 1)
       else facings)

/-- Mirror of `enforce_warper_shifter_constraint`. -/
def enforce_warper_shifter_constraint (rs : RuleSet) : RuleSet :=
  let rs1 :=
    if rs.white_pieces.contains WARPER_ID && rs.white_pieces.contains SHIFTER_ID then
      let d := drop_shifter rs.white_pieces rs.white_positions rs.white_facings
      { rs with
        white_pieces := d.1, white_positions := d.2.1, white_facings := d.2.2 }
    else rs
  if rs1.black_pieces.contains WARPER_ID && rs1.black_pieces.contains SHIFTER_ID then
    let d := drop_shifter rs1.black_pieces rs1.black_positions rs1.black_facings
    { rs1 with
      black_pieces := d.1, black_positions := d.2.1, black_facings := d.2.2 }
  else rs1

/-- Mirror of `apply_mutation`. -/
def apply_mutation (rs : RuleSet) (mutation : String) (rng : Rng) :
    RuleSet × Rng :=
  match mutation with
  | "add_white" =>
      if rs.white_pieces.length < MAX_PIECES then add_piece_white rs rng false
      else (rs, rng)
  | "add_copy_white" =>
      if rs.white_pieces.length < MAX_PIECES ∧ rs.white_pieces ≠ [] then
        add_piece_white rs rng true
      else (rs, rng)
  | "remove_white" =>
      if MIN_PIECES < rs.white_pieces.length then remove_piece_white rs rng
      else (rs, rng)
  | "swap_white" =>
      if rs.white_pieces ≠ [] then swap_piece_white rs rng false else (rs, rng)
  | "swap_existing_white" =>
      if 2 ≤ rs.white_pieces.length then swap_piece_white rs rng true
      else (rs, rng)
  | "change_white_king" =>
      let d := rng.genRange KING_IDS.length
      ({ rs with white_king := KING_IDS.getD d.1 25 }, d.2)
  | "shuffle_white_positions" =>
      let r := shuffle_positions rs.white_positions rs.white_facings rng
      ({ rs with white_positions := r.1, white_facings := r.2.1 }, r.2.2)
  | "swap_two_white_positions" =>
      let r := swap_two_positions rs.white_positions rs.white_facings rng
      ({ rs with white_positions := r.1, white_facings := r.2.1 }, r.2.2)
  | "rotate_white" =>
      let r := rotate_piece rs.white_facings rng
      ({ rs with white_facings := r.1 }, r.2)
  | "add_black" =>
      if rs.black_pieces.length < MAX_PIECES then add_piece_black rs rng false
      else (rs, rng)
  | "add_copy_black" =>
      if rs.black_pieces.length < MAX_PIECES ∧ rs.black_pieces ≠ [] then
        add_piece_black rs rng true
      else (rs, rng)
  | "remove_black" =>
      if MIN_PIECES < rs.black_pieces.length then remove_piece_black rs rng
      else (rs, rng)
  | "swap_black" =>
      if rs.black_pieces ≠ [] then swap_piece_black rs rng false else (rs, rng)
  | "swap_existing_black" =>
      if 2 ≤ rs.black_pieces.length then swap_piece_black rs rng true
      else (rs, rng)
  | "change_black_king" =>
      let d := rng.genRange KING_IDS.length
      ({ rs with black_king := KING_IDS.getD d.1 25 }, d.2)
  | "shuffle_black_positions" =>
      let r := shuffle_positions rs.black_positions rs.black_facings rng
      ({ rs with black_positions := r.1, black_facings := r.2.1 }, r.2.2)
  | "swap_two_black_positions" =>
      let r := swap_two_positions rs.black_positions rs.black_facings rng
      ({ rs with black_positions := r.1, black_facings := r.2.1 }, r.2.2)
  | "rotate_black" =>
      let r := rotate_piece rs.black_facings rng
      ({ rs with black_facings := r.1 }, r.2)
  | _ => (rs, rng)

/-- Mirror of `mutate_ruleset`: weighted operator choice (threshold drawn by
`gen_range(0.0..total_weight)`), apply, then enforce the Warper/Shifter
constraint. -/
def mutate_ruleset (rs : RuleSet) (config : MutationConfig) (rng : Rng) :
    RuleSet × Rng :=
  let mutations :=
    match config.side with
    | .White => white_only_mutations
    | .Black => black_only_mutations
    | .Both => both_side_mutations
  let total_weight := (mutations.map Prod.snd).sum
  let td := rng.genFrac
  let threshold := td.1 * total_weight
  let selected := pick_mutation mutations threshold
  let r := apply_mutation rs selected td.2
  (enforce_warper_shifter_constraint r.1, r.2)

/-! ### Crossover (src/hexwar-evolve/src/crossover.rs) -/

/-- Mirror of `crossover_rulesets`: each faction comes from either parent
with probability one half, drawn in source order (white first). -/
def crossover_rulesets (a b : RuleSet) (rng : Rng) : RuleSet × Rng :=
  let dw := rng.genBool
  let w := if dw.1 then a else b
  let db := dw.2.genBool
  let bl := if db.1 then a else b
  ({ name := "crossover"
     white_king := w.white_king
     white_pieces := w.white_pieces
     white_positions := w.white_positions
     white_facings := w.white_facings
     white_template := w.white_template
     black_king := bl.black_king
     black_pieces := bl.black_pieces
     black_positions := bl.black_positions
     black_facings := bl.black_facings
     black_template := bl.black_template }, db.2)

/-- Mirror of `crossover_one_side`. -/
def crossover_one_side (a b : RuleSet) (preserve_white : Bool) (rng : Rng) :
    RuleSet × Rng :=
  if preserve_white then
    let d := rng.genBool
    let bl := if d.1 then a else b
    ({ name := "crossover"
       white_king := a.white_king
       white_pieces := a.white_pieces
       white_positions := a.white_positions
       white_facings := a.white_facings
       white_template := a.white_template
       black_king := bl.black_king
       black_pieces := bl.black_pieces
       black_positions := bl.black_positions
       black_facings := bl.black_facings
       black_template := bl.black_template }, d.2)
  else
    let d := rng.genBool
    let w := if d.1 then a else b
    ({ name := "crossover"
       white_king := w.white_king
       white_pieces := w.white_pieces
       white_positions := w.white_positions
       white_facings := w.white_facings
       white_template := w.white_template
       black_king := a.black_king
       black_pieces := a.black_pieces
       black_positions := a.black_positions
       black_facings := a.black_facings
       black_template := a.black_template }, d.2)

/-! ### Selection (src/hexwar-evolve/src/selection.rs)

The source's `sort_by` over indices is a stable sort; `idxSortDesc` is the
same stable insertion sort used for move ordering, specialized to indices
compared by descending fitness. -/

def insertSortedIdx (le : Nat → Nat → Bool) (x : Nat) : List Nat → List Nat
  | [] => [x]
  | y :: ys => if le y x then y :: insertSortedIdx le x ys else x :: y :: ys

def stableSortIdx (le : Nat → Nat → Bool) (l : List Nat) : List Nat :=
  l.foldl (fun acc x => insertSortedIdx le x acc) []

/-- Mirror of `select_elite`: indices of the top n individuals, fitness
descending (ties keep index order, as the stable source sort does). -/
def select_elite (fitness : List ℚ) (n : Nat) : List Nat :=
  (stableSortIdx (fun a b => decide (fitness.getD b 0 ≤ fitness.getD a 0))
    (List.range fitness.length)).take n

/-- Mirror of the loop of `tournament_select`, returning the best index seen. -/
def tournament_loop (fitness : List ℚ) (len : Nat) (best_idx : Nat)
    (best_fit : ℚ) (rng : Rng) : Nat → Nat × Rng
  | 0 => (best_idx, rng)
  | fuel + 1 =>
      let d := rng.genRange len
      if best_fit < fitness.getD d.1 0 then
        tournament_loop fitness len d.1 (fitness.getD d.1 0) d.2 fuel
      else tournament_loop fitness len best_idx best_fit d.2 fuel

/-- Mirror of `tournament_select` (returns the selected index; the source
returns `&population[best_idx]`; the source asserts a non-empty population,
which every call site guarantees). -/
def tournament_select (fitness : List ℚ) (tournament_size : Nat) (rng : Rng) :
    Nat × Rng :=
  let ts := min tournament_size fitness.length
  let d := rng.genRange fitness.length
  tournament_loop fitness fitness.length d.1 (fitness.getD d.1 0) d.2 (ts - 1)

/-! ### Evolution loop (src/hexwar-evolve/src/lib.rs) -/

/-- Mirror of `impl Default for RuleSet` (ruleset.rs): four guards per side.
Also the `Inhabited` default used by the total-function `getD` accesses that
replace the source's panic-free in-range indexing. -/
def ruleset_default : RuleSet :=
  { name := "default"
    white_king := 25
    white_pieces := [1, 1, 1, 1]
    white_positions :=
      [⟨0, 3⟩, ⟨-1, 3⟩, ⟨1, 2⟩, ⟨-2, 4⟩, ⟨2, 1⟩]
    white_facings := [0, 0, 0, 0, 0]
    white_template := .E
    black_king := 25
    black_pieces := [1, 1, 1, 1]
    black_positions :=
      [⟨0, -3⟩, ⟨1, -3⟩, ⟨-1, -2⟩, ⟨2, -4⟩, ⟨-2, -1⟩]
    black_facings := [3, 3, 3, 3, 3]
    black_template := .E }

instance : Inhabited RuleSet := ⟨ruleset_default⟩

/-- Mirror of `EvolutionConfig`. -/
structure EvolutionConfig where
  population_size : Nat
  generations : Nat
  mutation_rate : ℚ
  crossover_rate : ℚ
  elitism : Nat
  tournament_size : Nat
  evolve_side : MutateSide

/-- Mirror of `EvolutionResult`.  Fitness values are rationals; the best-of-
generation fold starts from `f32::NEG_INFINITY`, modelled as `⊥ : WithBot ℚ`. -/
structure EvolutionResult where
  population : List RuleSet
  fitness : List ℚ
  best_fitness_history : List (WithBot ℚ)
  avg_fitness_history : List ℚ

/-- Mirror of `create_offspring`. -/
def create_offspring (population : List RuleSet) (fitness : List ℚ)
    (config : EvolutionConfig) (mutation_config : MutationConfig) (rng : Rng) :
    RuleSet × Rng :=
  let p1 := tournament_select fitness config.tournament_size rng
  let parent1 := population.getD p1.1 default
  let cd := p1.2.genFrac
  let crossed :=
    if cd.1 < config.crossover_rate then
      let p2 := tournament_select fitness config.tournament_size cd.2
      let parent2 := population.getD p2.1 default
      match config.evolve_side with
      | .White => crossover_one_side parent1 parent2 false p2.2
      | .Black => crossover_one_side parent1 parent2 true p2.2
      | .Both => crossover_rulesets parent1 parent2 p2.2
    else (parent1, cd.2)
  let md := crossed.2.genFrac
  if md.1 < config.mutation_rate then mutate_ruleset crossed.1 mutation_config md.2
  else (crossed.1, md.2)

/-- Mirror of the `while next_gen.len() < population_size` fill loop of
`create_next_generation` (fuel is the number of slots still to fill). -/
def offspring_fill (population : List RuleSet) (fitness : List ℚ)
    (config : EvolutionConfig) (mutation_config : MutationConfig)
    (acc : List RuleSet) (rng : Rng) : Nat → List RuleSet × Rng
  | 0 => (acc, rng)
  | fuel + 1 =>
      let o := create_offspring population fitness config mutation_config rng
      offspring_fill population fitness config mutation_config (acc ++ [o.1])
        o.2 fuel

/-- Mirror of `create_next_generation`. -/
def create_next_generation (population : List RuleSet) (fitness : List ℚ)
    (config : EvolutionConfig) (rng : Rng) : List RuleSet × Rng :=
  let elite_indices := select_elite fitness config.elitism
  let elites := elite_indices.map (fun i => population.getD i default)
  let mutation_config : MutationConfig :=
    ⟨config.evolve_side, false⟩
  let fill := config.population_size - elites.length
  let r := offspring_fill population fitness config mutation_config elites rng fill
  r

/-- Mirror of `ensure_population_size`. -/
def ensure_population_size (population : List RuleSet) (target : Nat)
    (rng : Rng) : List RuleSet × Rng :=
  let grown :=
    (List.range (target - population.length)).foldl
      (fun (acc : List RuleSet × Rng) _ =>
        if acc.1 = [] then (acc.1 ++ [default], acc.2)
        else
          let d := acc.2.genRange acc.1.length
          (acc.1 ++ [acc.1.getD d.1 default], d.2))
      (population, rng)
  (grown.1.take target, grown.2)

/-- Mirror of `sort_by_fitness` (stable descending reorder of both lists). -/
def sort_by_fitness (population : List RuleSet) (fitness : List ℚ) :
    List RuleSet × List ℚ :=
  let indices :=
    stableSortIdx (fun a b => decide (fitness.getD b 0 ≤ fitness.getD a 0))
      (List.range population.length)
  (indices.map (fun i => population.getD i default),
   indices.map (fun i => fitness.getD i 0))

/-- Best-of-generation fold, mirror of
`fitness.iter().cloned().fold(f32::NEG_INFINITY, f32::max)`. -/
def best_fold (fitness : List ℚ) : WithBot ℚ :=
  fitness.foldl (fun (acc : WithBot ℚ) (x : ℚ) => max acc x) ⊥

/-- Average fitness, mirror of `fitness.iter().sum / len` (an empty
population gives NaN in the source; the rational model yields 0, and no
property below reads that value). -/
def avg_fold (fitness : List ℚ) : ℚ := fitness.sum / fitness.length

/-- Mirror of the `for _gen in 0..generations` loop of `evolve`. -/
def evolve_loop (config : EvolutionConfig) (fitness_fn : RuleSet → ℚ)
    (population : List RuleSet) (best_hist : List (WithBot ℚ))
    (avg_hist : List ℚ) (rng : Rng) :
    Nat → List RuleSet × List (WithBot ℚ) × List ℚ × Rng
  | 0 => (population, best_hist, avg_hist, rng)
  | fuel + 1 =>
      let fitness := population.map fitness_fn
      let best := best_fold fitness
      let avg := avg_fold fitness
      let nxt := create_next_generation population fitness config rng
      evolve_loop config fitness_fn nxt.1 (best_hist ++ [best])
        (avg_hist ++ [avg]) nxt.2 fuel

/-- Mirror of `evolve`.  The source is generic over the fitness closure and
the RNG; `fitness_fn` is the pure function a deterministic closure denotes. -/
def evolve (initial_population : List RuleSet) (config : EvolutionConfig)
    (fitness_fn : RuleSet → ℚ) (rng : Rng) : EvolutionResult :=
  let sized := ensure_population_size initial_population config.population_size rng
  let looped := evolve_loop config fitness_fn sized.1 [] [] sized.2
    config.generations
  let final_fitness := looped.1.map fitness_fn
  let sorted := sort_by_fitness looped.1 final_fitness
  { population := sorted.1
    fitness := sorted.2
    best_fitness_history := looped.2.1
    avg_fitness_history := looped.2.2.1 }

/-! ### Multi-depth tournament evaluator (src/hexwar-cli/src/evolve.rs)

`evaluate_ruleset_multi_depth` has two halves: it plays the games of each
matchup (through `run_matchup`, alpha-beta search and thread-rng seeding),
and then aggregates the per-matchup statistics into a scalar fitness as pure
arithmetic (lines 667-763).  The aggregation is embedded as a function of the
`(spec, stats)` list the game half produces; the seeding discipline of the
game half is embedded separately below. -/

/-- Mirror of `MatchupSpec`. -/
structure MatchupSpec where
  depth1 : Nat
  depth2 : Nat
  num_games : Nat
  weight : ℚ
deriving DecidableEq, Repr

/-- Mirror of `MatchupStats`. -/
structure MatchupStats where
  deeper_depth : Nat
  shallower_depth : Nat
  deeper_wins : Nat
  shallower_wins : Nat
  draws : Nat
  games_played : Nat
  white_wins : Nat
  black_wins : Nat
  total_rounds : Nat
deriving DecidableEq, Repr

/-- Mirror of `MatchupStats::deeper_win_rate`. -/
def MatchupStats.deeper_win_rate (st : MatchupStats) : ℚ :=
  if st.games_played = 0 then 0
  else (st.deeper_wins : ℚ) / (st.games_played : ℚ)

/-- Mirror of `MatchupStats::white_win_rate`. -/
def MatchupStats.white_win_rate (st : MatchupStats) : ℚ :=
  let non_draws := st.white_wins + st.black_wins
  if non_draws = 0 then 1 / 2
  else (st.white_wins : ℚ) / (non_draws : ℚ)

/-- Mirror of `MultiDepthResult` (the statistics part recomputed by the
aggregation; `fitness` and the four components). -/
structure MultiDepthResult where
  fitness : ℚ
  skill_gradient : ℚ
  color_fairness : ℚ
  game_richness : ℚ
  white_wins : Nat
  black_wins : Nat
  draws : Nat
  total_games : Nat
  avg_rounds : ℚ
deriving Repr

/-- Mirror of `build_matchup_specs`. -/
def build_matchup_specs (depth : Nat) (games_per_matchup : Nat)
    (reduced : Bool) : List MatchupSpec :=
  let d := max depth 2
  let base_games := games_per_matchup
  let tiers0 := (List.range (d / 2)).map (fun i => 2 * i + 2)
  let tiers := if tiers0.contains d then tiers0 else tiers0 ++ [d]
  tiers.flatMap (fun tier =>
    let is_target := tier = d
    let params : Nat × ℚ × ℚ × ℚ :=
      if reduced then
        if is_target then (base_games * 2, 3 / 2, 3 / 2, 5 / 2)
        else
          (base_games, 3 / 5 + (tier : ℚ) / 10, 4 / 5 + (tier : ℚ) / 10,
           6 / 5 + (tier : ℚ) / 10)
      else
        let we := 3 / 5 + (tier : ℚ) / 10 + (if is_target then 3 / 10 else 0)
        let ws1 := 4 / 5 + (tier : ℚ) / 10 + (if is_target then 3 / 10 else 0)
        let ws2 := 6 / 5 + (tier : ℚ) / 10 + (if is_target then 1 / 2 else 0)
        (base_games, we, ws1, ws2)
    [({ depth1 := tier, depth2 := tier, num_games := params.1,
        weight := params.2.1 } : MatchupSpec)] ++
    (if 3 ≤ tier then
        [({ depth1 := tier, depth2 := tier - 1, num_games := params.1,
            weight := params.2.2.1 } : MatchupSpec)]
      else []) ++
    (if 4 ≤ tier then
        [({ depth1 := tier, depth2 := tier - 2, num_games := params.1,
            weight := params.2.2.2 } : MatchupSpec)]
      else []))

/-- Running totals of lines 641-665 (accumulated over the matchup loop). -/
def md_total_games (all_matchups : List (MatchupSpec × MatchupStats)) : Nat :=
  (all_matchups.map (fun m => m.2.games_played)).sum

def md_total_rounds (all_matchups : List (MatchupSpec × MatchupStats)) : Nat :=
  (all_matchups.map (fun m => m.2.total_rounds)).sum

def md_draws_total (all_matchups : List (MatchupSpec × MatchupStats)) : Nat :=
  (all_matchups.map (fun m => m.2.draws)).sum

/-- Skill gradient (lines 669-684): weighted mean of the deeper side's win
rate over asymmetric matchups with weight `1 + (gap - 1) * 0.5`. -/
def md_skill_gradient (all_matchups : List (MatchupSpec × MatchupStats)) : ℚ :=
  let weighted_sum : ℚ :=
    (all_matchups.map (fun m =>
      if m.1.depth1 ≠ m.1.depth2 then
        let gap : Nat := max m.1.depth1 m.1.depth2 - min m.1.depth1 m.1.depth2
        m.2.deeper_win_rate * (1 + ((gap : ℚ) - 1) * (1 / 2))
      else 0)).sum
  let weight_total : ℚ :=
    (all_matchups.map (fun m =>
      if m.1.depth1 ≠ m.1.depth2 then
        let gap : Nat := max m.1.depth1 m.1.depth2 - min m.1.depth1 m.1.depth2
        1 + ((gap : ℚ) - 1) * (1 / 2)
      else 0)).sum
  if 0 < weight_total then weighted_sum / weight_total else 1 / 2

/-- Games played at equal depths (line 691 accumulation). -/
def md_equal_depth_games (all_matchups : List (MatchupSpec × MatchupStats)) :
    Nat :=
  (all_matchups.map (fun m =>
    if m.1.depth1 = m.1.depth2 then m.2.games_played else 0)).sum

/-- Color fairness (lines 686-701). -/
def md_color_fairness (all_matchups : List (MatchupSpec × MatchupStats)) : ℚ :=
  let equal_depth_balance : ℚ :=
    (all_matchups.map (fun m =>
      if m.1.depth1 = m.1.depth2 then
        (1 - |m.2.white_win_rate - 1 / 2| * 2) * (m.2.games_played : ℚ)
      else 0)).sum
  if 0 < md_equal_depth_games all_matchups then
    equal_depth_balance / (md_equal_depth_games all_matchups : ℚ)
  else 1 / 2

/-- Average rounds per game (lines 704-708). -/
def md_avg_rounds (all_matchups : List (MatchupSpec × MatchupStats)) : ℚ :=
  if 0 < md_total_games all_matchups then
    (md_total_rounds all_matchups : ℚ) / (md_total_games all_matchups : ℚ)
  else 0

/-- Game richness shaping of average rounds (lines 709-715). -/
def md_game_richness (all_matchups : List (MatchupSpec × MatchupStats)) : ℚ :=
  let avg_rounds := md_avg_rounds all_matchups
  if avg_rounds < 10 then avg_rounds / 10
  else if 60 < avg_rounds then max (1 - (avg_rounds - 60) / 100) (1 / 2)
  else 1

/-- Decisiveness (lines 718-722). -/
def md_decisiveness (all_matchups : List (MatchupSpec × MatchupStats)) : ℚ :=
  if 0 < md_total_games all_matchups then
    1 - (md_draws_total all_matchups : ℚ) / (md_total_games all_matchups : ℚ)
  else 1 / 2

/-- Piecewise-linear skill score ramp (lines 725-735). -/
def skill_score_ramp (g : ℚ) : ℚ :=
  if 19 / 20 ≤ g then 1
  else if 9 / 10 ≤ g then 9 / 10 + (g - 9 / 10) * 2
  else if 4 / 5 ≤ g then 3 / 5 + (g - 4 / 5) * 3
  else if 13 / 20 ≤ g then 3 / 10 + (g - 13 / 20) * 2
  else g * (1 / 2)

/-- Weighted combination before penalties (line 737). -/
def md_fitness_pre (all_matchups : List (MatchupSpec × MatchupStats)) : ℚ :=
  (2 / 5) * skill_score_ramp (md_skill_gradient all_matchups) +
    (7 / 20) * md_color_fairness all_matchups +
    (3 / 20) * md_game_richness all_matchups +
    (1 / 10) * md_decisiveness all_matchups

/-- Whether a matchup triggers the one-color-never-wins penalty (line 742). -/
def md_offending (m : MatchupSpec × MatchupStats) : Prop :=
  m.1.depth1 = m.1.depth2 ∧ (m.2.white_wins = 0 ∨ m.2.black_wins = 0)

instance (m : MatchupSpec × MatchupStats) : Decidable (md_offending m) := by
  unfold md_offending; infer_instance

/-- Final fitness with penalties (lines 737-751): the 0.3 factor is applied
once per offending equal-depth matchup (the `for` loop multiplies `fitness`
inside the loop body), then the 0.5 skill-gradient penalty. -/
def md_fitness (all_matchups : List (MatchupSpec × MatchupStats)) : ℚ :=
  let fitness1 : ℚ :=
    if 4 ≤ md_equal_depth_games all_matchups then
      all_matchups.foldl
        (fun f m => if md_offending m then f * (3 / 10) else f)
        (md_fitness_pre all_matchups)
    else md_fitness_pre all_matchups
  if md_skill_gradient all_matchups < 4 / 5 then fitness1 * (1 / 2) else fitness1

/-- Aggregation half of `evaluate_ruleset_multi_depth` (lines 641-763
restricted to the arithmetic on the accumulated matchup list), assembled
from the named components above. -/
def multi_depth_aggregate (all_matchups : List (MatchupSpec × MatchupStats)) :
    MultiDepthResult :=
  { fitness := md_fitness all_matchups
    skill_gradient := md_skill_gradient all_matchups
    color_fairness := md_color_fairness all_matchups
    game_richness := md_game_richness all_matchups
    white_wins := (all_matchups.map (fun m => m.2.white_wins)).sum
    black_wins := (all_matchups.map (fun m => m.2.black_wins)).sum
    draws := md_draws_total all_matchups
    total_games := md_total_games all_matchups
    avg_rounds := md_avg_rounds all_matchups }

/-! ### Seeding discipline of `evaluate_ruleset_multi_depth` and `run_matchup`

`evaluate_ruleset_multi_depth` obtains its base seed from the OS-seeded
thread generator (`rand::thread_rng().gen::<u64>()`, lines 638-639); the
embedding makes that draw an explicit argument `os_draw`.  All subsequent
seeds are pure arithmetic on it: matchup i gets
`base_seed.wrapping_add(seed_offset_i)` where the offset accumulates
`num_games * 1000` per matchup, game g of a matchup gets
`base_seed.wrapping_add(g * 12345)`, and the two AI players of a game are
seeded `seed` and `seed.wrapping_add(7777)`. -/

def U64 : Nat := 2 ^ 64

/-- Wrapping u64 addition. -/
def wrap_add (a b : Nat) : Nat := (a + b) % U64

/-- The base seed of the evaluation: the raw thread-rng draw as u64. -/
def multi_depth_base_seed (os_draw : Nat) : Nat := os_draw % U64

/-- Mirror of the `seed_offset` accumulation of lines 636-665: the base seed
handed to `run_matchup` for each matchup in order. -/
def matchup_base_seeds (os_draw : Nat) (specs : List MatchupSpec) : List Nat :=
  (specs.foldl
    (fun (acc : List Nat × Nat) spec =>
      (acc.1 ++ [wrap_add (multi_depth_base_seed os_draw) acc.2],
       acc.2 + spec.num_games * 1000))
    ([], 0)).1

/-- Mirror of the per-game seed of `run_matchup` (line 563). -/
def game_seed (base_seed : Nat) (game_idx : Nat) : Nat :=
  wrap_add base_seed (game_idx * 12345)

/-- Mirror of the two AI seeds of a game (lines 575-576). -/
def game_ai_seeds (base_seed : Nat) (game_idx : Nat) : Nat × Nat :=
  (game_seed base_seed game_idx, wrap_add (game_seed base_seed game_idx) 7777)

/-! ### Claim-level predicates -/

/-- One side's half of the spec's king invariant: the king-position field is
set iff a king of that side is on the board, and the piece stored at a set
king-position field is that side's king. -/
def king_invariant (b : Board) (owner : Player) (kp : Option Hex) : Prop :=
  ((∃ e ∈ b, e.2.owner = owner ∧ e.2.is_king = true) ↔ kp.isSome = true) ∧
  (∀ h, kp = some h →
    ∃ p, boardGet b h = some p ∧ p.owner = owner ∧ p.is_king = true)

/-- The king invariant restated through `boardGet` lookups; over a board
with distinct keys it is equivalent to `king_invariant` and is the form the
board-update lemmas speak. -/
def king_invariant_get (b : Board) (owner : Player) (kp : Option Hex) :
    Prop :=
  ((∃ h p, boardGet b h = some p ∧ p.owner = owner ∧ p.is_king = true) ↔
    kp.isSome = true) ∧
  (∀ h, kp = some h →
    ∃ p, boardGet b h = some p ∧ p.owner = owner ∧ p.is_king = true)

/-- Well-formedness of a game state as the spec states it: both king
invariants, plus `action_index` at most the current player's template
length. -/
def GameState.well_formed (s : GameState) : Prop :=
  king_invariant s.board .White s.white_king_pos ∧
  king_invariant s.board .Black s.black_king_pos ∧
  s.action_index ≤ (get_template_actions s.current_template).length

instance (b : Board) (owner : Player) (kp : Option Hex) :
    Decidable (king_invariant b owner kp) := by
  unfold king_invariant; infer_instance

instance (s : GameState) : Decidable s.well_formed := by
  unfold GameState.well_formed; infer_instance

/-- Whether a move captures a king in state `s`: a movement onto a hex
occupied by a king. -/
def captures_king (s : GameState) (mv : Move) : Prop :=
  match mv with
  | .Movement _ to_pos _ =>
      ∃ p, boardGet s.board to_pos = some p ∧ p.is_king = true
  | _ => false

instance (s : GameState) (mv : Move) : Decidable (captures_king s mv) := by
  unfold captures_king
  cases mv <;> infer_instance

/-- Number of equal-depth matchups that trigger the never-wins penalty. -/
def md_offending_count (all_matchups : List (MatchupSpec × MatchupStats)) :
    Nat :=
  (all_matchups.filter (fun m => decide (md_offending m))).length

/-- Modelled from the claim's words for comparison with `md_fitness`: the
penalties as the claim states them, a single multiplication by 0.3 when any
equal-depth matchup shows `white_wins = 0` or `black_wins = 0` and the
equal-depth games number at least 4, then the 0.5 skill-gradient penalty. -/
def md_fitness_claim_worded (all_matchups : List (MatchupSpec × MatchupStats)) :
    ℚ :=
  let fitness1 : ℚ :=
    if 4 ≤ md_equal_depth_games all_matchups ∧ ∃ m ∈ all_matchups, md_offending m
    then md_fitness_pre all_matchups * (3 / 10)
    else md_fitness_pre all_matchups
  if md_skill_gradient all_matchups < 4 / 5 then fitness1 * (1 / 2) else fitness1

/-- The null-move pruning step of `negamax` is attempted exactly when the
precondition of ai.rs line 225 holds and the null state changes the side to
move (line 227); this is literally the pair of guards negamax branches on. -/
def null_move_attempted (s : GameState) (depth : Int) (allow_null : Bool) :
    Prop :=
  null_move_pre s depth allow_null ∧
    (make_null_move s).current_player ≠ s.current_player

/-! ### Concrete instances used by witnesses and counterexamples -/

/-- Round-50 scenario: round 51, no winner, white king (K1) at (0,0), black
king at (-2,2), white to move under template E. -/
def c8_state : GameState :=
  { GameState.new [(25, ⟨0, 0⟩, 0)] [(25, ⟨-2, 2⟩, 3)] .E .E with round := 51 }

/-- King-capture scenario of game.rs `test_king_capture`: white king at
(0,0), white queen (D5) at (0,1), black king at (0,-1), template E. -/
def c1_state : GameState :=
  GameState.new [(25, ⟨0, 0⟩, 0), (16, ⟨0, 1⟩, 0)] [(25, ⟨0, -1⟩, 3)] .E .E

/-- Rotation scenario: a white pawn (A1, forward-only, facing 2) beside the
kings, template E, white to move. -/
def c2_state : GameState :=
  GameState.new [(25, ⟨0, 3⟩, 0), (0, ⟨-1, 3⟩, 2)] [(25, ⟨0, -3⟩, 3)] .E .E

/-- Mid-turn search scenario: template B (Move, Rotate, Rotate) with
`action_index = 1`, kings far apart, white to move. -/
def c3_state : GameState :=
  { GameState.new [(25, ⟨0, 3⟩, 0)] [(25, ⟨0, -3⟩, 3)] .B .B with
    action_index := 1 }

/-- The state `make_null_move` produces from `c3_state`: both remaining
template-B actions passed, the turn handed to Black (computed by the
`null_loop` equations and checked by `decide` in `c3_null_state_eq`). -/
def c3_null_state : GameState :=
  { board := [(⟨0, 3⟩, ⟨25, .White, 0⟩), (⟨0, -3⟩, ⟨25, .Black, 3⟩)]
    white_king_pos := some ⟨0, 3⟩
    black_king_pos := some ⟨0, -3⟩
    current_player := .Black
    white_template := .B
    black_template := .B
    action_index := 0
    last_piece_pos := none
    round := 1
    result := .Ongoing
    white_phoenix_captured := false
    black_phoenix_captured := false }

/-- Move-ordering scenario: white guard (A2) at (0,0) next to a black guard
at (0,-1); capturing and quiet movements both available under template E. -/
def c7_state : GameState :=
  GameState.new [(25, ⟨0, 3⟩, 0), (1, ⟨0, 0⟩, 0)] [(25, ⟨3, -3⟩, 3), (1, ⟨0, -1⟩, 3)] .E .E

/-- Heuristics giving every archetype the value -1 (an adversarial but
type-correct choice; `Heuristics` places no sign constraint on
`piece_values`). -/
def negative_heuristics : Heuristics :=
  { piece_values := fun _ => -1, center_weight := 0, mobility_weight := 0 }

/-- Heuristics with all piece values 1 (used to instantiate universally
quantified statements). -/
def unit_heuristics : Heuristics :=
  { piece_values := fun _ => 1, center_weight := 0, mobility_weight := 0 }

/-- A deterministic stream standing for any RNG draw sequence. -/
def zero_rng : Rng := { nats := fun _ => 0, fracs := fun _ => 1 / 2, k := 0 }

/-- Matchup list with two offending equal-depth matchups: both play 4 games
that black always wins, 10 rounds each. -/
def c4_matchups : List (MatchupSpec × MatchupStats) :=
  [(⟨2, 2, 4, 1⟩,
    ⟨2, 2, 0, 0, 0, 4, 0, 4, 40⟩),
   (⟨4, 4, 4, 1⟩,
    ⟨4, 4, 0, 0, 0, 4, 0, 4, 40⟩)]

/-- Head-maximality of an index list with respect to a fitness table: the
head's fitness dominates the fitness of every listed index.  This is the
shape `select_elite`'s stable descending sort guarantees for its output. -/
def hdFitMax (fitness : List ℚ) : List Nat → Prop
  | [] => True
  | h :: t => ∀ y ∈ h :: t, fitness.getD y 0 ≤ fitness.getD h 0

/-! ## Lemmas and theorems -/

/-! ### Association-list board lemmas -/

lemma boardGet_nil (h : Hex) : boardGet [] h = none := rfl

lemma boardGet_cons (k : Hex) (p : Piece) (b : Board) (h : Hex) :
    boardGet ((k, p) :: b) h = if k = h then some p else boardGet b h := by
  by_cases hk : k = h <;> simp [boardGet, List.find?_cons, hk]

lemma boardGet_insert (b : Board) (h : Hex) (p : Piece) (h' : Hex) :
    boardGet (boardInsert b h p) h' =
      if h = h' then some p else boardGet b h' := by
  induction b with
  | nil => by_cases hh : h = h' <;> simp [boardInsert, boardGet_cons, hh]
  | cons e tl ih =>
      obtain ⟨k, q⟩ := e
      by_cases hk : k = h
      · subst hk
        by_cases hh : k = h' <;> simp [boardInsert, boardGet_cons, hh]
      · by_cases hkh : k = h'
        · subst hkh
          have : ¬ h = k := fun hc => hk hc.symm
          simp [boardInsert, hk, boardGet_cons, this]
        · simp [boardInsert, hk, boardGet_cons, hkh, ih]

lemma boardGet_remove (b : Board) (h : Hex) (h' : Hex) :
    boardGet (boardRemove b h) h' =
      if h = h' then none else boardGet b h' := by
  induction b with
  | nil => by_cases hh : h = h' <;> simp [boardRemove, boardGet, hh]
  | cons e tl ih =>
      obtain ⟨k, q⟩ := e
      by_cases hk : k = h
      · subst hk
        by_cases hh : k = h' <;> simp [boardRemove, boardGet_cons, hh] at ih ⊢ <;>
          simpa [hh] using ih
      · by_cases hkh : k = h'
        · subst hkh
          have : ¬ h = k := fun hc => hk hc.symm
          simp [boardRemove, hk, boardGet_cons, this]
        · simp only [boardRemove, List.filter_cons]
          simp only [hk, decide_eq_true_eq, decide_not]
          simp only [decide_eq_false (by exact hk : ¬ k = h), Bool.not_false,
            if_true, boardGet_cons, hkh, if_false]
          simpa [boardRemove, boardGet_cons, hkh] using ih

lemma boardGet_mem {b : Board} {h : Hex} {p : Piece}
    (hg : boardGet b h = some p) : (h, p) ∈ b := by
  induction b with
  | nil => simp [boardGet] at hg
  | cons e tl ih =>
      obtain ⟨k, q⟩ := e
      rw [boardGet_cons] at hg
      by_cases hk : k = h
      · simp [hk] at hg
        simp [hk, hg]
      · simp [hk] at hg
        exact List.mem_cons_of_mem _ (ih hg)

lemma boardWF_cons {k : Hex} {q : Piece} {tl : Board}
    (hb : boardWF ((k, q) :: tl)) :
    (∀ x : Piece, (k, x) ∉ tl) ∧ boardWF tl := by
  have h2 := List.nodup_cons.mp
    (show (k :: tl.map Prod.fst).Nodup by simpa [boardWF] using hb)
  exact ⟨fun x hx => h2.1 (List.mem_map_of_mem Prod.fst hx), h2.2⟩

lemma mem_boardGet {b : Board} (hb : boardWF b) {h : Hex} {p : Piece}
    (hm : (h, p) ∈ b) : boardGet b h = some p := by
  induction b with
  | nil => simp at hm
  | cons e tl ih =>
      obtain ⟨k, q⟩ := e
      rcases List.mem_cons.mp hm with he | ht
      · cases he
        simp [boardGet_cons]
      · have hk : k ≠ h := fun hc => (boardWF_cons hb).1 p (hc ▸ ht)
        rw [boardGet_cons]
        simp only [hk, if_false]
        exact ih (boardWF_cons hb).2 ht

lemma keys_insert (b : Board) (h : Hex) (p : Piece) :
    (boardInsert b h p).map Prod.fst =
      if h ∈ b.map Prod.fst then b.map Prod.fst
      else b.map Prod.fst ++ [h] := by
  induction b with
  | nil => simp [boardInsert]
  | cons e tl ih =>
      obtain ⟨k, q⟩ := e
      by_cases hk : k = h
      · subst hk
        simp [boardInsert]
      · have hk2 : ¬ h = k := fun hc => hk hc.symm
        by_cases hmem : h ∈ tl.map Prod.fst <;>
          simp [boardInsert, hk, hk2, hmem, ih]

lemma boardWF_insert {b : Board} (hb : boardWF b) (h : Hex) (p : Piece) :
    boardWF (boardInsert b h p) := by
  unfold boardWF
  rw [keys_insert]
  split
  · exact hb
  · rename_i hnm
    exact List.Nodup.append hb (List.nodup_singleton h)
      (by simpa [List.disjoint_singleton] using hnm)

lemma boardWF_remove {b : Board} (hb : boardWF b) (h : Hex) :
    boardWF (boardRemove b h) := by
  unfold boardWF boardRemove
  exact ((List.filter_sublist b).map Prod.fst).nodup hb

/-! ### Placement-fold lemmas (`GameState::new`) -/

lemma place_pieces_cons (o : Player) (acc : Board × Option Hex)
    (e : Fin 32 × Hex × Nat) (l : List (Fin 32 × Hex × Nat)) :
    place_pieces o acc (e :: l) =
      place_pieces o
        (boardInsert acc.1 e.2.1 ⟨e.1, o, e.2.2⟩,
         if (get_piece_type e.1).is_king then some e.2.1 else acc.2) l := rfl

lemma place_pieces_snd_no_king (o : Player) (l : List (Fin 32 × Hex × Nat))
    (acc : Board × Option Hex)
    (hnk : ∀ e ∈ l, (get_piece_type e.1).is_king = false) :
    (place_pieces o acc l).2 = acc.2 := by
  induction l generalizing acc with
  | nil => rfl
  | cons e tl ih =>
      rw [place_pieces_cons]
      rw [ih _ (fun x hx => hnk x (List.mem_cons_of_mem _ hx))]
      simp [hnk e (List.mem_cons_self _ _)]

lemma place_pieces_get_ne (o : Player) (l : List (Fin 32 × Hex × Nat))
    (acc : Board × Option Hex) (h' : Hex)
    (hne : ∀ e ∈ l, e.2.1 ≠ h') :
    boardGet (place_pieces o acc l).1 h' = boardGet acc.1 h' := by
  induction l generalizing acc with
  | nil => rfl
  | cons e tl ih =>
      rw [place_pieces_cons]
      rw [ih _ (fun x hx => hne x (List.mem_cons_of_mem _ hx))]
      simp [boardGet_insert, hne e (List.mem_cons_self _ _)]

/-! ### Catalog facts -/

lemma is_king_of_lt25 : ∀ i : Fin 32, i.val < 25 →
    (get_piece_type i).is_king = false := by decide

lemma is_king_of_king_range : ∀ i : Fin 32, 25 ≤ i.val → i.val ≤ 29 →
    (get_piece_type i).is_king = true := by decide

/-! ### C10: random_symmetric places both kings on off-board hexes -/

lemma random_symmetric_pieces_lt25 (rng : Rng) (nm : String) (n : Nat) :
    ∀ i : Nat,
      ((RuleSet.random_symmetric rng nm n).white_pieces.getD i 0).val < 25 := by
  intro i
  have hmem : ∀ x ∈ (RuleSet.random_symmetric rng nm n).white_pieces,
      (x : Fin 32).val < 25 := by
    intro x hx
    simp only [RuleSet.random_symmetric, List.mem_map] at hx
    obtain ⟨j, -, rfl⟩ := hx
    exact Nat.mod_lt _ (by norm_num)
  by_cases hi : i < (RuleSet.random_symmetric rng nm n).white_pieces.length
  · rw [List.getD_eq_getElem _ _ hi]
    exact hmem _ (List.getElem_mem hi)
  · rw [List.getD_eq_default _ _ (Nat.le_of_not_lt hi)]
    decide

lemma gen_pos_tail_ne (c : Nat) (w : Bool) :
    ∀ h ∈ (RuleSet.generate_positions_template_d c w).drop 1,
      h ≠ (⟨0, 5⟩ : Hex) ∧ h ≠ (⟨0, -5⟩ : Hex) := by
  intro h hm
  simp only [RuleSet.generate_positions_template_d, ← List.map_drop] at hm
  obtain ⟨p, hp, rfl⟩ := List.mem_map.mp hm
  have hp2 : p ∈ RuleSet.template_d_base.drop 1 := by
    rw [List.drop_take] at hp
    exact List.take_subset _ _ hp
  have hb : 2 ≤ p.2 ∧ p.2 ≤ 4 := by
    fin_cases hp2 <;> constructor <;> norm_num
  cases w <;>
    refine ⟨fun hc => ?_, fun hc => ?_⟩ <;>
    · simp [Hex.mk2, Hex.mk.injEq] at hc
      omega

lemma gen_pos_getD_tail_ne (c : Nat) (w : Bool) (j : Nat) (d : Hex) (hj1 : 1 ≤ j)
    (hj : j < (RuleSet.generate_positions_template_d c w).length) :
    (RuleSet.generate_positions_template_d c w).getD j d ≠ (⟨0, 5⟩ : Hex) ∧
    (RuleSet.generate_positions_template_d c w).getD j d ≠ (⟨0, -5⟩ : Hex) := by
  rcases hgen : RuleSet.generate_positions_template_d c w with - | ⟨x, tl⟩
  · rw [hgen] at hj
    simp at hj
  · rw [hgen] at hj
    simp only [List.length_cons] at hj
    obtain ⟨j', rfl⟩ : ∃ j', j = j' + 1 := ⟨j - 1, by omega⟩
    rw [List.getD_cons_succ]
    apply gen_pos_tail_ne c w
    rw [hgen]
    simp only [List.drop_one, List.tail_cons]
    rw [List.getD_eq_getElem _ _ (by omega)]
    exact List.getElem_mem (by omega)

lemma gen_pos_head (c : Nat) (w : Bool) :
    (RuleSet.generate_positions_template_d (c + 1) w).head? =
      some (⟨0, if w then 5 else -5⟩ : Hex) := by
  cases w <;>
    simp [RuleSet.generate_positions_template_d, RuleSet.template_d_base,
      List.take_succ_cons, Hex.mk2] <;> norm_num

/-- C10: for every RNG and piece count, `random_symmetric` puts the white
king at (0,5) and the black king at (0,-5); both hexes are off the board
(`is_valid` fails), and the game state built from the ruleset carries the
kings there unchecked. -/
theorem C10_random_symmetric_offboard_kings (rng : Rng) (nm : String) (n : Nat) :
    (RuleSet.random_symmetric rng nm n).white_positions.head? =
      some (⟨0, 5⟩ : Hex) ∧
    (RuleSet.random_symmetric rng nm n).black_positions.head? =
      some (⟨0, -5⟩ : Hex) ∧
    Hex.is_valid ⟨0, 5⟩ = false ∧
    Hex.is_valid ⟨0, -5⟩ = false ∧
    (RuleSet.random_symmetric rng nm n).to_game_state.white_king_pos =
      some (⟨0, 5⟩ : Hex) ∧
    (RuleSet.random_symmetric rng nm n).to_game_state.black_king_pos =
      some (⟨0, -5⟩ : Hex) ∧
    (∃ p, (RuleSet.random_symmetric rng nm n).to_game_state.get_piece ⟨0, 5⟩ =
        some p ∧ p.is_king = true ∧ p.owner = .White) ∧
    (∃ p, (RuleSet.random_symmetric rng nm n).to_game_state.get_piece ⟨0, -5⟩ =
        some p ∧ p.is_king = true ∧ p.owner = .Black) := by
  have hwpos : (RuleSet.random_symmetric rng nm n).white_positions =
      RuleSet.generate_positions_template_d (n + 1) true := rfl
  have hbpos : (RuleSet.random_symmetric rng nm n).black_positions =
      RuleSet.generate_positions_template_d (n + 1) false := rfl
  have hwhead : (RuleSet.generate_positions_template_d (n + 1) true).head? =
      some (⟨0, 5⟩ : Hex) := by simpa using gen_pos_head n true
  have hbhead : (RuleSet.generate_positions_template_d (n + 1) false).head? =
      some (⟨0, -5⟩ : Hex) := by simpa using gen_pos_head n false
  obtain ⟨tw, htw⟩ : ∃ tl, RuleSet.generate_positions_template_d (n + 1) true =
      (⟨0, 5⟩ : Hex) :: tl := by
    cases hc : RuleSet.generate_positions_template_d (n + 1) true with
    | nil => rw [hc] at hwhead; simp at hwhead
    | cons x tl =>
        rw [hc] at hwhead
        simp only [List.head?_cons, Option.some.injEq] at hwhead
        exact ⟨tl, by rw [hwhead]⟩
  obtain ⟨tb, htb⟩ : ∃ tl, RuleSet.generate_positions_template_d (n + 1) false =
      (⟨0, -5⟩ : Hex) :: tl := by
    cases hc : RuleSet.generate_positions_template_d (n + 1) false with
    | nil => rw [hc] at hbhead; simp at hbhead
    | cons x tl =>
        rw [hc] at hbhead
        simp only [List.head?_cons, Option.some.injEq] at hbhead
        exact ⟨tl, by rw [hbhead]⟩
  -- the king archetype drawn is a king
  have hkingval : 25 ≤ (RuleSet.random_symmetric rng nm n).white_king.val ∧
      (RuleSet.random_symmetric rng nm n).white_king.val ≤ 29 := by
    have : rng.nats rng.k % 256 % 5 < 5 := Nat.mod_lt _ (by norm_num)
    constructor <;> simp only [RuleSet.random_symmetric] <;> omega
  have hkingbk : (RuleSet.random_symmetric rng nm n).black_king =
      (RuleSet.random_symmetric rng nm n).white_king := rfl
  have hisking : (get_piece_type (RuleSet.random_symmetric rng nm n).white_king).is_king = true :=
    is_king_of_king_range _ hkingval.1 hkingval.2
  -- facings heads
  have hwfac : (RuleSet.random_symmetric rng nm n).white_facings.getD 0 0 = 0 := by
    show (List.replicate (n + 1) 0).getD 0 0 = 0
    simp [List.replicate_succ]
  have hbfac : (RuleSet.random_symmetric rng nm n).black_facings.getD 0 3 = 3 := by
    show (List.replicate (n + 1) 3).getD 0 3 = 3
    simp [List.replicate_succ]
  -- decompose the two setup lists
  have hsetupW : RuleSet.white_setup (RuleSet.random_symmetric rng nm n) =
      ((RuleSet.random_symmetric rng nm n).white_king, (⟨0, 5⟩ : Hex), (0 : Nat)) ::
      (List.range (RuleSet.random_symmetric rng nm n).white_pieces.length).filterMap
        (fun i =>
          if i + 1 < (RuleSet.random_symmetric rng nm n).white_positions.length then
            some ((RuleSet.random_symmetric rng nm n).white_pieces.getD i 0,
              (RuleSet.random_symmetric rng nm n).white_positions.getD (i + 1) ⟨0, 0⟩,
              (RuleSet.random_symmetric rng nm n).white_facings.getD (i + 1) 0)
          else none) := by
    unfold RuleSet.white_setup
    rw [if_pos (by rw [hwpos, htw]; simp)]
    rw [show (RuleSet.random_symmetric rng nm n).white_positions.getD 0 ⟨0, 0⟩ =
      (⟨0, 5⟩ : Hex) by rw [hwpos, htw]; rfl]
    rw [hwfac]
    rfl
  have hsetupB : RuleSet.black_setup (RuleSet.random_symmetric rng nm n) =
      ((RuleSet.random_symmetric rng nm n).white_king, (⟨0, -5⟩ : Hex), (3 : Nat)) ::
      (List.range (RuleSet.random_symmetric rng nm n).black_pieces.length).filterMap
        (fun i =>
          if i + 1 < (RuleSet.random_symmetric rng nm n).black_positions.length then
            some ((RuleSet.random_symmetric rng nm n).black_pieces.getD i 0,
              (RuleSet.random_symmetric rng nm n).black_positions.getD (i + 1) ⟨0, 0⟩,
              (RuleSet.random_symmetric rng nm n).black_facings.getD (i + 1) 3)
          else none) := by
    unfold RuleSet.black_setup
    rw [if_pos (by rw [hbpos, htb]; simp)]
    rw [show (RuleSet.random_symmetric rng nm n).black_positions.getD 0 ⟨0, 0⟩ =
      (⟨0, -5⟩ : Hex) by rw [hbpos, htb]; rfl]
    rw [hbfac]
    rw [hkingbk]
    rfl
  -- all non-king entries: not kings, positions off the two king hexes
  have hblackpieces : (RuleSet.random_symmetric rng nm n).black_pieces =
      (RuleSet.random_symmetric rng nm n).white_pieces := rfl
  have htailW : ∀ e ∈ (List.range (RuleSet.random_symmetric rng nm n).white_pieces.length).filterMap
      (fun i =>
        if i + 1 < (RuleSet.random_symmetric rng nm n).white_positions.length then
          some ((RuleSet.random_symmetric rng nm n).white_pieces.getD i 0,
            (RuleSet.random_symmetric rng nm n).white_positions.getD (i + 1) ⟨0, 0⟩,
            (RuleSet.random_symmetric rng nm n).white_facings.getD (i + 1) 0)
        else none),
      (get_piece_type e.1).is_king = false ∧
        e.2.1 ≠ (⟨0, 5⟩ : Hex) ∧ e.2.1 ≠ (⟨0, -5⟩ : Hex) := by
    intro e he
    obtain ⟨i, hir, hgi⟩ := List.mem_filterMap.mp he
    by_cases hlt : i + 1 < (RuleSet.random_symmetric rng nm n).white_positions.length
    · rw [if_pos hlt] at hgi
      obtain rfl := Option.some.inj hgi
      refine ⟨is_king_of_lt25 _ (random_symmetric_pieces_lt25 rng nm n i), ?_, ?_⟩
      · exact (gen_pos_getD_tail_ne (n + 1) true (i + 1) ⟨0, 0⟩ (by omega)
          (by rw [← hwpos]; exact hlt)).1
      · exact (gen_pos_getD_tail_ne (n + 1) true (i + 1) ⟨0, 0⟩ (by omega)
          (by rw [← hwpos]; exact hlt)).2
    · rw [if_neg hlt] at hgi
      exact absurd hgi (by simp)
  have htailB : ∀ e ∈ (List.range (RuleSet.random_symmetric rng nm n).black_pieces.length).filterMap
      (fun i =>
        if i + 1 < (RuleSet.random_symmetric rng nm n).black_positions.length then
          some ((RuleSet.random_symmetric rng nm n).black_pieces.getD i 0,
            (RuleSet.random_symmetric rng nm n).black_positions.getD (i + 1) ⟨0, 0⟩,
            (RuleSet.random_symmetric rng nm n).black_facings.getD (i + 1) 3)
        else none),
      (get_piece_type e.1).is_king = false ∧
        e.2.1 ≠ (⟨0, 5⟩ : Hex) ∧ e.2.1 ≠ (⟨0, -5⟩ : Hex) := by
    intro e he
    obtain ⟨i, hir, hgi⟩ := List.mem_filterMap.mp he
    by_cases hlt : i + 1 < (RuleSet.random_symmetric rng nm n).black_positions.length
    · rw [if_pos hlt] at hgi
      obtain rfl := Option.some.inj hgi
      refine ⟨?_, ?_, ?_⟩
      · rw [hblackpieces]
        exact is_king_of_lt25 _ (random_symmetric_pieces_lt25 rng nm n i)
      · exact (gen_pos_getD_tail_ne (n + 1) false (i + 1) ⟨0, 0⟩ (by omega)
          (by rw [← hbpos]; exact hlt)).1
      · exact (gen_pos_getD_tail_ne (n + 1) false (i + 1) ⟨0, 0⟩ (by omega)
          (by rw [← hbpos]; exact hlt)).2
    · rw [if_neg hlt] at hgi
      exact absurd hgi (by simp)
  -- the two placement folds
  have hWsnd : (place_pieces .White ([], none)
      (RuleSet.white_setup (RuleSet.random_symmetric rng nm n))).2 =
      some (⟨0, 5⟩ : Hex) := by
    rw [hsetupW, place_pieces_cons,
      place_pieces_snd_no_king _ _ _ (fun e he => (htailW e he).1)]
    simp [hisking]
  have hWget : boardGet (place_pieces .White ([], none)
      (RuleSet.white_setup (RuleSet.random_symmetric rng nm n))).1 ⟨0, 5⟩ =
      some ⟨(RuleSet.random_symmetric rng nm n).white_king, .White, 0⟩ := by
    rw [hsetupW, place_pieces_cons,
      place_pieces_get_ne _ _ _ _ (fun e he => (htailW e he).2.1)]
    simp [boardGet_insert]
  have hBsnd : (place_pieces .Black
      ((place_pieces .White ([], none)
        (RuleSet.white_setup (RuleSet.random_symmetric rng nm n))).1, none)
      (RuleSet.black_setup (RuleSet.random_symmetric rng nm n))).2 =
      some (⟨0, -5⟩ : Hex) := by
    rw [hsetupB, place_pieces_cons,
      place_pieces_snd_no_king _ _ _ (fun e he => (htailB e he).1)]
    simp [hisking]
  have hBget : boardGet (place_pieces .Black
      ((place_pieces .White ([], none)
        (RuleSet.white_setup (RuleSet.random_symmetric rng nm n))).1, none)
      (RuleSet.black_setup (RuleSet.random_symmetric rng nm n))).1 ⟨0, -5⟩ =
      some ⟨(RuleSet.random_symmetric rng nm n).white_king, .Black, 3⟩ := by
    rw [hsetupB, place_pieces_cons,
      place_pieces_get_ne _ _ _ _ (fun e he => (htailB e he).2.2)]
    simp [boardGet_insert]
  have hBgetW : boardGet (place_pieces .Black
      ((place_pieces .White ([], none)
        (RuleSet.white_setup (RuleSet.random_symmetric rng nm n))).1, none)
      (RuleSet.black_setup (RuleSet.random_symmetric rng nm n))).1 ⟨0, 5⟩ =
      some ⟨(RuleSet.random_symmetric rng nm n).white_king, .White, 0⟩ := by
    rw [hsetupB, place_pieces_cons,
      place_pieces_get_ne _ _ _ _ (fun e he => (htailB e he).2.1)]
    rw [show boardGet (boardInsert (place_pieces .White ([], none)
      (RuleSet.white_setup (RuleSet.random_symmetric rng nm n))).1 ⟨0, -5⟩
        ⟨(RuleSet.random_symmetric rng nm n).white_king, .Black, 3⟩) ⟨0, 5⟩ =
      boardGet (place_pieces .White ([], none)
        (RuleSet.white_setup (RuleSet.random_symmetric rng nm n))).1 ⟨0, 5⟩ by
        rw [boardGet_insert]; simp]
    exact hWget
  refine ⟨?_, ?_, by decide, by decide, ?_, ?_, ?_, ?_⟩
  · rw [hwpos, htw]; rfl
  · rw [hbpos, htb]; rfl
  · exact hWsnd
  · exact hBsnd
  · exact ⟨_, hBgetW, hisking, rfl⟩
  · exact ⟨_, hBget, hisking, rfl⟩

/-! ### C8: the round-limit proximity rule -/

lemma apply_move_kind_round (s : GameState) (mv : Move) :
    (GameState.apply_move_kind s mv).round = s.round := by
  cases mv <;>
    simp only [GameState.apply_move_kind, GameState.apply_movement,
      GameState.apply_swap, GameState.apply_rebirth] <;>
    repeat' first | split | rfl

lemma apply_move_kind_result_kept (s : GameState) (mv : Move) :
    ∀ t : GameState, t = GameState.apply_move_kind s mv → True := fun _ _ => trivial

lemma end_turn_resolves (t : GameState) (wk bk : Hex)
    (hres : t.result = .Ongoing)
    (hround : 50 < (if t.current_player = .Black then t.round + 1 else t.round))
    (hwk : t.white_king_pos = some wk) (hbk : t.black_king_pos = some bk) :
    (GameState.end_turn t).result =
      (if wk.distance_to_center < bk.distance_to_center then .WhiteWins
       else if bk.distance_to_center < wk.distance_to_center then .BlackWins
       else if (t.board.filter (fun e => e.2.owner = .White)).length >
           (t.board.filter (fun e => e.2.owner = .Black)).length then .WhiteWins
       else if (t.board.filter (fun e => e.2.owner = .Black)).length >
           (t.board.filter (fun e => e.2.owner = .White)).length then .BlackWins
       else .WhiteWins) := by
  cases hcp : t.current_player
  case White =>
      simp only [hcp, reduceCtorEq, if_false] at hround
      simp [GameState.end_turn, hcp, Player.opponent, MAX_ROUNDS, hres, hround,
        GameState.resolve_by_proximity, hwk, hbk]
      (repeat' split) <;> simp_all
  case Black =>
      simp only [hcp, if_true] at hround
      simp [GameState.end_turn, hcp, Player.opponent, MAX_ROUNDS, hres, hround,
        GameState.resolve_by_proximity, hwk, hbk]
      (repeat' split) <;> simp_all

/-- C8: whenever applying a move completes the turn and the (possibly
incremented) round number exceeds 50 while the move itself produced no
winner, the resulting state is decided by the proximity rule: strictly
smaller king distance-to-center wins, then strictly more pieces, then White. -/
theorem C8_round_limit_proximity (s : GameState) (mv : Move) (wk bk : Hex)
    (hcomp : (get_template_actions s.current_template).length ≤ s.action_index + 1)
    (hres : (GameState.apply_move_kind s mv).result = .Ongoing)
    (hround : 50 < (if s.current_player = .Black then s.round + 1 else s.round))
    (hwk : (GameState.apply_move_kind s mv).white_king_pos = some wk)
    (hbk : (GameState.apply_move_kind s mv).black_king_pos = some bk) :
    (GameState.apply_move s mv).result =
      (if wk.distance_to_center < bk.distance_to_center then .WhiteWins
       else if bk.distance_to_center < wk.distance_to_center then .BlackWins
       else if ((GameState.apply_move_kind s mv).board.filter
           (fun e => e.2.owner = .White)).length >
           ((GameState.apply_move_kind s mv).board.filter
           (fun e => e.2.owner = .Black)).length then .WhiteWins
       else if ((GameState.apply_move_kind s mv).board.filter
           (fun e => e.2.owner = .Black)).length >
           ((GameState.apply_move_kind s mv).board.filter
           (fun e => e.2.owner = .White)).length then .BlackWins
       else .WhiteWins) := by
  obtain ⟨hp, ha, hw2, hb2⟩ := apply_move_kind_fields s mv
  have hrd := apply_move_kind_round s mv
  have hcomplete : (GameState.is_turn_complete
      { GameState.apply_move_kind s mv with
        action_index := (GameState.apply_move_kind s mv).action_index + 1 }) = true := by
    simp only [GameState.is_turn_complete, GameState.current_template,
      decide_eq_true_eq]
    simp only [GameState.current_template] at hcomp
    cases hcp : s.current_player <;>
      simp only [hcp, hp, hw2, hb2, ha] at hcomp ⊢ <;>
      omega
  have happly : GameState.apply_move s mv = GameState.end_turn
      { GameState.apply_move_kind s mv with
        action_index := (GameState.apply_move_kind s mv).action_index + 1 } := by
    simp only [GameState.apply_move, hcomplete, if_true]
  rw [happly]
  exact end_turn_resolves _ wk bk hres
    (by rw [show ({ GameState.apply_move_kind s mv with
        action_index := (GameState.apply_move_kind s mv).action_index + 1 } :
        GameState).current_player = s.current_player from hp,
      show ({ GameState.apply_move_kind s mv with
        action_index := (GameState.apply_move_kind s mv).action_index + 1 } :
        GameState).round = s.round from hrd]; exact hround)
    hwk hbk

/-- C8 witness: the spec's concrete scenario — round 51, no winner, white
king at (0,0), black king at (-2,2) — resolves to a White win when the turn
ends. -/
theorem C8_round_limit_proximity_witness :
    (GameState.apply_move c8_state .Pass).result = .WhiteWins := by
  have h := C8_round_limit_proximity c8_state .Pass ⟨0, 0⟩ ⟨-2, 2⟩
    (by decide) (by decide) (by decide) (by decide) (by decide)
  rw [h]
  decide

/-! ### C5: the multi-depth evaluator's base seed comes from the OS thread
generator, so its seeding is not a function of the declared arguments -/

lemma matchup_base_seeds_fold_head (d : Nat) (specs : List MatchupSpec)
    (acc : List Nat × Nat) (hne : acc.1 ≠ []) :
    ((specs.foldl
      (fun (acc : List Nat × Nat) spec =>
        (acc.1 ++ [wrap_add (multi_depth_base_seed d) acc.2],
         acc.2 + spec.num_games * 1000))
      acc).1).head? = acc.1.head? := by
  induction specs generalizing acc with
  | nil => rfl
  | cons sp rest ih =>
      rw [List.foldl_cons]
      rw [ih _ (by simp [hne])]
      cases hacc : acc.1 with
      | nil => exact absurd hacc hne
      | cons x xs => simp [hacc]

lemma matchup_base_seeds_head (d : Nat) (sp : MatchupSpec)
    (specs : List MatchupSpec) :
    (matchup_base_seeds d (sp :: specs)).head? = some (d % U64) := by
  unfold matchup_base_seeds
  rw [List.foldl_cons]
  rw [matchup_base_seeds_fold_head d specs _ (by simp)]
  simp [wrap_add, multi_depth_base_seed, Nat.mod_mod_of_dvd]

/-- C5 counterexample: with every argument of the evaluation fixed
(depth 4, 2 games per matchup, reduced mode), two runs whose thread-rng
draws differ get different seed assignments for their matchups, so the
evaluation's behaviour is not a function of its declared inputs: the claim
that two runs with the same arguments produce identical results, drawing no
randomness from a global or OS-level generator, fails. -/
theorem C5_counterexample_seed_plan_depends_on_thread_rng :
    matchup_base_seeds 0 (build_matchup_specs 4 2 true) ≠
      matchup_base_seeds 1 (build_matchup_specs 4 2 true) := by
  decide

/-- C5 amended: within one call all seeds derive deterministically from the
thread-rng draw (the first matchup's base seed is the draw itself modulo
2^64), and distinct draws always produce distinct matchup seed plans; hence
reproducibility holds only relative to a fixed OS draw, not across runs. -/
theorem C5_seed_plan_deterministic_in_draw (d1 d2 : Nat) (sp : MatchupSpec)
    (specs : List MatchupSpec) (h1 : d1 < U64) (h2 : d2 < U64)
    (hne : d1 ≠ d2) :
    matchup_base_seeds d1 (sp :: specs) ≠ matchup_base_seeds d2 (sp :: specs) := by
  intro hc
  have he := matchup_base_seeds_head d1 sp specs
  rw [hc, matchup_base_seeds_head d2 sp specs] at he
  rw [Nat.mod_eq_of_lt h2, Nat.mod_eq_of_lt h1] at he
  exact hne (Option.some.inj he).symm

/-- C5 witness: instantiating the amended statement at draws 0 and 1 with
the depth-4 reduced matchup specs. -/
theorem C5_seed_plan_deterministic_in_draw_witness :
    matchup_base_seeds 0 (⟨2, 2, 2, 4 / 5⟩ ::
      (build_matchup_specs 4 2 true).drop 1) ≠
    matchup_base_seeds 1 (⟨2, 2, 2, 4 / 5⟩ ::
      (build_matchup_specs 4 2 true).drop 1) :=
  C5_seed_plan_deterministic_in_draw 0 1 _ _ (by norm_num [U64]) (by norm_num [U64])
    (by norm_num)

/-! ### C4: the multi-depth fitness formula and its penalties -/

lemma penalty_fold_eq_pow (l : List (MatchupSpec × MatchupStats)) (x : ℚ) :
    l.foldl (fun f m => if md_offending m then f * (3 / 10) else f) x =
      x * (3 / 10) ^ (l.filter (fun m => decide (md_offending m))).length := by
  induction l generalizing x with
  | nil => simp
  | cons m rest ih =>
      simp only [List.foldl_cons, List.filter_cons]
      by_cases hm : md_offending m
      · rw [if_pos hm, ih, if_pos (decide_eq_true hm), List.length_cons]
        ring
      · rw [if_neg hm, ih, if_neg (by simp [hm])]

/-- C4 counterexample: with two equal-depth matchups of 4 games each in
which White never wins, the code multiplies the pre-penalty fitness by 0.3
twice (once per offending matchup); the claim's single multiplication by 0.3
gives a different value. -/
theorem C4_counterexample_penalty_applied_per_matchup :
    md_fitness c4_matchups ≠ md_fitness_claim_worded c4_matchups := by
  norm_num [md_fitness, md_fitness_claim_worded, md_fitness_pre,
    md_skill_gradient, md_color_fairness, md_game_richness, md_avg_rounds,
    md_decisiveness, skill_score_ramp, md_equal_depth_games, md_total_games,
    md_total_rounds, md_draws_total, md_offending,
    MatchupStats.white_win_rate, MatchupStats.deeper_win_rate, c4_matchups]
  rw [abs_of_nonneg (by norm_num : (0 : ℚ) ≤ 1 / 2)]
  norm_num

/-- C4 amended: the fitness is the weighted sum
0.40·skill_score + 0.35·color_fairness + 0.15·game_richness +
0.10·decisiveness with the penalties applied last, where the 0.3 penalty is
applied once for each equal-depth matchup with `white_wins = 0` or
`black_wins = 0` (when the equal-depth games number at least 4), and the 0.5
penalty applies when the skill gradient is below 0.80. -/
theorem C4_multi_depth_fitness_formula
    (all_matchups : List (MatchupSpec × MatchupStats)) :
    (multi_depth_aggregate all_matchups).fitness =
      md_fitness_pre all_matchups *
        (if 4 ≤ md_equal_depth_games all_matchups then
            (3 / 10) ^ md_offending_count all_matchups
          else 1) *
        (if md_skill_gradient all_matchups < 4 / 5 then 1 / 2 else 1) := by
  show md_fitness all_matchups = _
  unfold md_fitness md_offending_count
  by_cases h4 : 4 ≤ md_equal_depth_games all_matchups <;>
    by_cases hg : md_skill_gradient all_matchups < 4 / 5 <;>
    simp only [h4, hg, if_true, if_false, penalty_fold_eq_pow] <;>
    ring

/-! ### C6: the add mutation operator's archetype catalog -/

lemma regular_ids_lt25 : ∀ p ∈ REGULAR_PIECE_IDS, p.val < 25 := by decide

lemma regular_getD_lt25 (d : Nat) : (REGULAR_PIECE_IDS.getD d 0).val < 25 := by
  rw [List.getD_eq_getElem?_getD]
  rcases h : REGULAR_PIECE_IDS[d]? with _ | p
  · decide
  · have hp : p ∈ REGULAR_PIECE_IDS := List.getElem?_mem h
    simpa using regular_ids_lt25 p hp

lemma add_piece_white_append (rs : RuleSet) (rng : Rng)
    (havail : white_piece_zone.filter
      (fun h => !rs.white_positions.contains h) ≠ []) :
    (add_piece_white rs rng false).1.white_pieces =
      rs.white_pieces ++ [REGULAR_PIECE_IDS.getD
        (rng.nats rng.k % REGULAR_PIECE_IDS.length) 0] := by
  simp only [add_piece_white, Rng.genRange, if_neg havail, Bool.false_and,
    Bool.false_eq_true, if_false]

/-- C6 counterexample: the add operator never appends the Triton (catalog
index 30): on the default ruleset, with any RNG, every piece of the mutated
white list has index below 25. -/
theorem C6_counterexample_triton_unreachable :
    ¬ ∃ rng : Rng, (30 : Nat) ∈
      ((add_piece_white ruleset_default rng false).1.white_pieces.map
        Fin.val) := by
  rintro ⟨rng, hmem⟩
  rw [add_piece_white_append ruleset_default rng (by decide)] at hmem
  simp only [List.map_append, List.mem_append, List.map_cons, List.map_nil,
    List.mem_cons, List.not_mem_nil, or_false] at hmem
  rcases hmem with h | h
  · revert h; decide
  · have := regular_getD_lt25 (rng.nats rng.k % REGULAR_PIECE_IDS.length)
    omega

/-- C6 amended: when the side's zone has an empty hex, the add operator
(copy_existing = false) appends `REGULAR_PIECE_IDS[gen_range(0..25)]`: the
appended archetype always has index below 25 (so kings and the trident
pieces B5/D6 are impossible outcomes), and each of the 25 catalog entries is
produced by exactly one residue of the uniform draw, hence with equal
probability. -/
theorem C6_add_piece_draws_from_25_catalog (rs : RuleSet) (rng : Rng)
    (havail : white_piece_zone.filter
      (fun h => !rs.white_positions.contains h) ≠ []) :
    (add_piece_white rs rng false).1.white_pieces =
      rs.white_pieces ++
        [REGULAR_PIECE_IDS.getD (rng.nats rng.k % 25) 0] ∧
    (REGULAR_PIECE_IDS.getD (rng.nats rng.k % 25) 0).val < 25 ∧
    (∀ a ∈ REGULAR_PIECE_IDS,
      ((List.range 25).filter
        (fun d => REGULAR_PIECE_IDS.getD d 0 = a)).length = 1) := by
  refine ⟨?_, regular_getD_lt25 _, by decide⟩
  have h := add_piece_white_append rs rng havail
  simpa [REGULAR_PIECE_IDS] using h

/-- C6 witness: the amended statement instantiated on the default ruleset
and a concrete RNG stream. -/
theorem C6_add_piece_draws_from_25_catalog_witness :
    (white_piece_zone.filter
      (fun h => !ruleset_default.white_positions.contains h) ≠ []) ∧
    (add_piece_white ruleset_default zero_rng false).1.white_pieces =
      ruleset_default.white_pieces ++
        [REGULAR_PIECE_IDS.getD (zero_rng.nats zero_rng.k % 25) 0] :=
  ⟨by decide,
    (C6_add_piece_draws_from_25_catalog ruleset_default zero_rng
      (by decide)).1⟩

/-! ### C2: rotation move generation -/

open GameState

lemma landingMoves_no_rotate (s : GameState) (pos : Hex) (piece : Piece)
    (g : Bool) (dest p : Hex) (f : Nat) :
    Move.Rotate p f ∉ landingMoves s pos piece g dest := by
  unfold landingMoves
  cases boardGet s.board dest with
  | none => simp
  | some occ => (repeat' split) <;> simp

lemma stepWalk_no_rotate (s : GameState) (pos : Hex) (piece : Piece)
    (g : Bool) (dq dr : Int) (p : Hex) (f : Nat) :
    ∀ (fuel : Nat) (cur : Hex),
      Move.Rotate p f ∉ stepWalk s pos piece g dq dr cur fuel := by
  intro fuel
  induction fuel with
  | zero => intro cur; simp [stepWalk]
  | succ n ih =>
      intro cur
      simp only [stepWalk]
      split
      · simp
      · cases boardGet s.board (Hex.mk2 (cur.q + dq) (cur.r + dr)) with
        | none => simp [ih]
        | some occ => (repeat' split) <;> simp_all

lemma generate_step_moves_no_rotate (s : GameState) (pos : Hex)
    (piece : Piece) (g : Bool) (p : Hex) (f : Nat) :
    Move.Rotate p f ∉ generate_step_moves s pos piece g := by
  simp only [generate_step_moves, List.mem_flatMap, not_exists, not_and]
  intro rd hrd
  split
  · simp
  · exact stepWalk_no_rotate s pos piece g _ _ p f _ _

lemma generate_slide_moves_no_rotate (s : GameState) (pos : Hex)
    (piece : Piece) (g : Bool) (p : Hex) (f : Nat) :
    Move.Rotate p f ∉ generate_slide_moves s pos piece g := by
  simp only [generate_slide_moves, List.mem_flatMap, not_exists, not_and]
  intro rd hrd
  split
  · simp
  · exact stepWalk_no_rotate s pos piece g _ _ p f _ _

lemma generate_jump_moves_no_rotate (s : GameState) (pos : Hex)
    (piece : Piece) (g : Bool) (p : Hex) (f : Nat) :
    Move.Rotate p f ∉ generate_jump_moves s pos piece g := by
  simp only [generate_jump_moves, List.mem_flatMap, not_exists, not_and]
  intro dest hdest
  split
  · simp
  · split
    · simp
    · exact landingMoves_no_rotate s pos piece g dest p f

lemma generate_swap_moves_no_rotate (s : GameState) (fp p : Hex) (f : Nat) :
    Move.Rotate p f ∉ generate_swap_moves s fp := by
  unfold generate_swap_moves
  cases boardGet s.board fp with
  | none => simp
  | some q =>
      simp only [List.mem_flatMap, not_exists, not_and]
      intro e he
      split <;> simp

lemma generate_destinations_no_rotate (s : GameState) (pos : Hex)
    (piece : Piece) (p : Hex) (f : Nat) :
    Move.Rotate p f ∉ generate_destinations s pos piece := by
  simp only [generate_destinations]
  split
  · simp
  · split
    · exact generate_jump_moves_no_rotate s pos piece _ p f
    · exact generate_step_moves_no_rotate s pos piece _ p f
    · exact generate_slide_moves_no_rotate s pos piece _ p f
    · simp

lemma generate_movement_moves_no_rotate (s : GameState) (pos : Hex)
    (piece : Piece) (p : Hex) (f : Nat) :
    Move.Rotate p f ∉ generate_movement_moves s pos piece := by
  simp only [generate_movement_moves, List.mem_append, not_or]
  refine ⟨generate_destinations_no_rotate s pos piece p f, ?_⟩
  split
  · exact generate_swap_moves_no_rotate s pos p f
  · simp

lemma generate_rebirth_moves_no_rotate (s : GameState) (p : Hex) (f : Nat) :
    Move.Rotate p f ∉ generate_rebirth_moves s := by
  simp only [generate_rebirth_moves]
  split
  · simp
  · split
    · simp
    · simp only [List.mem_flatMap, not_exists, not_and]
      intro d hd
      split <;> simp

lemma generate_rotation_moves_mem_rotate (s : GameState) (pos : Hex)
    (piece : Piece) (p : Hex) (f : Nat) :
    Move.Rotate p f ∈ generate_rotation_moves s pos piece ↔
      (p = pos ∧ f < 6 ∧
        (get_piece_type piece.piece_type).directions ≠ ALL_DIRS) := by
  simp only [generate_rotation_moves, List.mem_append]
  constructor
  · rintro (h | h)
    · revert h
      split
      · intro h
        simp only [List.mem_map, List.mem_range, Move.Rotate.injEq] at h
        obtain ⟨nf, hnf, h1, h2⟩ := h
        subst h1; subst h2
        exact ⟨rfl, hnf, by assumption⟩
      · intro h; simp at h
    · exfalso
      revert h
      split
      · exact generate_swap_moves_no_rotate s pos p f
      · simp
  · rintro ⟨rfl, hf, hd⟩
    left
    rw [if_pos hd]
    exact List.mem_map.mpr ⟨f, List.mem_range.mpr hf, rfl⟩

lemma rotate_entry_bounds {s : GameState} (hwf : boardWF s.board)
    {pos : Hex} {piece : Piece} (hmem : (pos, piece) ∈ s.board)
    {e : Hex × Piece} (he : e ∈ s.board) {f : Nat}
    (hbr : Move.Rotate pos f ∈ generate_rotation_moves s e.1 e.2) :
    f < 6 ∧ (get_piece_type piece.piece_type).directions ≠ ALL_DIRS := by
  obtain ⟨hp, hf, hd⟩ :=
    (generate_rotation_moves_mem_rotate s e.1 e.2 pos f).mp hbr
  have h1 : boardGet s.board pos = some piece := mem_boardGet hwf hmem
  have h2 : boardGet s.board e.1 = some e.2 :=
    mem_boardGet hwf (by rw [Prod.mk.eta]; exact he)
  rw [hp] at h1
  rw [h1] at h2
  injection h2 with h3
  subst h3
  exact ⟨hf, hd⟩

/-- C2 counterexample: in `c2_state` (template E, so the current action
permits rotation) the white A1 pawn at (-1,3) currently faces 2, yet
`Rotate((-1,3), 2)` — a rotation to the CURRENT facing — is produced by
`legal_moves`; the source pushes every `new_facing in 0..6` without
excluding the current one. -/
theorem C2_counterexample_rotation_to_current_facing :
    Move.Rotate (Hex.mk2 (-1) 3) 2 ∈ legal_moves c2_state ∧
    boardGet c2_state.board (Hex.mk2 (-1) 3) =
      some ⟨0, .White, 2⟩ := by
  decide

/-- C2 amended: for every well-formed non-terminal state whose current
action permits rotation and every friendly piece satisfying the template
constraint, `legal_moves` emits `Rotate(pos, f)` exactly for each
`f ∈ [0,5]` — INCLUDING the piece's current facing — when the archetype's
direction mask differs from `ALL_DIRS`, and emits no `Rotate` at that
position for omnidirectional archetypes. -/
theorem C2_rotation_emission (s : GameState) (act : ActionType)
    (con : Constraint) (pos : Hex) (piece : Piece)
    (hwf : boardWF s.board)
    (hres : s.result = .Ongoing)
    (hact : s.current_action = some (act, con))
    (hrot : act = .Rotate ∨ act = .MoveOrRotate)
    (hmem : (pos, piece) ∈ s.board)
    (hown : piece.owner = s.current_player)
    (hcon : satisfies_constraint s pos con = true) :
    ∀ f : Nat, Move.Rotate pos f ∈ legal_moves s ↔
      ((get_piece_type piece.piece_type).directions ≠ ALL_DIRS ∧ f < 6) := by
  intro f
  unfold legal_moves
  rw [if_neg (by simp [hres]), hact]
  simp only [List.mem_append, List.mem_flatMap]
  constructor
  · rintro ((h | ⟨e, he, hbr⟩) | h)
    · simp at h
    · revert hbr
      split
      · simp
      · split
        · simp
        · split
          · intro hbr
            exact absurd hbr (generate_movement_moves_no_rotate s e.1 e.2 pos f)
          · intro hbr
            obtain ⟨hf, hd⟩ := rotate_entry_bounds hwf hmem he hbr
            exact ⟨hd, hf⟩
          · intro hbr
            rcases List.mem_append.mp hbr with hbr | hbr
            · exact absurd hbr
                (generate_movement_moves_no_rotate s e.1 e.2 pos f)
            · obtain ⟨hf, hd⟩ := rotate_entry_bounds hwf hmem he hbr
              exact ⟨hd, hf⟩
    · exfalso
      revert h
      split
      · exact generate_rebirth_moves_no_rotate s pos f
      · simp
  · rintro ⟨hd, hf⟩
    refine Or.inl (Or.inr ⟨(pos, piece), hmem, ?_⟩)
    rw [if_neg (by simp [hown]), if_neg (by simp [hcon])]
    rcases hrot with rfl | rfl
    · exact (generate_rotation_moves_mem_rotate s pos piece pos f).mpr
        ⟨rfl, hf, hd⟩
    · exact List.mem_append.mpr (Or.inr
        ((generate_rotation_moves_mem_rotate s pos piece pos f).mpr
          ⟨rfl, hf, hd⟩))

/-- C2 witness: the amended statement instantiated on `c2_state` at the
pawn's current facing 2. -/
theorem C2_rotation_emission_witness :
    Move.Rotate (Hex.mk2 (-1) 3) 2 ∈ legal_moves c2_state :=
  (C2_rotation_emission c2_state .MoveOrRotate .Any (Hex.mk2 (-1) 3)
      ⟨0, .White, 2⟩
      (by show (List.map Prod.fst c2_state.board).Nodup; decide)
      (by decide) (by decide) (Or.inr rfl)
      (by decide) (by decide) (by decide) 2).mpr (by decide)

/-! ### C7: move-ordering scores -/

lemma move_score_base_noncapture (s : GameState) (hr : Heuristics)
    (a b : Hex) (f : Nat)
    (hm : is_capture_move s (.Movement a b f) = false) :
    move_score s (.Movement a b f) hr -
      move_score_center (.Movement a b f) = 0 := by
  simp only [is_capture_move] at hm
  simp only [move_score, move_score_center]
  cases hgp : s.get_piece b with
  | none => simp [hgp]
  | some victim =>
      have hown : ¬ victim.owner ≠ s.current_player := by
        intro hne
        rw [hgp] at hm
        simp [hne] at hm
      simp [hown]

lemma move_score_base_capture_nonneg (s : GameState) (hr : Heuristics)
    (hpos : ∀ i : Fin 32, 0 ≤ hr.piece_values i)
    (c : Move) (hc : is_capture_move s c = true) :
    0 ≤ move_score s c hr - move_score_center c := by
  cases c with
  | Pass => simp [is_capture_move] at hc
  | Surrender => simp [is_capture_move] at hc
  | Rotate p f => simp [is_capture_move] at hc
  | Swap x y => simp [is_capture_move] at hc
  | Rebirth d f => simp [is_capture_move] at hc
  | Movement a b f =>
      simp only [is_capture_move] at hc
      cases hgp : s.get_piece b with
      | none => rw [hgp] at hc; simp at hc
      | some victim =>
          rw [hgp] at hc
          have hown : victim.owner ≠ s.current_player := by simpa using hc
          simp only [move_score, move_score_center, hgp, if_pos hown]
          have h10 : (0 : ℚ) ≤
              (if (get_piece_type victim.piece_type).is_king then
                  (WIN_VALUE : ℚ)
                else hr.piece_values victim.piece_type) * 10 := by
            split
            · norm_num [WIN_VALUE]
            · exact mul_nonneg (hpos victim.piece_type) (by norm_num)
          linarith

/-- C7 counterexample: `Heuristics` places no sign constraint on
`piece_values`; with every archetype valued -1, in `c7_state` the white A2
guard at (0,0) has a quiet move to (1,0) and a capture of the black guard at
(0,-1) among `legal_moves`, and the capture's base ordering score
(-1 x 10 = -10) is strictly BELOW the quiet move's base score 0, violating
the claimed non-capture <= capture ordering. -/
theorem C7_counterexample_negative_value_breaks_order :
    (∀ i : Fin 32, negative_heuristics.piece_values i < 0) ∧
    Move.Movement (Hex.mk2 0 0) (Hex.mk2 1 0) 0 ∈ legal_moves c7_state ∧
    Move.Movement (Hex.mk2 0 0) (Hex.mk2 0 (-1)) 0 ∈ legal_moves c7_state ∧
    is_capture_move c7_state
      (Move.Movement (Hex.mk2 0 0) (Hex.mk2 1 0) 0) = false ∧
    is_capture_move c7_state
      (Move.Movement (Hex.mk2 0 0) (Hex.mk2 0 (-1)) 0) = true ∧
    move_score c7_state (Move.Movement (Hex.mk2 0 0) (Hex.mk2 0 (-1)) 0)
        negative_heuristics -
      move_score_center (Move.Movement (Hex.mk2 0 0) (Hex.mk2 0 (-1)) 0) <
    move_score c7_state (Move.Movement (Hex.mk2 0 0) (Hex.mk2 1 0) 0)
        negative_heuristics -
      move_score_center (Move.Movement (Hex.mk2 0 0) (Hex.mk2 1 0) 0) := by
  refine ⟨fun i => by norm_num [negative_heuristics], by decide, by decide,
    by decide, by decide, ?_⟩
  have h1 : c7_state.get_piece (Hex.mk2 0 (-1)) =
      some ⟨1, .Black, 3⟩ := by decide
  have h2 : c7_state.get_piece (Hex.mk2 1 0) = none := by decide
  have h3 : (get_piece_type ((⟨1, .Black, 3⟩ : Piece).piece_type)).is_king
      = false := by decide
  have h4 : ((⟨1, .Black, 3⟩ : Piece)).owner ≠ c7_state.current_player := by
    decide
  have h5 : (Hex.mk2 0 0).distance_to_center = 0 := by decide
  have h6 : (Hex.mk2 1 0).distance_to_center = 1 := by decide
  have h7 : (Hex.mk2 0 (-1)).distance_to_center = 1 := by decide
  simp only [move_score, move_score_center, h1, h2, h3, h4, h5, h6, h7,
    negative_heuristics, if_true, Bool.false_eq_true, if_false,
    ne_eq, not_false_eq_true]
  norm_num

/-- C7 amended: the ordering chain holds for base scores (the center
tiebreak subtracted off) PROVIDED every piece value is nonnegative:
Surrender (-50000) < Pass (-1000) < non-capture Movement (0) <= capture
(victim value x 10, or WIN_VALUE x 10 for kings).  Without the
nonnegativity hypothesis the chain fails (see the counterexample). -/
theorem C7_move_order_nonneg_values (s : GameState) (hr : Heuristics)
    (hpos : ∀ i : Fin 32, 0 ≤ hr.piece_values i)
    (a b : Hex) (f : Nat) (c : Move)
    (hm : is_capture_move s (.Movement a b f) = false)
    (hc : is_capture_move s c = true) :
    move_score s .Surrender hr < move_score s .Pass hr ∧
    move_score s .Pass hr <
      move_score s (.Movement a b f) hr -
        move_score_center (.Movement a b f) ∧
    move_score s (.Movement a b f) hr -
        move_score_center (.Movement a b f) ≤
      move_score s c hr - move_score_center c := by
  refine ⟨by norm_num [move_score], ?_, ?_⟩
  · rw [move_score_base_noncapture s hr a b f hm]
    norm_num [move_score]
  · rw [move_score_base_noncapture s hr a b f hm]
    exact move_score_base_capture_nonneg s hr hpos c hc

/-- C7 witness: the amended chain instantiated on `c7_state` with
all-ones piece values, the quiet move (0,0) -> (1,0) and the capture
(0,0) -> (0,-1). -/
theorem C7_move_order_nonneg_values_witness :
    move_score c7_state .Pass unit_heuristics <
      move_score c7_state (Move.Movement (Hex.mk2 0 0) (Hex.mk2 1 0) 0)
          unit_heuristics -
        move_score_center (Move.Movement (Hex.mk2 0 0) (Hex.mk2 1 0) 0) :=
  (C7_move_order_nonneg_values c7_state unit_heuristics
    (fun i => zero_le_one) (Hex.mk2 0 0) (Hex.mk2 1 0) 0
    (Move.Movement (Hex.mk2 0 0) (Hex.mk2 0 (-1)) 0)
    (by decide) (by decide)).2.1

/-! ### C9: elitism makes the best-of-generation history monotone -/

lemma mem_insertSortedIdx (le : Nat → Nat → Bool) (x z : Nat) :
    ∀ l : List Nat, z ∈ insertSortedIdx le x l ↔ z = x ∨ z ∈ l := by
  intro l
  induction l with
  | nil => simp [insertSortedIdx]
  | cons y ys ih =>
      simp only [insertSortedIdx]
      split
      · simp only [List.mem_cons, ih]
        tauto
      · simp [List.mem_cons]

lemma hdFitMax_insert (fitness : List ℚ) (x : Nat) (l : List Nat)
    (hl : hdFitMax fitness l) :
    hdFitMax fitness
      (insertSortedIdx
        (fun a b => decide (fitness.getD b 0 ≤ fitness.getD a 0)) x l) := by
  cases l with
  | nil =>
      simp only [insertSortedIdx, hdFitMax]
      intro y hy
      rcases List.mem_cons.mp hy with rfl | hy'
      · exact le_refl _
      · simp at hy'
  | cons y ys =>
      simp only [hdFitMax] at hl
      simp only [insertSortedIdx]
      split
      · rename_i hle
        simp only [decide_eq_true_eq] at hle
        simp only [hdFitMax]
        intro z hz
        rcases List.mem_cons.mp hz with rfl | hz'
        · exact le_refl _
        · rcases (mem_insertSortedIdx _ x z ys).mp hz' with rfl | hz''
          · exact hle
          · exact hl z (List.mem_cons_of_mem y hz'')
      · rename_i hle
        simp only [decide_eq_true_eq] at hle
        have hyx : fitness.getD y 0 < fitness.getD x 0 := not_le.mp hle
        simp only [hdFitMax]
        intro z hz
        rcases List.mem_cons.mp hz with rfl | hz'
        · exact le_refl _
        rcases List.mem_cons.mp hz' with rfl | hz''
        · exact le_of_lt hyx
        · exact le_trans (hl z (List.mem_cons_of_mem y hz'')) (le_of_lt hyx)

lemma hdFitMax_sort (fitness : List ℚ) (l : List Nat) :
    ∀ acc, hdFitMax fitness acc →
      hdFitMax fitness
        (l.foldl (fun acc x => insertSortedIdx
            (fun a b => decide (fitness.getD b 0 ≤ fitness.getD a 0)) x acc)
          acc) := by
  induction l with
  | nil => intro acc h; exact h
  | cons x xs ih =>
      intro acc h
      exact ih _ (hdFitMax_insert fitness x acc h)

lemma mem_foldl_insertSortedIdx (le : Nat → Nat → Bool) (l : List Nat) :
    ∀ (acc : List Nat) (z : Nat),
      z ∈ l.foldl (fun acc x => insertSortedIdx le x acc) acc ↔
        z ∈ l ∨ z ∈ acc := by
  induction l with
  | nil => intro acc z; simp
  | cons x xs ih =>
      intro acc z
      rw [List.foldl_cons, ih, mem_insertSortedIdx]
      simp only [List.mem_cons]
      tauto

lemma select_elite_head (fitness : List ℚ) (n : Nat) (hn : 1 ≤ n)
    (hne : fitness ≠ []) :
    ∃ h rest, select_elite fitness n = h :: rest ∧ h < fitness.length ∧
      ∀ i < fitness.length, fitness.getD i 0 ≤ fitness.getD h 0 := by
  have hlen : 0 < fitness.length := List.length_pos.mpr hne
  have hmem : ∀ z, z ∈ stableSortIdx
      (fun a b => decide (fitness.getD b 0 ≤ fitness.getD a 0))
      (List.range fitness.length) ↔ z < fitness.length := by
    intro z
    unfold stableSortIdx
    rw [mem_foldl_insertSortedIdx]
    simp
  have hmax : hdFitMax fitness (stableSortIdx
      (fun a b => decide (fitness.getD b 0 ≤ fitness.getD a 0))
      (List.range fitness.length)) := by
    unfold stableSortIdx
    exact hdFitMax_sort fitness _ [] trivial
  cases hsrt : stableSortIdx
      (fun a b => decide (fitness.getD b 0 ≤ fitness.getD a 0))
      (List.range fitness.length) with
  | nil =>
      exfalso
      have h0 : (0 : Nat) ∈ ([] : List Nat) := by
        rw [← hsrt, hmem]; exact hlen
      simp at h0
  | cons h rest =>
      rw [hsrt] at hmax hmem
      simp only [hdFitMax] at hmax
      obtain ⟨m, rfl⟩ := Nat.exists_eq_add_of_le hn
      refine ⟨h, rest.take m, ?_, ?_, ?_⟩
      · unfold select_elite stableSortIdx
        unfold stableSortIdx at hsrt
        rw [hsrt, Nat.add_comm 1 m]
        rfl
      · exact (hmem h).mp (List.mem_cons_self h rest)
      · intro i hi
        exact hmax i ((hmem i).mpr hi)

lemma offspring_fill_prefix (pop : List RuleSet) (fit : List ℚ)
    (cfg : EvolutionConfig) (mc : MutationConfig) :
    ∀ (fuel : Nat) (acc : List RuleSet) (rng : Rng),
      ∃ tail, (offspring_fill pop fit cfg mc acc rng fuel).1 = acc ++ tail := by
  intro fuel
  induction fuel with
  | zero => intro acc rng; exact ⟨[], by simp [offspring_fill]⟩
  | succ n ih =>
      intro acc rng
      simp only [offspring_fill]
      obtain ⟨tail, htail⟩ :=
        ih (acc ++ [(create_offspring pop fit cfg mc rng).1])
          (create_offspring pop fit cfg mc rng).2
      exact ⟨(create_offspring pop fit cfg mc rng).1 :: tail,
        by rw [htail, List.append_assoc]; rfl⟩

lemma foldl_max_init_le (l : List ℚ) : ∀ a : WithBot ℚ,
    a ≤ l.foldl (fun acc x => max acc ↑x) a := by
  induction l with
  | nil => intro a; exact le_refl a
  | cons x xs ih =>
      intro a
      rw [List.foldl_cons]
      exact le_trans (le_max_left a ↑x) (ih _)

lemma le_foldl_max (l : List ℚ) : ∀ (x : ℚ) (a : WithBot ℚ), x ∈ l →
    (x : WithBot ℚ) ≤ l.foldl (fun acc y => max acc ↑y) a := by
  induction l with
  | nil => intro x a hx; simp at hx
  | cons y ys ih =>
      intro x a hx
      rw [List.foldl_cons]
      rcases List.mem_cons.mp hx with rfl | hx'
      · exact le_trans (le_max_right a ↑x) (foldl_max_init_le ys _)
      · exact ih x _ hx'

lemma foldl_max_le (l : List ℚ) : ∀ (B a : WithBot ℚ), a ≤ B →
    (∀ x ∈ l, (x : WithBot ℚ) ≤ B) →
    l.foldl (fun acc y => max acc ↑y) a ≤ B := by
  induction l with
  | nil => intro B a ha _; exact ha
  | cons y ys ih =>
      intro B a ha hall
      rw [List.foldl_cons]
      exact ih B _ (max_le ha (hall y (List.mem_cons_self y ys)))
        (fun x hx => hall x (List.mem_cons_of_mem y hx))

lemma getD_map_eq (f : RuleSet → ℚ) (pop : List RuleSet) (h : Nat)
    (hl : h < pop.length) :
    (pop.map f).getD h 0 = f (pop.getD h default) := by
  simp [List.getD_eq_getElem?_getD, List.getElem?_map,
    List.getElem?_eq_getElem hl]

lemma best_fold_step (pop : List RuleSet) (cfg : EvolutionConfig)
    (f : RuleSet → ℚ) (rng : Rng) (helit : 1 ≤ cfg.elitism) :
    best_fold (pop.map f) ≤
      best_fold ((create_next_generation pop (pop.map f) cfg rng).1.map f) := by
  by_cases hpop : pop = []
  · subst hpop
    simp only [List.map_nil, best_fold, List.foldl_nil]
    exact bot_le
  · have hne : pop.map f ≠ [] := by simpa using hpop
    obtain ⟨h, rest, hsel, hlt, hmax⟩ :=
      select_elite_head (pop.map f) cfg.elitism helit hne
    have hlt' : h < pop.length := by simpa using hlt
    obtain ⟨tail, htail⟩ := offspring_fill_prefix pop (pop.map f) cfg
      ⟨cfg.evolve_side, false⟩
      (cfg.population_size -
        ((select_elite (pop.map f) cfg.elitism).map
          (fun i => pop.getD i default)).length)
      ((select_elite (pop.map f) cfg.elitism).map
        (fun i => pop.getD i default)) rng
    have hpop' : (create_next_generation pop (pop.map f) cfg rng).1 =
        pop.getD h default ::
          (rest.map (fun i => pop.getD i default) ++ tail) := by
      simp only [create_next_generation]
      rw [htail, hsel]
      simp
    have hall : ∀ x ∈ pop.map f, x ≤ (pop.map f).getD h 0 := by
      intro x hx
      obtain ⟨i, hi, hix⟩ := List.mem_iff_getElem.mp hx
      have hgd : (pop.map f).getD i 0 = x := by
        simp [List.getD_eq_getElem?_getD, List.getElem?_eq_getElem hi, hix]
      rw [← hgd]
      exact hmax i hi
    calc best_fold (pop.map f)
        ≤ ↑((pop.map f).getD h 0) := by
          unfold best_fold
          exact foldl_max_le (pop.map f) _ ⊥ bot_le
            (fun x hx => WithBot.coe_le_coe.mpr (hall x hx))
      _ = ↑(f (pop.getD h default)) := by rw [getD_map_eq f pop h hlt']
      _ ≤ best_fold
            ((create_next_generation pop (pop.map f) cfg rng).1.map f) := by
            rw [hpop']
            unfold best_fold
            exact le_foldl_max _ _ ⊥
              (by rw [List.map_cons]; exact List.mem_cons_self _ _)

/-- C9: with elitism at least 1 and a deterministic fitness function the
best-of-generation history recorded by the evolution loop is monotonically
non-decreasing: every generation's next population starts with the elite
copy of the current argmax individual, so the recorded best never drops. -/
theorem C9_best_fitness_monotone (initial_population : List RuleSet)
    (config : EvolutionConfig) (fitness_fn : RuleSet → ℚ) (rng : Rng)
    (helit : 1 ≤ config.elitism) :
    List.Chain' (· ≤ ·)
      (evolve initial_population config fitness_fn rng).best_fitness_history := by
  have hloop : ∀ (fuel : Nat) (pop : List RuleSet)
      (hist : List (WithBot ℚ)) (avg : List ℚ) (r : Rng),
      List.Chain' (· ≤ ·) hist →
      (∀ x ∈ hist.getLast?, x ≤ best_fold (pop.map fitness_fn)) →
      List.Chain' (· ≤ ·)
        (evolve_loop config fitness_fn pop hist avg r fuel).2.1 := by
    intro fuel
    induction fuel with
    | zero => intro pop hist avg r hch _; exact hch
    | succ n ih =>
        intro pop hist avg r hch hlast
        simp only [evolve_loop]
        apply ih
        · rw [List.chain'_append]
          refine ⟨hch, List.chain'_singleton _, ?_⟩
          intro x hx y hy
          have hyb : best_fold (List.map fitness_fn pop) = y := by
            simpa using hy
          rw [← hyb]
          exact hlast x hx
        · intro x hx
          rw [List.getLast?_concat] at hx
          have hxb : best_fold (List.map fitness_fn pop) = x := by
            simpa using hx
          rw [← hxb]
          exact best_fold_step pop config fitness_fn r helit
  simp only [evolve]
  exact hloop _ _ [] [] _ List.chain'_nil (by intro x hx; simp at hx)

/-- C9 witness: the monotonicity statement instantiated on a one-individual
population evolved for two generations with elitism 1. -/
theorem C9_best_fitness_monotone_witness :
    1 ≤ (⟨1, 2, 0, 0, 1, 1, .Both⟩ : EvolutionConfig).elitism ∧
    List.Chain' (· ≤ ·)
      (evolve [ruleset_default] ⟨1, 2, 0, 0, 1, 1, .Both⟩
        (fun rs => (rs.white_pieces.length : ℚ))
        zero_rng).best_fitness_history :=
  ⟨by decide,
    C9_best_fitness_monotone [ruleset_default] ⟨1, 2, 0, 0, 1, 1, .Both⟩
      (fun rs => (rs.white_pieces.length : ℚ)) zero_rng (by decide)⟩

/-! ### C3: null-move pruning in negamax -/

lemma c3_null_state_eq : make_null_move c3_state = c3_null_state := by
  unfold make_null_move
  rw [null_loop, if_neg (by decide), null_loop, if_neg (by decide),
      null_loop, if_pos (by decide)]
  decide

lemma c3_null_attempt : null_move_attempted c3_state 3 true := by
  refine ⟨⟨rfl, by decide, by decide⟩, ?_⟩
  rw [c3_null_state_eq]
  decide

lemma c3_null_eval : evaluate c3_null_state unit_heuristics = 0 := by
  have hk : (get_piece_type (25 : Fin 32)).is_king = true := by decide
  simp only [evaluate, c3_null_state, unit_heuristics]
  norm_num [hk, min_def, KOTH_ROUND_LIMIT, KOTH_MAX_URGENCY]

lemma c3_null_value_le :
    (-1 : ℚ) ≤ -(negamax unit_heuristics 10 (fun _ => 1 / 2) 0
      (make_null_move c3_state) (3 - 1 - NULL_MOVE_R) (-(-1))
      (-(-1) + 1 / 100) false 0).1 := by
  rw [c3_null_state_eq, negamax]
  rw [if_neg (by decide), dif_pos (by decide)]
  norm_num [c3_null_eval]

/-- C3 counterexample: the null-move guard contains no `action_index == 0`
test: in `c3_state` (template B, mid-turn with `action_index = 1`) the
pruning precondition holds and `make_null_move` changes the side to move, so
the null move is attempted although the player is not at the start of their
turn. -/
theorem C3_counterexample_no_action_index_guard :
    null_move_attempted c3_state 3 true ∧ c3_state.action_index ≠ 0 :=
  ⟨c3_null_attempt, by decide⟩

/-- C3 amended: null-move pruning is attempted when `allow_null`,
`depth ≥ R+1` (R = 2) and the player is not in danger (there is NO
`action_index == 0` condition), and the null state changes the side to move;
when attempted it recurses with depth `depth - 1 - R`, null window
`(-beta, -beta + 0.01)` and `allow_null = false` (never consecutive), and
returns `beta` immediately when the negated recursive score reaches
`beta`. -/
theorem C3_null_move_cutoff (hr : Heuristics) (max_moves : Nat)
    (noise : Nat → ℚ) (noise_scale : ℚ) (s : GameState) (depth : Int)
    (alpha beta : ℚ) (idx : Nat)
    (hres : s.result = .Ongoing)
    (hmv : ¬ s.legal_moves = [])
    (hatt : null_move_attempted s depth true)
    (hcut : beta ≤ -(negamax hr max_moves noise noise_scale
        (make_null_move s) (depth - 1 - NULL_MOVE_R) (-beta)
        (-beta + 1 / 100) false idx).1) :
    negamax hr max_moves noise noise_scale s depth alpha beta true idx =
      (beta, (negamax hr max_moves noise noise_scale (make_null_move s)
        (depth - 1 - NULL_MOVE_R) (-beta) (-beta + 1 / 100) false idx).2) := by
  obtain ⟨hpre, hch⟩ := hatt
  have hd : ¬ depth ≤ 0 := by
    obtain ⟨-, hdep, -⟩ := hpre
    simp only [NULL_MOVE_R] at hdep
    omega
  rw [negamax, if_neg (by simp [hres]), dif_neg hd, dif_neg hmv,
      dif_pos hpre]
  simp only [ne_eq]
  rw [if_pos hch, if_pos hcut]

/-- C3 witness: the cutoff behaviour instantiated on `c3_state` at depth 3
with window (-2, -1): the null search runs at depth 0 and scores the null
state 0, so `-score = 0 ≥ beta = -1` and negamax returns beta with the
advanced RNG cursor. -/
theorem C3_null_move_cutoff_witness :
    negamax unit_heuristics 10 (fun _ => 1 / 2) 0 c3_state 3 (-2) (-1)
        true 0 =
      (-1, (negamax unit_heuristics 10 (fun _ => 1 / 2) 0
        (make_null_move c3_state) (3 - 1 - NULL_MOVE_R) (-(-1))
        (-(-1) + 1 / 100) false 0).2) :=
  C3_null_move_cutoff unit_heuristics 10 (fun _ => 1 / 2) 0 c3_state 3
    (-2) (-1) 0 (by decide) (by decide) c3_null_attempt c3_null_value_le

/-! ### C1: move application preserves well-formedness (king capture apart)

The lemmas below first characterize what `legal_moves` can emit (which hex a
movement starts from, who owns the pieces a swap touches, that a rebirth
lands on an empty hex), then track `boardGet` and the king-position fields
through each branch of `apply_move_kind`. -/

lemma stepWalk_facts (s : GameState) (pos : Hex) (piece : Piece) (g : Bool)
    (dq dr : Int) :
    ∀ (fuel : Nat) (cur : Hex), ∀ m ∈ stepWalk s pos piece g dq dr cur fuel,
      ∃ b, m = .Movement pos b piece.facing ∧
        ∀ q, boardGet s.board b = some q → q.owner ≠ piece.owner := by
  intro fuel
  induction fuel with
  | zero => intro cur m hm; simp [stepWalk] at hm
  | succ n ih =>
      intro cur m hm
      simp only [stepWalk] at hm
      split at hm
      · simp at hm
      · split at hm
        · rename_i occ hgp
          split at hm
          · split at hm
            · simp only [List.mem_singleton] at hm
              subst hm
              refine ⟨_, rfl, fun q hq => ?_⟩
              rw [hgp] at hq
              injection hq with hq'
              subst hq'
              assumption
            · simp at hm
          · simp at hm
        · rename_i hgp
          rcases List.mem_cons.mp hm with rfl | ht
          · refine ⟨_, rfl, fun q hq => ?_⟩
            rw [hgp] at hq
            cases hq
          · exact ih _ _ ht

lemma landingMoves_facts (s : GameState) (pos : Hex) (piece : Piece)
    (g : Bool) (dest : Hex) : ∀ m ∈ landingMoves s pos piece g dest,
      ∃ b, m = .Movement pos b piece.facing ∧
        ∀ q, boardGet s.board b = some q → q.owner ≠ piece.owner := by
  intro m hm
  unfold landingMoves at hm
  split at hm
  · rename_i occ hgp
    split at hm
    · split at hm
      · simp only [List.mem_singleton] at hm
        subst hm
        refine ⟨_, rfl, fun q hq => ?_⟩
        rw [hgp] at hq
        injection hq with hq'
        subst hq'
        assumption
      · simp at hm
    · simp at hm
  · rename_i hgp
    simp only [List.mem_singleton] at hm
    subst hm
    exact ⟨_, rfl, fun q hq => by rw [hgp] at hq; cases hq⟩

lemma generate_step_moves_facts (s : GameState) (pos : Hex) (piece : Piece)
    (g : Bool) : ∀ m ∈ generate_step_moves s pos piece g,
      ∃ b, m = .Movement pos b piece.facing ∧
        ∀ q, boardGet s.board b = some q → q.owner ≠ piece.owner := by
  intro m hm
  simp only [generate_step_moves, List.mem_flatMap] at hm
  obtain ⟨rd, hrd, hm⟩ := hm
  split at hm
  · simp at hm
  · exact stepWalk_facts s pos piece g _ _ _ _ m hm

lemma generate_slide_moves_facts (s : GameState) (pos : Hex) (piece : Piece)
    (g : Bool) : ∀ m ∈ generate_slide_moves s pos piece g,
      ∃ b, m = .Movement pos b piece.facing ∧
        ∀ q, boardGet s.board b = some q → q.owner ≠ piece.owner := by
  intro m hm
  simp only [generate_slide_moves, List.mem_flatMap] at hm
  obtain ⟨rd, hrd, hm⟩ := hm
  split at hm
  · simp at hm
  · exact stepWalk_facts s pos piece g _ _ _ _ m hm

lemma generate_jump_moves_facts (s : GameState) (pos : Hex) (piece : Piece)
    (g : Bool) : ∀ m ∈ generate_jump_moves s pos piece g,
      ∃ b, m = .Movement pos b piece.facing ∧
        ∀ q, boardGet s.board b = some q → q.owner ≠ piece.owner := by
  intro m hm
  simp only [generate_jump_moves, List.mem_flatMap] at hm
  obtain ⟨dest, hdest, hm⟩ := hm
  split at hm
  · simp at hm
  · split at hm
    · simp at hm
    · exact landingMoves_facts s pos piece g dest m hm

lemma generate_destinations_facts (s : GameState) (pos : Hex)
    (piece : Piece) : ∀ m ∈ generate_destinations s pos piece,
      ∃ b, m = .Movement pos b piece.facing ∧
        ∀ q, boardGet s.board b = some q → q.owner ≠ piece.owner := by
  intro m hm
  simp only [generate_destinations] at hm
  split at hm
  · simp at hm
  · split at hm
    · exact generate_jump_moves_facts s pos piece _ m hm
    · exact generate_step_moves_facts s pos piece _ m hm
    · exact generate_slide_moves_facts s pos piece _ m hm
    · simp at hm

lemma generate_swap_moves_facts (s : GameState) (fp : Hex) :
    ∀ m ∈ generate_swap_moves s fp,
      ∃ y fpc e, m = .Swap fp y ∧ boardGet s.board fp = some fpc ∧
        e ∈ s.board ∧ e.1 = y ∧ ¬(y = fp) ∧ e.2.owner = fpc.owner := by
  intro m hm
  unfold generate_swap_moves at hm
  split at hm
  · simp at hm
  · rename_i fpc hgp
    obtain ⟨e, he, hm⟩ := List.mem_flatMap.mp hm
    split at hm
    · rename_i hcond
      simp only [List.mem_singleton] at hm
      subst hm
      simp only [Bool.and_eq_true, decide_eq_true_eq] at hcond
      exact ⟨e.1, fpc, e, rfl, hgp, he, rfl, fun hc => hcond.1 hc,
        hcond.2⟩
    · simp at hm

lemma generate_rotation_moves_facts (s : GameState) (pos : Hex)
    (piece : Piece) : ∀ m ∈ generate_rotation_moves s pos piece,
      (∃ f', m = .Rotate pos f') ∨ m ∈ generate_swap_moves s pos := by
  intro m hm
  simp only [generate_rotation_moves, List.mem_append] at hm
  rcases hm with hm | hm
  · left
    revert hm
    split
    · intro hm
      obtain ⟨nf, hnf, heq⟩ := List.mem_map.mp hm
      exact ⟨nf, heq.symm⟩
    · intro hm; simp at hm
  · right
    revert hm
    split
    · exact fun hm => hm
    · intro hm; simp at hm

lemma generate_rebirth_moves_facts (s : GameState) :
    ∀ m ∈ generate_rebirth_moves s,
      ∃ d f', m = .Rebirth d f' ∧ boardGet s.board d = none := by
  intro m hm
  simp only [generate_rebirth_moves] at hm
  split at hm
  · simp at hm
  · split at hm
    · simp at hm
    · rename_i kp hkp
      obtain ⟨dir, hdir, hm⟩ := List.mem_flatMap.mp hm
      split at hm
      · rename_i hcond
        obtain ⟨nf, hnf, heq⟩ := List.mem_map.mp hm
        simp only [Bool.and_eq_true] at hcond
        refine ⟨Hex.mk2 (kp.q + dir.1) (kp.r + dir.2), nf, heq.symm, ?_⟩
        have hc2 := hcond.2
        cases hgd : boardGet s.board
            (Hex.mk2 (kp.q + dir.1) (kp.r + dir.2)) with
        | none => rfl
        | some p =>
            exfalso
            simp [boardContains, hgd] at hc2
      · simp at hm

lemma swap_facts_entry (s : GameState) (hwfb : boardWF s.board)
    {e : Hex × Piece} (he : e ∈ s.board) (m : Move)
    (hm : m ∈ generate_swap_moves s e.1) :
    ∃ y e', m = .Swap e.1 y ∧ e' ∈ s.board ∧ e'.1 = y ∧ ¬(y = e.1) ∧
      e'.2.owner = e.2.owner := by
  obtain ⟨y, fpc, e', heq, hget, he', hy, hyne, hown2⟩ :=
    generate_swap_moves_facts s e.1 m hm
  have hfpc : fpc = e.2 := by
    have hg2 : boardGet s.board e.1 = some e.2 :=
      mem_boardGet hwfb (by rw [Prod.mk.eta]; exact he)
    rw [hg2] at hget
    injection hget with h'
    exact h'.symm
  exact ⟨y, e', heq, he', hy, hyne, by rw [hown2, hfpc]⟩

lemma movement_moves_cases (s : GameState) (hwfb : boardWF s.board)
    {e : Hex × Piece} (he : e ∈ s.board) (m : Move)
    (hm : m ∈ generate_movement_moves s e.1 e.2) :
    (∃ b, m = .Movement e.1 b e.2.facing ∧
      ∀ q, boardGet s.board b = some q → q.owner ≠ e.2.owner) ∨
    (∃ y e', m = .Swap e.1 y ∧ e' ∈ s.board ∧ e'.1 = y ∧ ¬(y = e.1) ∧
      e'.2.owner = e.2.owner) := by
  simp only [generate_movement_moves, List.mem_append] at hm
  rcases hm with hm | hm
  · exact Or.inl (generate_destinations_facts s e.1 e.2 m hm)
  · right
    revert hm
    split
    · exact fun hm => swap_facts_entry s hwfb he m hm
    · intro hm; simp at hm

lemma rotation_moves_cases (s : GameState) (hwfb : boardWF s.board)
    {e : Hex × Piece} (he : e ∈ s.board) (m : Move)
    (hm : m ∈ generate_rotation_moves s e.1 e.2) :
    (∃ f', m = .Rotate e.1 f') ∨
    (∃ y e', m = .Swap e.1 y ∧ e' ∈ s.board ∧ e'.1 = y ∧ ¬(y = e.1) ∧
      e'.2.owner = e.2.owner) := by
  rcases generate_rotation_moves_facts s e.1 e.2 m hm with h | h
  · exact Or.inl h
  · exact Or.inr (swap_facts_entry s hwfb he m h)

/-- What `legal_moves` can emit: Pass, Surrender, a movement of a friendly
piece whose destination holds no friendly piece, a rotation of a friendly
piece, a swap of two distinct friendly pieces, or a rebirth onto an empty
hex. -/
lemma legal_moves_facts (s : GameState) (hwfb : boardWF s.board) :
    ∀ m ∈ legal_moves s,
      m = .Pass ∨ m = .Surrender ∨
      (∃ e ∈ s.board, e.2.owner = s.current_player ∧
        ((∃ b, m = .Movement e.1 b e.2.facing ∧
            ∀ q, boardGet s.board b = some q →
              q.owner ≠ s.current_player) ∨
         (∃ f', m = .Rotate e.1 f') ∨
         (∃ y e', m = .Swap e.1 y ∧ e' ∈ s.board ∧ e'.1 = y ∧
            ¬(y = e.1) ∧ e'.2.owner = s.current_player))) ∨
      (∃ d f', m = .Rebirth d f' ∧ boardGet s.board d = none) := by
  intro m hm
  unfold legal_moves at hm
  split at hm
  · simp at hm
  · split at hm
    · simp at hm
    · rename_i act con hact
      rcases List.mem_append.mp hm with hm | hm
      · rcases List.mem_append.mp hm with hm | hm
        · simp only [List.mem_cons, List.not_mem_nil, or_false] at hm
          rcases hm with rfl | rfl
          · exact Or.inl rfl
          · exact Or.inr (Or.inl rfl)
        · obtain ⟨e, he, hm⟩ := List.mem_flatMap.mp hm
          refine Or.inr (Or.inr (Or.inl ?_))
          by_cases hown' : e.2.owner ≠ s.current_player
          · rw [if_pos hown'] at hm
            simp at hm
          · rw [if_neg hown'] at hm
            have hown : e.2.owner = s.current_player := not_not.mp hown'
            by_cases hsat : (!satisfies_constraint s e.1 con) = true
            · rw [if_pos hsat] at hm
              simp at hm
            · rw [if_neg hsat] at hm
              refine ⟨e, he, hown, ?_⟩
              cases act with
              | Move =>
                  rcases movement_moves_cases s hwfb he m hm with h | h
                  · obtain ⟨b, heq, hq⟩ := h
                    exact Or.inl ⟨b, heq, fun q hq' => by
                      rw [← hown]; exact hq q hq'⟩
                  · obtain ⟨y, e', heq, he', hy, hyne, ho2⟩ := h
                    exact Or.inr (Or.inr ⟨y, e', heq, he', hy, hyne,
                      by rw [ho2, hown]⟩)
              | Rotate =>
                  rcases rotation_moves_cases s hwfb he m hm with h | h
                  · exact Or.inr (Or.inl h)
                  · obtain ⟨y, e', heq, he', hy, hyne, ho2⟩ := h
                    exact Or.inr (Or.inr ⟨y, e', heq, he', hy, hyne,
                      by rw [ho2, hown]⟩)
              | MoveOrRotate =>
                  rcases List.mem_append.mp hm with hm' | hm'
                  · rcases movement_moves_cases s hwfb he m hm' with h | h
                    · obtain ⟨b, heq, hq⟩ := h
                      exact Or.inl ⟨b, heq, fun q hq' => by
                        rw [← hown]; exact hq q hq'⟩
                    · obtain ⟨y, e', heq, he', hy, hyne, ho2⟩ := h
                      exact Or.inr (Or.inr ⟨y, e', heq, he', hy, hyne,
                        by rw [ho2, hown]⟩)
                  · rcases rotation_moves_cases s hwfb he m hm' with h | h
                    · exact Or.inr (Or.inl h)
                    · obtain ⟨y, e', heq, he', hy, hyne, ho2⟩ := h
                      exact Or.inr (Or.inr ⟨y, e', heq, he', hy, hyne,
                        by rw [ho2, hown]⟩)
      · revert hm
        split
        · intro hm
          exact Or.inr (Or.inr (Or.inr
            (generate_rebirth_moves_facts s m hm)))
        · intro hm; simp at hm

lemma facing_is_king (p : Piece) (nf : Nat) :
    ({ p with facing := nf } : Piece).is_king = p.is_king := rfl

lemma facing_owner (p : Piece) (nf : Nat) :
    ({ p with facing := nf } : Piece).owner = p.owner := rfl

lemma boardRemove_absent {b : Board} {h : Hex} (hg : boardGet b h = none) :
    boardRemove b h = b := by
  unfold boardRemove
  rw [List.filter_eq_self]
  intro e he
  have hfind : b.find? (fun e => decide (e.1 = h)) = none := by
    simpa [boardGet, Option.map_eq_none'] using hg
  have hne := List.find?_eq_none.mp hfind e he
  simpa using hne

lemma king_invariant_iff_get {b : Board} (hwf : boardWF b) (o : Player)
    (kp : Option Hex) :
    king_invariant b o kp ↔ king_invariant_get b o kp := by
  unfold king_invariant king_invariant_get
  constructor <;> rintro ⟨h1, h2⟩ <;> refine ⟨?_, h2⟩
  · constructor
    · rintro ⟨h, p, hg, ho, hk⟩
      exact h1.mp ⟨(h, p), boardGet_mem hg, ho, hk⟩
    · intro hs
      obtain ⟨e, he, ho, hk⟩ := h1.mpr hs
      exact ⟨e.1, e.2,
        mem_boardGet hwf (by rw [Prod.mk.eta]; exact he), ho, hk⟩
  · constructor
    · rintro ⟨e, he, ho, hk⟩
      exact h1.mp ⟨e.1, e.2,
        mem_boardGet hwf (by rw [Prod.mk.eta]; exact he), ho, hk⟩
    · intro hs
      obtain ⟨h, p, hg, ho, hk⟩ := h1.mpr hs
      exact ⟨(h, p), boardGet_mem hg, ho, hk⟩

lemma movement_board_get (b : Board) (fp tp : Hex) (mover' : Piece)
    (h' : Hex) :
    boardGet (boardInsert (boardRemove (boardRemove b fp) tp) tp mover') h' =
      if tp = h' then some mover'
      else if fp = h' then none
      else boardGet b h' := by
  rw [boardGet_insert, boardGet_remove, boardGet_remove]
  by_cases h1 : tp = h' <;> by_cases h2 : fp = h' <;> simp [h1, h2]

lemma kig_move_king (b : Board) (o : Player) (fp tp : Hex) (mover : Piece)
    (nf : Nat) (howner : mover.owner = o) (hk : mover.is_king = true) :
    king_invariant_get
      (boardInsert (boardRemove (boardRemove b fp) tp) tp
        { mover with facing := nf })
      o (some tp) := by
  constructor
  · constructor
    · intro _; rfl
    · intro _
      exact ⟨tp, { mover with facing := nf },
        by rw [movement_board_get, if_pos rfl],
        by rw [facing_owner]; exact howner,
        by rw [facing_is_king]; exact hk⟩
  · intro h hh
    injection hh with hh'
    subst hh'
    exact ⟨{ mover with facing := nf },
      by rw [movement_board_get, if_pos rfl],
      by rw [facing_owner]; exact howner,
      by rw [facing_is_king]; exact hk⟩

lemma kig_move_other (b : Board) (o : Player) (kp : Option Hex) (fp tp : Hex)
    (mover : Piece) (nf : Nat)
    (hfrom : boardGet b fp = some mover)
    (hnk : ∀ q, boardGet b tp = some q → q.is_king = false)
    (hnotmine : mover.owner ≠ o ∨ mover.is_king = false)
    (hki : king_invariant_get b o kp) :
    king_invariant_get
      (boardInsert (boardRemove (boardRemove b fp) tp) tp
        { mover with facing := nf })
      o kp := by
  obtain ⟨h1, h2⟩ := hki
  have hmover_not : ¬ (mover.owner = o ∧ mover.is_king = true) := by
    rintro ⟨ho, hk⟩
    rcases hnotmine with hno | hnk'
    · exact hno ho
    · rw [hk] at hnk'; cases hnk'
  constructor
  · constructor
    · rintro ⟨h, p, hg, ho, hk⟩
      rw [movement_board_get] at hg
      by_cases htp : tp = h
      · rw [if_pos htp] at hg
        injection hg with hg'
        subst hg'
        exact absurd ⟨by rw [facing_owner] at ho; exact ho,
          by rw [facing_is_king] at hk; exact hk⟩ hmover_not
      · rw [if_neg htp] at hg
        by_cases hfp : fp = h
        · rw [if_pos hfp] at hg; cases hg
        · rw [if_neg hfp] at hg
          exact h1.mp ⟨h, p, hg, ho, hk⟩
    · intro hs
      obtain ⟨h, p, hg, ho, hk⟩ := h1.mpr hs
      have hhfp : h ≠ fp := by
        intro hc
        subst hc
        rw [hfrom] at hg
        injection hg with hg'
        subst hg'
        exact hmover_not ⟨ho, hk⟩
      have hhtp : h ≠ tp := by
        intro hc
        subst hc
        rw [hnk p hg] at hk
        cases hk
      refine ⟨h, p, ?_, ho, hk⟩
      rw [movement_board_get, if_neg (fun hc => hhtp hc.symm),
        if_neg (fun hc => hhfp hc.symm)]
      exact hg
  · intro h hh
    obtain ⟨p, hg, ho, hk⟩ := h2 h hh
    have hhfp : h ≠ fp := by
      intro hc
      subst hc
      rw [hfrom] at hg
      injection hg with hg'
      subst hg'
      exact hmover_not ⟨ho, hk⟩
    have hhtp : h ≠ tp := by
      intro hc
      subst hc
      rw [hnk p hg] at hk
      cases hk
    refine ⟨p, ?_, ho, hk⟩
    rw [movement_board_get, if_neg (fun hc => hhtp hc.symm),
      if_neg (fun hc => hhfp hc.symm)]
    exact hg

lemma swap_board_get (b : Board) (fp tp : Hex) (p1 p2 : Piece) (h' : Hex) :
    boardGet
      (boardInsert (boardInsert (boardRemove (boardRemove b fp) tp) fp p2)
        tp p1) h' =
      if tp = h' then some p1
      else if fp = h' then some p2
      else boardGet b h' := by
  rw [boardGet_insert, boardGet_insert, boardGet_remove, boardGet_remove]
  by_cases h1 : tp = h' <;> by_cases h2 : fp = h' <;> simp [h1, h2]

lemma kig_swap (b : Board) (o : Player) (kp : Option Hex) (fp tp : Hex)
    (p1 p2 : Piece)
    (h1 : boardGet b fp = some p1) (h2 : boardGet b tp = some p2)
    (hki : king_invariant_get b o kp) :
    king_invariant_get
      (boardInsert (boardInsert (boardRemove (boardRemove b fp) tp) fp p2)
        tp p1) o
      (if kp = some fp then some tp
        else if kp = some tp then some fp else kp) := by
  obtain ⟨hiff, hpt⟩ := hki
  have hget_tp : boardGet
      (boardInsert (boardInsert (boardRemove (boardRemove b fp) tp) fp p2)
        tp p1) tp = some p1 := by
    rw [swap_board_get, if_pos rfl]
  have hget_fp : boardGet
      (boardInsert (boardInsert (boardRemove (boardRemove b fp) tp) fp p2)
        tp p1) fp = some p2 := by
    rw [swap_board_get]
    by_cases hfptp : tp = fp
    · rw [if_pos hfptp]
      rw [hfptp] at h2
      rw [h1] at h2
      exact h2
    · rw [if_neg hfptp, if_pos rfl]
  have hget_other : ∀ h, h ≠ fp → h ≠ tp →
      boardGet (boardInsert
        (boardInsert (boardRemove (boardRemove b fp) tp) fp p2) tp p1) h =
      boardGet b h := by
    intro h hhfp hhtp
    rw [swap_board_get, if_neg (fun hc => hhtp hc.symm),
      if_neg (fun hc => hhfp hc.symm)]
  constructor
  · have hsome : (if kp = some fp then some tp
        else if kp = some tp then some fp else kp).isSome = kp.isSome := by
      by_cases hc1 : kp = some fp
      · rw [if_pos hc1, hc1]
        rfl
      · by_cases hc2 : kp = some tp
        · rw [if_neg hc1, if_pos hc2, hc2]
          rfl
        · rw [if_neg hc1, if_neg hc2]
    rw [hsome, ← hiff]
    constructor
    · rintro ⟨h, p, hg, ho, hk⟩
      rw [swap_board_get] at hg
      by_cases htp : tp = h
      · rw [if_pos htp] at hg
        injection hg with hg'
        exact ⟨fp, p, by rw [h1, hg'], ho, hk⟩
      · rw [if_neg htp] at hg
        by_cases hfp : fp = h
        · rw [if_pos hfp] at hg
          injection hg with hg'
          exact ⟨tp, p, by rw [h2, hg'], ho, hk⟩
        · rw [if_neg hfp] at hg
          exact ⟨h, p, hg, ho, hk⟩
    · rintro ⟨h, p, hg, ho, hk⟩
      by_cases hhfp : h = fp
      · subst hhfp
        rw [h1] at hg
        injection hg with hg'
        exact ⟨tp, p, by rw [hget_tp, hg'], ho, hk⟩
      · by_cases hhtp : h = tp
        · subst hhtp
          rw [h2] at hg
          injection hg with hg'
          exact ⟨fp, p, by rw [hget_fp, hg'], ho, hk⟩
        · exact ⟨h, p, by rw [hget_other h hhfp hhtp]; exact hg, ho, hk⟩
  · intro h hh
    by_cases hc1 : kp = some fp
    · rw [if_pos hc1] at hh
      injection hh with hh'
      subst hh'
      obtain ⟨p, hg, ho, hk⟩ := hpt fp hc1
      rw [h1] at hg
      injection hg with hg'
      exact ⟨p, by rw [hget_tp, hg'], ho, hk⟩
    · rw [if_neg hc1] at hh
      by_cases hc2 : kp = some tp
      · rw [if_pos hc2] at hh
        injection hh with hh'
        subst hh'
        obtain ⟨p, hg, ho, hk⟩ := hpt tp hc2
        rw [h2] at hg
        injection hg with hg'
        exact ⟨p, by rw [hget_fp, hg'], ho, hk⟩
      · rw [if_neg hc2] at hh
        obtain ⟨p, hg, ho, hk⟩ := hpt h hh
        have hhfp : h ≠ fp := fun hc => hc1 (by rw [← hc]; exact hh)
        have hhtp : h ≠ tp := fun hc => hc2 (by rw [← hc]; exact hh)
        exact ⟨p, by rw [hget_other h hhfp hhtp]; exact hg, ho, hk⟩

lemma kig_rebirth (b : Board) (o : Player) (kp : Option Hex) (dest : Hex)
    (ph : Piece)
    (hempty : boardGet b dest = none) (hph : ph.is_king = false)
    (hki : king_invariant_get b o kp) :
    king_invariant_get (boardInsert b dest ph) o kp := by
  obtain ⟨hiff, hpt⟩ := hki
  constructor
  · rw [← hiff]
    constructor
    · rintro ⟨h, p, hg, ho, hk⟩
      rw [boardGet_insert] at hg
      by_cases hd : dest = h
      · rw [if_pos hd] at hg
        injection hg with hg'
        subst hg'
        rw [hph] at hk
        cases hk
      · rw [if_neg hd] at hg
        exact ⟨h, p, hg, ho, hk⟩
    · rintro ⟨h, p, hg, ho, hk⟩
      refine ⟨h, p, ?_, ho, hk⟩
      rw [boardGet_insert, if_neg ?_]
      · exact hg
      · intro hc
        rw [hc] at hempty
        rw [hempty] at hg
        cases hg
  · intro h hh
    obtain ⟨p, hg, ho, hk⟩ := hpt h hh
    refine ⟨p, ?_, ho, hk⟩
    rw [boardGet_insert, if_neg ?_]
    · exact hg
    · intro hc
      rw [hc] at hempty
      rw [hempty] at hg
      cases hg

lemma boardGet_map_facing (b : Board) (pos : Hex) (nf : Nat) (h : Hex) :
    boardGet (b.map (fun e =>
      if e.1 = pos then (e.1, { e.2 with facing := nf }) else e)) h =
    (boardGet b h).map
      (fun p => if h = pos then { p with facing := nf } else p) := by
  induction b with
  | nil => simp [boardGet]
  | cons e tl ih =>
      obtain ⟨k, q⟩ := e
      by_cases hk : k = pos
      · subst hk
        by_cases hh : k = h
        · subst hh
          simp [boardGet_cons, ih]
        · simp [boardGet_cons, hh, ih]
      · by_cases hh : k = h
        · subst hh
          simp [boardGet_cons, hk, ih]
        · simp [boardGet_cons, hk, hh, ih]

lemma boardWF_map_facing {b : Board} (pos : Hex) (nf : Nat)
    (hb : boardWF b) :
    boardWF (b.map (fun e =>
      if e.1 = pos then (e.1, { e.2 with facing := nf }) else e)) := by
  unfold boardWF at hb ⊢
  rw [List.map_map]
  have heq : (b.map (Prod.fst ∘ fun e =>
      if e.1 = pos then (e.1, { e.2 with facing := nf }) else e)) =
      b.map Prod.fst := by
    apply List.map_congr_left
    intro e he
    by_cases hc : e.1 = pos <;> simp [hc]
  rw [heq]
  exact hb

lemma kig_rotate (b : Board) (o : Player) (kp : Option Hex) (pos : Hex)
    (nf : Nat) (hki : king_invariant_get b o kp) :
    king_invariant_get
      (b.map (fun e =>
        if e.1 = pos then (e.1, { e.2 with facing := nf }) else e))
      o kp := by
  obtain ⟨hiff, hpt⟩ := hki
  constructor
  · rw [← hiff]
    constructor
    · rintro ⟨h, p, hg, ho, hk⟩
      rw [boardGet_map_facing] at hg
      cases hgb : boardGet b h with
      | none => rw [hgb] at hg; cases hg
      | some p0 =>
          rw [hgb] at hg
          injection hg with hg'
          have hg2 : (if h = pos then ({ p0 with facing := nf } : Piece)
              else p0) = p := hg'
          refine ⟨h, p0, hgb, ?_, ?_⟩
          · by_cases hc : h = pos
            · rw [if_pos hc] at hg2
              rw [← hg2, facing_owner] at ho
              exact ho
            · rw [if_neg hc] at hg2
              rw [← hg2] at ho
              exact ho
          · by_cases hc : h = pos
            · rw [if_pos hc] at hg2
              rw [← hg2, facing_is_king] at hk
              exact hk
            · rw [if_neg hc] at hg2
              rw [← hg2] at hk
              exact hk
    · rintro ⟨h, p, hg, ho, hk⟩
      refine ⟨h, if h = pos then { p with facing := nf } else p, ?_, ?_, ?_⟩
      · rw [boardGet_map_facing, hg]
        rfl
      · by_cases hc : h = pos <;> simp [hc, facing_owner, ho]
      · by_cases hc : h = pos <;> simp [hc, facing_is_king, hk]
  · intro h hh
    obtain ⟨p, hg, ho, hk⟩ := hpt h hh
    refine ⟨if h = pos then { p with facing := nf } else p, ?_, ?_, ?_⟩
    · rw [boardGet_map_facing, hg]
      rfl
    · by_cases hc : h = pos <;> simp [hc, facing_owner, ho]
    · by_cases hc : h = pos <;> simp [hc, facing_is_king, hk]

lemma apply_movement_board (s : GameState) (fp tp : Hex) (nf : Nat)
    (mover : Piece) (hfrom : boardGet s.board fp = some mover) :
    (GameState.apply_movement s fp tp nf).board =
      boardInsert (boardRemove (boardRemove s.board fp) tp) tp
        { mover with facing := nf } := by
  simp only [GameState.apply_movement, hfrom]
  (repeat' split) <;> simp_all [boardRemove_absent]

lemma apply_movement_wkp (s : GameState) (fp tp : Hex) (nf : Nat)
    (mover : Piece) (hfrom : boardGet s.board fp = some mover) :
    (GameState.apply_movement s fp tp nf).white_king_pos =
      if mover.is_king = true ∧ s.current_player = .White then some tp
      else s.white_king_pos := by
  simp only [GameState.apply_movement, hfrom]
  (repeat' split) <;> simp_all [facing_is_king]

lemma apply_movement_bkp (s : GameState) (fp tp : Hex) (nf : Nat)
    (mover : Piece) (hfrom : boardGet s.board fp = some mover) :
    (GameState.apply_movement s fp tp nf).black_king_pos =
      if mover.is_king = true ∧ s.current_player = .Black then some tp
      else s.black_king_pos := by
  simp only [GameState.apply_movement, hfrom]
  (repeat' split) <;> simp_all [facing_is_king]

lemma apply_swap_board (s : GameState) (fp tp : Hex) (p1 p2 : Piece)
    (h1 : boardGet s.board fp = some p1)
    (h2 : boardGet s.board tp = some p2) :
    (GameState.apply_swap s fp tp).board =
      boardInsert
        (boardInsert (boardRemove (boardRemove s.board fp) tp) fp p2)
        tp p1 := by
  simp only [GameState.apply_swap, h1, h2]
  (repeat' split) <;> simp_all

lemma apply_swap_wkp (s : GameState) (fp tp : Hex) (p1 p2 : Piece)
    (h1 : boardGet s.board fp = some p1)
    (h2 : boardGet s.board tp = some p2) :
    (GameState.apply_swap s fp tp).white_king_pos =
      (if s.white_king_pos = some fp then some tp
        else if s.white_king_pos = some tp then some fp
        else s.white_king_pos) := by
  simp only [GameState.apply_swap, h1, h2]
  (repeat' split) <;> simp_all

lemma apply_swap_bkp (s : GameState) (fp tp : Hex) (p1 p2 : Piece)
    (h1 : boardGet s.board fp = some p1)
    (h2 : boardGet s.board tp = some p2) :
    (GameState.apply_swap s fp tp).black_king_pos =
      (if s.black_king_pos = some fp then some tp
        else if s.black_king_pos = some tp then some fp
        else s.black_king_pos) := by
  simp only [GameState.apply_swap, h1, h2]
  (repeat' split) <;> simp_all

lemma apply_rebirth_fields (s : GameState) (dest : Hex) (nf : Nat) :
    (GameState.apply_rebirth s dest nf).board =
      boardInsert s.board dest ⟨PT_P1, s.current_player, nf⟩ ∧
    (GameState.apply_rebirth s dest nf).white_king_pos =
      s.white_king_pos ∧
    (GameState.apply_rebirth s dest nf).black_king_pos =
      s.black_king_pos := by
  unfold GameState.apply_rebirth
  split <;> exact ⟨rfl, rfl, rfl⟩

lemma end_turn_fields (t : GameState) :
    (GameState.end_turn t).board = t.board ∧
    (GameState.end_turn t).white_king_pos = t.white_king_pos ∧
    (GameState.end_turn t).black_king_pos = t.black_king_pos ∧
    (GameState.end_turn t).action_index = 0 := by
  simp only [GameState.end_turn, GameState.resolve_by_proximity]
  (repeat' split) <;> exact ⟨rfl, rfl, rfl, rfl⟩

lemma apply_move_kind_invariants (s : GameState) (mv : Move)
    (hwfb : boardWF s.board)
    (hW : king_invariant s.board .White s.white_king_pos)
    (hB : king_invariant s.board .Black s.black_king_pos)
    (hmem : mv ∈ legal_moves s)
    (hnk : ¬ captures_king s mv) :
    king_invariant (GameState.apply_move_kind s mv).board .White
        (GameState.apply_move_kind s mv).white_king_pos ∧
    king_invariant (GameState.apply_move_kind s mv).board .Black
        (GameState.apply_move_kind s mv).black_king_pos ∧
    boardWF (GameState.apply_move_kind s mv).board := by
  have hWg := (king_invariant_iff_get hwfb .White s.white_king_pos).mp hW
  have hBg := (king_invariant_iff_get hwfb .Black s.black_king_pos).mp hB
  rcases legal_moves_facts s hwfb mv hmem with rfl | rfl | ⟨e, he, hown, hc⟩ |
    ⟨d, f', rfl, hempty⟩
  · exact ⟨hW, hB, hwfb⟩
  · exact ⟨hW, hB, hwfb⟩
  · rcases hc with ⟨b, rfl, hocc⟩ | ⟨f', rfl⟩ |
      ⟨y, e', rfl, he', hy, hyne, hown'⟩
    · -- Movement of the entry at e.1 to b
      have hfrom : boardGet s.board e.1 = some e.2 :=
        mem_boardGet hwfb (by rw [Prod.mk.eta]; exact he)
      have hnk' : ∀ q, boardGet s.board b = some q → q.is_king = false := by
        intro q hq
        by_contra hcq
        exact hnk ⟨q, hq, by revert hcq; cases q.is_king <;> simp⟩
      have hbW : boardWF
          (GameState.apply_movement s e.1 b e.2.facing).board := by
        rw [apply_movement_board s e.1 b e.2.facing e.2 hfrom]
        exact boardWF_insert (boardWF_remove (boardWF_remove hwfb _) _) _ _
      refine ⟨?_, ?_, hbW⟩
      · show king_invariant (GameState.apply_movement s e.1 b e.2.facing).board
          .White (GameState.apply_movement s e.1 b e.2.facing).white_king_pos
        rw [king_invariant_iff_get hbW .White _,
          apply_movement_board s e.1 b e.2.facing e.2 hfrom,
          apply_movement_wkp s e.1 b e.2.facing e.2 hfrom]
        by_cases hcase : e.2.is_king = true ∧ s.current_player = .White
        · rw [if_pos hcase]
          exact kig_move_king s.board .White e.1 b e.2 e.2.facing
            (by rw [hown, hcase.2]) hcase.1
        · rw [if_neg hcase]
          refine kig_move_other s.board .White s.white_king_pos e.1 b e.2
            e.2.facing hfrom hnk' ?_ hWg
          by_cases hk : e.2.is_king = true
          · left
            intro hcw
            exact hcase ⟨hk, by rw [← hown]; exact hcw⟩
          · right
            revert hk; cases e.2.is_king <;> simp
      · show king_invariant (GameState.apply_movement s e.1 b e.2.facing).board
          .Black (GameState.apply_movement s e.1 b e.2.facing).black_king_pos
        rw [king_invariant_iff_get hbW .Black _,
          apply_movement_board s e.1 b e.2.facing e.2 hfrom,
          apply_movement_bkp s e.1 b e.2.facing e.2 hfrom]
        by_cases hcase : e.2.is_king = true ∧ s.current_player = .Black
        · rw [if_pos hcase]
          exact kig_move_king s.board .Black e.1 b e.2 e.2.facing
            (by rw [hown, hcase.2]) hcase.1
        · rw [if_neg hcase]
          refine kig_move_other s.board .Black s.black_king_pos e.1 b e.2
            e.2.facing hfrom hnk' ?_ hBg
          by_cases hk : e.2.is_king = true
          · left
            intro hcw
            exact hcase ⟨hk, by rw [← hown]; exact hcw⟩
          · right
            revert hk; cases e.2.is_king <;> simp
    · -- Rotation of the entry at e.1
      have hbW : boardWF (s.board.map (fun e2 =>
          if e2.1 = e.1 then (e2.1, { e2.2 with facing := f' }) else e2)) :=
        boardWF_map_facing e.1 f' hwfb
      exact ⟨(king_invariant_iff_get hbW .White _).mpr
          (kig_rotate s.board .White s.white_king_pos e.1 f' hWg),
        (king_invariant_iff_get hbW .Black _).mpr
          (kig_rotate s.board .Black s.black_king_pos e.1 f' hBg),
        hbW⟩
    · -- Swap of the entries at e.1 and y
      have hfrom : boardGet s.board e.1 = some e.2 :=
        mem_boardGet hwfb (by rw [Prod.mk.eta]; exact he)
      have hto : boardGet s.board y = some e'.2 := by
        rw [← hy]
        exact mem_boardGet hwfb (by rw [Prod.mk.eta]; exact he')
      have hbW : boardWF (GameState.apply_swap s e.1 y).board := by
        rw [apply_swap_board s e.1 y e.2 e'.2 hfrom hto]
        exact boardWF_insert
          (boardWF_insert (boardWF_remove (boardWF_remove hwfb _) _) _ _) _ _
      refine ⟨?_, ?_, hbW⟩
      · show king_invariant (GameState.apply_swap s e.1 y).board .White
          (GameState.apply_swap s e.1 y).white_king_pos
        rw [king_invariant_iff_get hbW .White _,
          apply_swap_board s e.1 y e.2 e'.2 hfrom hto,
          apply_swap_wkp s e.1 y e.2 e'.2 hfrom hto]
        exact kig_swap s.board .White s.white_king_pos e.1 y e.2 e'.2
          hfrom hto hWg
      · show king_invariant (GameState.apply_swap s e.1 y).board .Black
          (GameState.apply_swap s e.1 y).black_king_pos
        rw [king_invariant_iff_get hbW .Black _,
          apply_swap_board s e.1 y e.2 e'.2 hfrom hto,
          apply_swap_bkp s e.1 y e.2 e'.2 hfrom hto]
        exact kig_swap s.board .Black s.black_king_pos e.1 y e.2 e'.2
          hfrom hto hBg
  · -- Rebirth onto the empty hex d
    obtain ⟨hbd, hwk, hbk⟩ := apply_rebirth_fields s d f'
    have hph : (⟨PT_P1, s.current_player, f'⟩ : Piece).is_king = false := rfl
    have hbW : boardWF (GameState.apply_rebirth s d f').board := by
      rw [hbd]
      exact boardWF_insert hwfb _ _
    refine ⟨?_, ?_, hbW⟩
    · show king_invariant (GameState.apply_rebirth s d f').board .White
        (GameState.apply_rebirth s d f').white_king_pos
      rw [king_invariant_iff_get hbW .White _, hbd, hwk]
      exact kig_rebirth s.board .White s.white_king_pos d _ hempty hph hWg
    · show king_invariant (GameState.apply_rebirth s d f').board .Black
        (GameState.apply_rebirth s d f').black_king_pos
      rw [king_invariant_iff_get hbW .Black _, hbd, hbk]
      exact kig_rebirth s.board .Black s.black_king_pos d _ hempty hph hBg

/-- C1 counterexample: in `c1_state` the white king captures the black king
at (0,-1); `apply_movement` removes the captured king and sets the winner
but never clears `black_king_pos`, which keeps pointing at the hex now
occupied by the WHITE king — the resulting state violates well-formedness.
`legal_moves` does emit this move, so the claim's universal statement over
all legal moves is false. -/
theorem C1_counterexample_stale_king_pos_after_king_capture :
    c1_state.result = .Ongoing ∧
    Move.Movement (Hex.mk2 0 0) (Hex.mk2 0 (-1)) 0 ∈ legal_moves c1_state ∧
    captures_king c1_state
      (Move.Movement (Hex.mk2 0 0) (Hex.mk2 0 (-1)) 0) ∧
    ¬ (c1_state.apply_move
        (Move.Movement (Hex.mk2 0 0) (Hex.mk2 0 (-1)) 0)).well_formed := by
  refine ⟨by decide, by decide, by decide, by decide⟩

/-- C1 amended: for every well-formed non-terminal state and every legal
move that does NOT capture a king, the applied state is well-formed (king
position fields match the king pieces on the board, and `action_index` is
within the current player's template length); when a king IS captured the
victim's king-position field goes stale (see the counterexample). -/
theorem C1_apply_preserves_well_formed (s : GameState) (mv : Move)
    (hwfb : boardWF s.board)
    (hwf : s.well_formed)
    (hmem : mv ∈ legal_moves s)
    (hnk : ¬ captures_king s mv) :
    (s.apply_move mv).well_formed := by
  obtain ⟨hW, hB, hidx⟩ := hwf
  obtain ⟨hW1, hB1, hwf1⟩ := apply_move_kind_invariants s mv hwfb hW hB
    hmem hnk
  simp only [GameState.apply_move]
  split
  · rename_i hcomp
    obtain ⟨hbd, hwk, hbk, hai⟩ := end_turn_fields _
    unfold GameState.well_formed
    rw [hbd, hwk, hbk, hai]
    exact ⟨hW1, hB1, Nat.zero_le _⟩
  · rename_i hcomp
    unfold GameState.well_formed
    refine ⟨hW1, hB1, ?_⟩
    simp only [GameState.is_turn_complete, decide_eq_true_eq] at hcomp
    exact le_of_lt (lt_of_not_le hcomp)

/-- C1 witness: the preservation statement instantiated on the quiet guard
move (0,0) -> (1,0) in `c7_state`. -/
theorem C1_apply_preserves_well_formed_witness :
    (c7_state.apply_move
      (Move.Movement (Hex.mk2 0 0) (Hex.mk2 1 0) 0)).well_formed :=
  C1_apply_preserves_well_formed c7_state
    (Move.Movement (Hex.mk2 0 0) (Hex.mk2 1 0) 0)
    (by show (List.map Prod.fst c7_state.board).Nodup; decide)
    (by decide) (by decide) (by decide)

/-- C4 witness: the amended formula evaluated on the two-offending-matchup
list; the code's fitness is the pre-penalty value times 0.09 times 0.5. -/
theorem C4_multi_depth_fitness_formula_witness :
    (4 ≤ md_equal_depth_games c4_matchups) ∧
    (multi_depth_aggregate c4_matchups).fitness =
      md_fitness_pre c4_matchups * (3 / 10) ^ md_offending_count c4_matchups *
        (1 / 2) := by
  refine ⟨by decide, ?_⟩
  rw [C4_multi_depth_fitness_formula c4_matchups]
  rw [if_pos (by decide),
    if_pos (by norm_num [md_skill_gradient, c4_matchups])]

end Hexwar
